import Mathlib

/-!
# Flat-vector projection of docking configurations, and the input-optimizing solver

Shallow embedding of

* `gninasrc/lib/conf.cpp`: `change::operator==`, `change::get_with_node_idx`,
  `conf::operator==`, `conf::get_with_node_idx`, `conf::operator()`;
* `caffe/solvers/inputopt_solver.cpp`: `InputOptSGDSolver::ToggleMaxToAve`,
  `ThresholdBlob`, `Step`, `ComputeUpdateValue`, `ApplyUpdate`, `ClipGradients`,
  `SnapshotSolverStateToBinaryProto` (CPU path);
* `caffe/layers/lstm_data_getter.cpp`: the timestep counter of
  `LSTMDataGetterLayer::Forward_cpu` and `Backward_cpu`, `LayerSetUp`, and the
  strided-cube `GetData` and `AccumulateDiff`.

Conventions.

* The scalar type `fl` is a type parameter `α`.  Only the addressing and the
  comparison of scalars matter here.  `fl` is a floating-point type, so its `!=` is
  not disequality of values: a NaN compares unequal to itself, and the two zeros
  compare equal.  The comparison is therefore handed in as a function `fl_ne`, of
  which nothing is assumed; `fl_sample` is a small scalar type with a NaN and a
  negative zero.
* `sz` is `std::size_t`.  Flat indices are only ever decreased, and only after a
  guard that makes the subtraction exact, so they are plain natural numbers.  The
  node counter is increased through a pointer; these additions are taken modulo
  `2 ^ 64`.
* A function that runs into `__builtin_unreachable()` yields `none`, and so does one
  that reads or writes outside an array.
* `std::vector` is `List`; a `VINA_FOR_IN` loop is a structural recursion over the
  vector, carrying the loop-modified locals (`index`, `*node_idx`).
* The tensor element type `Dtype` is an ordered field `α` (the rationals or the reals,
  not floating point); `std::sqrt` is a function handed in.
* A blob is the list of its elements; a pointer into it is the list and an offset.
* What the solver calls in the net, in the base solver and on the request channel is
  not part of the sources at hand and is handed in as functions (`Collaborators`).
-/

namespace Gnina

/-! ## Data model -/

/-- Number of values of the machine type `sz`. -/
def sz_mod : Nat := 2 ^ 64

/-- The `vec` type: three scalars `data[0]`, `data[1]`, `data[2]`. -/
structure vec (α : Type) where
  x : α
  y : α
  z : α
deriving DecidableEq

/-- The `qt` type (a quaternion), seen as its four raw components in storage order. -/
structure qt (α : Type) where
  a : α
  b : α
  c : α
  d : α
deriving DecidableEq

/-- Indexing `v[i]` of a `vec`, for `i < 3`. -/
def vec.get {α : Type} (v : vec α) (i : Nat) : α :=
  if i = 0 then v.x else if i = 1 then v.y else v.z

/-- Assignment `v[i] = val` on a `vec`, for `i < 3`. -/
def vec.set {α : Type} (v : vec α) (i : Nat) (val : α) : vec α :=
  if i = 0 then { v with x := val } else if i = 1 then { v with y := val }
  else { v with z := val }

/-- Raw component read `((float*)&q)[i]`, for `i < 4`. -/
def qt.raw {α : Type} (q : qt α) (i : Nat) : α :=
  if i = 0 then q.a else if i = 1 then q.b else if i = 2 then q.c else q.d

/-- Raw component write `((float*)&q)[i] = val`, for `i < 4`. -/
def qt.set_raw {α : Type} (q : qt α) (i : Nat) (val : α) : qt α :=
  if i = 0 then { q with a := val } else if i = 1 then { q with b := val }
  else if i = 2 then { q with c := val } else { q with d := val }

/-- Rigid-body pose: position and orientation quaternion. -/
structure rigid_conf (α : Type) where
  position : vec α
  orientation : qt α
deriving DecidableEq

/-- Rigid-body differential: position delta and three angular components. -/
structure rigid_change (α : Type) where
  position : vec α
  orientation : vec α
deriving DecidableEq

/-- Pose of one ligand. -/
structure ligand_conf (α : Type) where
  rigid : rigid_conf α
  torsions : List α
deriving DecidableEq

/-- Differential of one ligand. -/
structure ligand_change (α : Type) where
  rigid : rigid_change α
  torsions : List α
deriving DecidableEq

/-- Pose of one flexible residue. -/
structure residue_conf (α : Type) where
  torsions : List α
deriving DecidableEq

/-- Differential of one flexible residue. -/
structure residue_change (α : Type) where
  torsions : List α
deriving DecidableEq

/-- Configuration: the ligands, then the flexible residues. -/
structure conf (α : Type) where
  ligands : List (ligand_conf α)
  flex : List (residue_conf α)
deriving DecidableEq

/-- Configuration change: same shape as `conf`. -/
structure change (α : Type) where
  ligands : List (ligand_change α)
  flex : List (residue_change α)
deriving DecidableEq

/-! ## `change::get_with_node_idx` -/

/-- Second loop of `change::get_with_node_idx` (over `flex`); falling out of it
reaches `__builtin_unreachable()`. -/
def change.get_flex {α : Type} :
    List (residue_change α) → Nat → Nat → Option α × Nat
  | [], _, node_idx => (none, node_idx)
  | res :: rest, index, node_idx =>
    let node_idx := (node_idx + min index res.torsions.length) % sz_mod
    if h : index < res.torsions.length then (some res.torsions[index], node_idx)
    else change.get_flex rest (index - res.torsions.length) node_idx

/-- First loop of `change::get_with_node_idx` (over `ligands`), followed by the
second loop.  The result is the returned scalar and the final `*node_idx`. -/
def change.get_ligands {α : Type} (flex : List (residue_change α)) :
    List (ligand_change α) → Nat → Nat → Option α × Nat
  | [], index, node_idx => change.get_flex flex index node_idx
  | lig :: rest, index, node_idx =>
    if index < 3 then (some (lig.rigid.position.get index), node_idx)
    else
      let index := index - 3
      if index < 3 then (some (lig.rigid.orientation.get index), node_idx)
      else
        let index := index - 3
        let node_idx := (node_idx + (1 + min index lig.torsions.length)) % sz_mod
        if h : index < lig.torsions.length then (some lig.torsions[index], node_idx)
        else change.get_ligands flex rest (index - lig.torsions.length) node_idx

/-- The method `change::get_with_node_idx(index, node_idx)`.  The value the caller
left in `*node_idx` is the third argument; the first statement overwrites it. -/
def change.get_with_node_idx {α : Type} (c : change α) (index : Nat) (_node_idx : Nat) :
    Option α × Nat :=
  change.get_ligands c.flex c.ligands index 0

/-! ## `conf::get_with_node_idx` -/

/-- Second loop of `conf::get_with_node_idx` (over `flex`). -/
def conf.get_flex {α : Type} :
    List (residue_conf α) → Nat → Nat → Option α × Nat
  | [], _, node_idx => (none, node_idx)
  | res :: rest, index, node_idx =>
    let node_idx := (node_idx + min index res.torsions.length) % sz_mod
    if h : index < res.torsions.length then (some res.torsions[index], node_idx)
    else conf.get_flex rest (index - res.torsions.length) node_idx

/-- First loop of `conf::get_with_node_idx` (over `ligands`), followed by the second
loop.  The node counter is increased before `index -= 4`, as in the source. -/
def conf.get_ligands {α : Type} (flex : List (residue_conf α)) :
    List (ligand_conf α) → Nat → Nat → Option α × Nat
  | [], index, node_idx => conf.get_flex flex index node_idx
  | lig :: rest, index, node_idx =>
    if index < 3 then (some (lig.rigid.position.get index), node_idx)
    else
      let index := index - 3
      if index < 4 then (some (lig.rigid.orientation.raw index), node_idx)
      else
        let node_idx := (node_idx + (1 + min index lig.torsions.length)) % sz_mod
        let index := index - 4
        if h : index < lig.torsions.length then (some lig.torsions[index], node_idx)
        else conf.get_ligands flex rest (index - lig.torsions.length) node_idx

/-- The method `conf::get_with_node_idx(index, node_idx)`.  The third argument is the
value the caller left in `*node_idx`; the method only ever adds to it. -/
def conf.get_with_node_idx {α : Type} (c : conf α) (index : Nat) (node_idx : Nat) :
    Option α × Nat :=
  conf.get_ligands c.flex c.ligands index node_idx

/-! ## `conf::operator()` -/

/-- Second loop of `conf::operator()`, read through the returned reference. -/
def conf.read_flex {α : Type} : List (residue_conf α) → Nat → Option α
  | [], _ => none
  | res :: rest, index =>
    if h : index < res.torsions.length then some res.torsions[index]
    else conf.read_flex rest (index - res.torsions.length)

/-- First loop of `conf::operator()` followed by the second, read through the
returned reference. -/
def conf.read_ligands {α : Type} (flex : List (residue_conf α)) :
    List (ligand_conf α) → Nat → Option α
  | [], index => conf.read_flex flex index
  | lig :: rest, index =>
    if index < 3 then some (lig.rigid.position.get index)
    else
      let index := index - 3
      if index < 4 then some (lig.rigid.orientation.raw index)
      else
        let index := index - 4
        if h : index < lig.torsions.length then some lig.torsions[index]
        else conf.read_ligands flex rest (index - lig.torsions.length)

/-- The value of `c(index)`: the scalar the reference returned by `conf::operator()`
points to. -/
def conf.read {α : Type} (c : conf α) (index : Nat) : Option α :=
  conf.read_ligands c.flex c.ligands index

/-- Second loop of `conf::operator()`, assigned through the returned reference. -/
def conf.assign_flex {α : Type} (val : α) :
    List (residue_conf α) → Nat → Option (List (residue_conf α))
  | [], _ => none
  | res :: rest, index =>
    if index < res.torsions.length then
      some ({ res with torsions := res.torsions.set index val } :: rest)
    else (conf.assign_flex val rest (index - res.torsions.length)).map (fun r => res :: r)

/-- First loop of `conf::operator()` followed by the second, assigned through the
returned reference.  The result is the pair of the two vectors after the write. -/
def conf.assign_ligands {α : Type} (val : α) (flex : List (residue_conf α)) :
    List (ligand_conf α) → Nat → Option (List (ligand_conf α) × List (residue_conf α))
  | [], index => (conf.assign_flex val flex index).map (fun f => ([], f))
  | lig :: rest, index =>
    if index < 3 then
      some ({ lig with rigid := { lig.rigid with position := lig.rigid.position.set index val } }
        :: rest, flex)
    else
      let index := index - 3
      if index < 4 then
        some ({ lig with rigid :=
          { lig.rigid with orientation := lig.rigid.orientation.set_raw index val } } :: rest, flex)
      else
        let index := index - 4
        if index < lig.torsions.length then
          some ({ lig with torsions := lig.torsions.set index val } :: rest, flex)
        else
          (conf.assign_ligands val flex rest (index - lig.torsions.length)).map
            (fun p => (lig :: p.1, p.2))

/-- The configuration after the statement `c(index) = val`. -/
def conf.assign {α : Type} (c : conf α) (index : Nat) (val : α) : Option (conf α) :=
  (conf.assign_ligands val c.flex c.ligands index).map (fun p => { ligands := p.1, flex := p.2 })

/-! ## `num_floats` and `operator==` -/

/-- Modelled from the spec: `conf::num_floats()` is declared in `conf.h`, which is not
part of the sources at hand.  The sum over ligands of `3 + 4 + torsion_count` plus
the sum over residues of `torsion_count`. -/
def conf.num_floats {α : Type} (c : conf α) : Nat :=
  (c.ligands.map (fun l => 3 + 4 + l.torsions.length)).sum
    + (c.flex.map (fun r => r.torsions.length)).sum

/-- Modelled from the spec: `change::num_floats()` is declared in `conf.h`, which is
not part of the sources at hand.  As for `conf`, with 3 in place of 4. -/
def change.num_floats {α : Type} (c : change α) : Nat :=
  (c.ligands.map (fun l => 3 + 3 + l.torsions.length)).sum
    + (c.flex.map (fun r => r.torsions.length)).sum

/-- The comparison loop of `conf::operator==`: `count` iterations starting at `i`.
Each iteration declares a fresh, uninitialised local `ignore`; `ignore i` stands for
whatever it holds in iteration `i`.  Both calls receive `&ignore`, the left operand
of `!=` being evaluated first.  `fl_ne` is the `!=` of the scalar type `fl`; `none`
is a scan that ran into the unreachable end. -/
def conf.eq_loop {α : Type} (fl_ne : α → α → Bool) (c other : conf α)
    (ignore : Nat → Nat) : Nat → Nat → Option Bool
  | 0, _ => some true
  | count + 1, i =>
    let r1 := c.get_with_node_idx i (ignore i)
    let r2 := other.get_with_node_idx i r1.2
    match r1.1, r2.1 with
    | some a, some b =>
      if fl_ne a b then some false
      else conf.eq_loop fl_ne c other ignore count (i + 1)
    | _, _ => none

/-- The operator `conf::operator==`; `none` is the failed `assert` (or a scan that ran
into the unreachable end). -/
def conf.op_eq {α : Type} (fl_ne : α → α → Bool) (c other : conf α)
    (ignore : Nat → Nat) : Option Bool :=
  let n := c.num_floats
  if other.num_floats = n then conf.eq_loop fl_ne c other ignore c.num_floats 0 else none

/-- The comparison loop of `change::operator==`: `count` iterations starting at `i`,
with the local `ignore` and the comparison `fl_ne` as in `conf.eq_loop`. -/
def change.eq_loop {α : Type} (fl_ne : α → α → Bool) (c other : change α)
    (ignore : Nat → Nat) : Nat → Nat → Option Bool
  | 0, _ => some true
  | count + 1, i =>
    let r1 := c.get_with_node_idx i (ignore i)
    let r2 := other.get_with_node_idx i r1.2
    match r1.1, r2.1 with
    | some a, some b =>
      if fl_ne a b then some false
      else change.eq_loop fl_ne c other ignore count (i + 1)
    | _, _ => none

/-- The operator `change::operator==`; `none` is the failed `assert` (or a scan that
ran into the unreachable end). -/
def change.op_eq {α : Type} (fl_ne : α → α → Bool) (c other : change α)
    (ignore : Nat → Nat) : Option Bool :=
  let n := c.num_floats
  if other.num_floats = n then change.eq_loop fl_ne c other ignore c.num_floats 0
  else none

/-! ## The canonical flat ordering (as the specification words it) -/

/-- Scalars of one ligand pose in the canonical order: 3 position scalars, the 4 raw
orientation components, then the torsions in order. -/
def ligand_conf.flat {α : Type} (l : ligand_conf α) : List α :=
  [l.rigid.position.x, l.rigid.position.y, l.rigid.position.z,
    l.rigid.orientation.a, l.rigid.orientation.b, l.rigid.orientation.c,
    l.rigid.orientation.d] ++ l.torsions

/-- Scalars of one ligand differential in the canonical order: 3 position deltas, the
3 angular components, then the torsions in order. -/
def ligand_change.flat {α : Type} (l : ligand_change α) : List α :=
  [l.rigid.position.x, l.rigid.position.y, l.rigid.position.z,
    l.rigid.orientation.x, l.rigid.orientation.y, l.rigid.orientation.z] ++ l.torsions

/-- Canonical flattening of the ligand part of a configuration. -/
def conf.flat_ligands {α : Type} : List (ligand_conf α) → List α
  | [] => []
  | l :: rest => l.flat ++ conf.flat_ligands rest

/-- Canonical flattening of the residue part of a configuration. -/
def conf.flat_flex {α : Type} : List (residue_conf α) → List α
  | [] => []
  | r :: rest => r.torsions ++ conf.flat_flex rest

/-- Canonical flattening of a configuration: every ligand in order, then every
residue in order. -/
def conf.flatten {α : Type} (c : conf α) : List α :=
  conf.flat_ligands c.ligands ++ conf.flat_flex c.flex

/-- Canonical flattening of the ligand part of a change. -/
def change.flat_ligands {α : Type} : List (ligand_change α) → List α
  | [] => []
  | l :: rest => l.flat ++ change.flat_ligands rest

/-- Canonical flattening of the residue part of a change. -/
def change.flat_flex {α : Type} : List (residue_change α) → List α
  | [] => []
  | r :: rest => r.torsions ++ change.flat_flex rest

/-- Canonical flattening of a change: every ligand in order, then every residue in
order. -/
def change.flatten {α : Type} (c : change α) : List α :=
  change.flat_ligands c.ligands ++ change.flat_flex c.flex

/-- Shape of a configuration: the torsion counts of the ligands in order and of the
residues in order (hence also the ligand count and the residue count). -/
def conf.shape {α : Type} (c : conf α) : List Nat × List Nat :=
  (c.ligands.map (fun l => l.torsions.length), c.flex.map (fun r => r.torsions.length))

/-- Copy loop over the flat vector: `count` iterations of
`dst(i) = src.get_with_node_idx(i, &ignore)` starting at flat index `i`. -/
def conf.copy_loop {α : Type} (src : conf α) (ignore : Nat) :
    Nat → Nat → conf α → Option (conf α)
  | 0, _, dst => some dst
  | count + 1, i, dst =>
    match (src.get_with_node_idx i ignore).1 with
    | none => none
    | some v =>
      match dst.assign i v with
      | none => none
      | some dst2 => conf.copy_loop src ignore count (i + 1) dst2

/-- Read every flat scalar of `src` (indices `0 .. num_floats - 1`) and write each
into `dst` at the same flat index. -/
def conf.copy_flat {α : Type} (src dst : conf α) (ignore : Nat) : Option (conf α) :=
  conf.copy_loop src ignore src.num_floats 0 dst

/-! ## Offsets and node numbers, as the specification words them -/

/-- Flat index at which ligand `k` of a change starts: the sum over ligands `j < k`
of `3 + 3 + torsion_count_j`. -/
def change.lig_offset {α : Type} (ligs : List (ligand_change α)) (k : Nat) : Nat :=
  ((ligs.take k).map (fun l => 3 + 3 + l.torsions.length)).sum

/-- Nodes of the ligands before ligand `k`: the sum over ligands `j < k` of
`1 + torsion_count_j`. -/
def change.lig_nodes {α : Type} (ligs : List (ligand_change α)) (k : Nat) : Nat :=
  ((ligs.take k).map (fun l => 1 + l.torsions.length)).sum

/-- Torsions of the residues before residue `r`: the sum over residues `q < r` of
`torsion_count_q`. -/
def change.res_offset {α : Type} (flex : List (residue_change α)) (r : Nat) : Nat :=
  ((flex.take r).map (fun q => q.torsions.length)).sum

/-! ## `InputOptSGDSolver::ThresholdBlob` (CPU path) -/

/-- Body of the loop of `ThresholdBlob` for loop variable `i`:
`if (*(offset_tptr + i) < 0) *(offset_tptr + i) = 0;` with
`offset_tptr = tptr + offset`.  An address outside the blob is not touched. -/
def InputOptSGDSolver.threshold_at {α : Type} [Zero α] [LT α]
    [DecidableRel (fun a b : α => a < b)] (offset : Nat) (data : List α) (i : Nat) : List α :=
  match data[offset + i]? with
  | some x => if x < 0 then data.set (offset + i) 0 else data
  | none => data

/-- CPU branch of `InputOptSGDSolver::ThresholdBlob`.  The blob is the list of its
`count()` elements; `nrec_types`, `nlig_types`, `npoints_` are the solver members.
`blobsize` is `count - nrec_types * npoints_ - nlig_types * npoints_` (exact when the
two products together do not exceed `count`), the loop runs `i = 0 .. blobsize - 1`
on `tptr + nrec_types * npoints_`; its iterations touch distinct elements, so the
`omp parallel for` is the sequential loop. -/
def InputOptSGDSolver.ThresholdBlob {α : Type} [Zero α] [LT α]
    [DecidableRel (fun a b : α => a < b)] (nrec_types nlig_types npoints_ : Nat)
    (tblob : List α) : List α :=
  let blobsize := tblob.length - nrec_types * npoints_ - nlig_types * npoints_
  let offset := nrec_types * npoints_
  (List.range blobsize).foldl (InputOptSGDSolver.threshold_at offset) tblob

/-! ## Sample data -/

/-- A configuration with two ligands (two torsions, one torsion) and three residues
(two, zero and one torsions): 20 flat scalars. -/
def sample_conf : conf Int :=
  { ligands :=
      [ { rigid := { position := ⟨1, 2, 3⟩, orientation := ⟨4, 5, 6, 7⟩ },
          torsions := [8, 9] },
        { rigid := { position := ⟨11, 12, 13⟩, orientation := ⟨14, 15, 16, 17⟩ },
          torsions := [18] } ],
    flex := [⟨[20, 21]⟩, ⟨[]⟩, ⟨[22]⟩] }

/-- A configuration of the same shape as `sample_conf` with other scalars. -/
def sample_conf_zero : conf Int :=
  { ligands :=
      [ { rigid := { position := ⟨0, 0, 0⟩, orientation := ⟨1, 0, 0, 0⟩ },
          torsions := [0, 0] },
        { rigid := { position := ⟨0, 0, 0⟩, orientation := ⟨1, 0, 0, 0⟩ },
          torsions := [0] } ],
    flex := [⟨[0, 0]⟩, ⟨[]⟩, ⟨[0]⟩] }

/-- A change of the same shape as `sample_conf`: 18 flat scalars. -/
def sample_change : change Int :=
  { ligands :=
      [ { rigid := { position := ⟨1, 2, 3⟩, orientation := ⟨4, 5, 6⟩ },
          torsions := [8, 9] },
        { rigid := { position := ⟨11, 12, 13⟩, orientation := ⟨14, 15, 16⟩ },
          torsions := [18] } ],
    flex := [⟨[20, 21]⟩, ⟨[]⟩, ⟨[22]⟩] }

/-- A change of the same shape as `sample_change` with all scalars zero. -/
def sample_change_zero : change Int :=
  { ligands :=
      [ { rigid := { position := ⟨0, 0, 0⟩, orientation := ⟨0, 0, 0⟩ },
          torsions := [0, 0] },
        { rigid := { position := ⟨0, 0, 0⟩, orientation := ⟨0, 0, 0⟩ },
          torsions := [0] } ],
    flex := [⟨[0, 0]⟩, ⟨[]⟩, ⟨[0]⟩] }

/-- A configuration with one ligand carrying one torsion and no residue. -/
def one_torsion_conf : conf Int :=
  { ligands :=
      [ { rigid := { position := ⟨0, 0, 0⟩, orientation := ⟨1, 0, 0, 0⟩ },
          torsions := [5] } ],
    flex := [] }

/-- The change of the same shape as `one_torsion_conf`. -/
def one_torsion_change : change Int :=
  { ligands :=
      [ { rigid := { position := ⟨0, 0, 0⟩, orientation := ⟨0, 0, 0⟩ },
          torsions := [5] } ],
    flex := [] }

/-- The values of the floating-point type `fl` as far as `!=` tells them apart or
fails to: a NaN, the negative zero, and the other numbers (here the integers, `num 0`
being the positive zero). -/
inductive fl_sample where
  | nan
  | neg_zero
  | num (n : Int)
deriving DecidableEq

/-- The comparison `!=` of a floating-point type on `fl_sample`: a NaN compares unequal
to every value, itself included; the two zeros compare equal; numbers compare by
value. -/
def fl_sample.ne : fl_sample → fl_sample → Bool
  | .nan, _ => true
  | _, .nan => true
  | .neg_zero, .neg_zero => false
  | .neg_zero, .num n => n != 0
  | .num m, .neg_zero => m != 0
  | .num m, .num n => m != n

/-- The comparison `!=` of values that are ordinary numbers: disequality. -/
def int_ne (a b : Int) : Bool := a != b

/-- A configuration over `fl_sample` with one ligand carrying two torsions, the
positive zero and a NaN, and no residue: 9 flat scalars. -/
def sample_conf_fl : conf fl_sample :=
  { ligands :=
      [ { rigid := { position := ⟨.num 1, .num 2, .num 3⟩,
                     orientation := ⟨.num 1, .num 0, .num 0, .num 0⟩ },
          torsions := [.num 0, .nan] } ],
    flex := [] }

/-- A configuration over `fl_sample` without a NaN: one ligand carrying one torsion,
the positive zero, and no residue. -/
def sample_conf_zero_fl : conf fl_sample :=
  { ligands :=
      [ { rigid := { position := ⟨.num 1, .num 2, .num 3⟩,
                     orientation := ⟨.num 1, .num 0, .num 0, .num 0⟩ },
          torsions := [.num 0] } ],
    flex := [] }

/-- A change over `fl_sample` with one ligand carrying one torsion, a NaN, and no
residue: 7 flat scalars. -/
def sample_change_fl : change fl_sample :=
  { ligands :=
      [ { rigid := { position := ⟨.num 1, .num 2, .num 3⟩,
                     orientation := ⟨.num 4, .num 5, .num 6⟩ },
          torsions := [.nan] } ],
    flex := [] }

/-! ## `InputOptSGDSolver`: data model

The solver object, as far as `inputopt_solver.cpp` reads and writes it, and the
collaborators it calls (the net, the base solver, the action request channel), which
are outside the sources at hand and enter as functions.  The signed counters
(`iter_`, the intervals, `iters`) are integers; `Step` yields `none` where
`iter_ + iters` leaves the range of `int`, and what is proved of `Step` is proved of
counters in that range. -/

/-- The enumeration `PoolingParameter_PoolMethod`. -/
inductive PoolingParameter_PoolMethod where
  | MAX
  | AVE
  | STOCHASTIC
deriving DecidableEq

/-- A layer of the net as the solver looks at it: its `type()` string and, when
`dynamic_cast<PoolingLayer*>` succeeds on it, its pooling method `pool()`. -/
structure Layer where
  type : String
  pool : Option PoolingParameter_PoolMethod
deriving DecidableEq

/-- The enumeration `SolverAction::Enum`. -/
inductive SolverAction where
  | NONE
  | STOP
  | SNAPSHOT
deriving DecidableEq

/-- A caffe `Blob`: its `count()` values (`data`) and their gradients (`diff`). -/
structure Blob (α : Type) where
  data : List α
  diff : List α

/-- The fields of `SolverParameter` the solver reads. -/
structure SolverParameter (α : Type) where
  momentum : α
  clip_gradients : α
  test_interval : Int
  test_initialization : Bool
  snapshot : Int
  iter_size : Int

/-- The message `SolverState` written by `SnapshotSolverStateToBinaryProto`: the
iteration, the history blob and the data blob.  The fields `learned_net` and
`current_step` come from the base solver and are left out. -/
structure SolverState (α : Type) where
  iter : Int
  history : List α
  datablob : List α

/-- The calls `Step` makes, in the order it makes them. -/
inductive Call where
  | ForwardFromTo (first last : Nat)
  | ClearParamDiffs
  | TestAll
  | ForwardFrom (first : Nat)
  | Backward
  | ApplyUpdate
  | Snapshot
deriving DecidableEq

/-- The solver object: parameters, members of `InputOptSGDSolver`, the layers of its
net, and two records kept for reasoning: the calls made so far (`calls`) and the
snapshots written so far (`snapshots`). -/
structure InputOptSGDSolver (α : Type) where
  param_ : SolverParameter α
  threshold_update_ : Bool
  nrec_types : Nat
  nlig_types : Nat
  npoints_ : Nat
  iter_ : Int
  requested_early_exit_ : Bool
  input_blob_ : Blob α
  history_ : List α
  layers : List Layer
  calls : List Call
  snapshots : List (SolverState α)

/-- The collaborators of the solver.  `sqrt` is `std::sqrt`; `root_solver` is
`Caffe::root_solver()`; `GetLearningRate` gives the rate at a value of `iter_`;
`ForwardFromTo_0_0` gives the data blob after the input layer has run; `Backward`
gives the gradient of the input blob left by `net_->Backward()` in an iteration and
sub-step, for the layers and the input blob as they are at the call; `TestAll` tells
whether testing at a value of `iter_` raises `requested_early_exit_` (the one effect
of testing on the members modelled here); `GetRequestedAction` is the answer of the
poll `Step` makes when `iter_` has a value. -/
structure Collaborators (α : Type) where
  sqrt : α → α
  root_solver : Bool
  GetLearningRate : Int → α
  ForwardFromTo_0_0 : Blob α → Blob α
  Backward : Int → Nat → List Layer → Blob α → List α
  TestAll : Int → Bool
  GetRequestedAction : Int → SolverAction

/-! ## `InputOptSGDSolver`: the update of the input blob (CPU path) -/

/-- Step `i` of an element-wise loop on `Y + off`: the element there, `y`, becomes
`f i y`.  An address outside the array is not touched. -/
def window_update {α : Type} (off : Nat) (f : Nat → α → α) (Y : List α) (i : Nat) :
    List α :=
  match Y[off + i]? with
  | some y => Y.set (off + i) (f i y)
  | none => Y

/-- Modelled from the spec: `caffe_cpu_axpby(N, alpha, X, beta, Y)` belongs to caffe's
math functions, which are not part of the sources at hand.  For `i < N` it sets
`Y[i] = alpha * X[i] + beta * Y[i]` ("history = momentum * history + rate * gradient").
The pointers `X` and `Y` are an array with an offset each. -/
def caffe_cpu_axpby {α : Type} [Add α] [Mul α] (N : Nat) (alpha : α) (X : List α)
    (xoff : Nat) (beta : α) (Y : List α) (yoff : Nat) : List α :=
  (List.range N).foldl
    (window_update yoff (fun i y =>
      match X[xoff + i]? with
      | some x => alpha * x + beta * y
      | none => y)) Y

/-- Modelled from the spec: `caffe_copy(N, X, Y)` belongs to caffe's math functions,
which are not part of the sources at hand.  For `i < N` it sets `Y[i] = X[i]` ("copy
result back into the gradient slot"). -/
def caffe_copy {α : Type} (N : Nat) (X : List α) (xoff : Nat) (Y : List α) (yoff : Nat) :
    List α :=
  (List.range N).foldl
    (window_update yoff (fun i y =>
      match X[xoff + i]? with
      | some x => x
      | none => y)) Y

/-- Modelled from the spec: `Blob::Update()` belongs to caffe's blob class, which is
not part of the sources at hand: the in-place update `value -= diff`. -/
def Blob.Update {α : Type} [Sub α] (b : Blob α) : Blob α :=
  { b with data := List.zipWith (fun v d => v - d) b.data b.diff }

/-- Modelled from the spec: `Blob::sumsq_diff()` belongs to caffe's blob class, which
is not part of the sources at hand: the sum of the squares of the gradient, whose
square root is the gradient's global L2 norm. -/
def Blob.sumsq_diff {α : Type} [Zero α] [Add α] [Mul α] (b : Blob α) : α :=
  (b.diff.map (fun x => x * x)).sum

/-- Modelled from the spec: `Blob::scale_diff(scale_factor)` belongs to caffe's blob
class, which is not part of the sources at hand: every component of the gradient is
multiplied by the factor. -/
def Blob.scale_diff {α : Type} [Mul α] (b : Blob α) (scale_factor : α) : Blob α :=
  { b with diff := b.diff.map (fun x => scale_factor * x) }

/-- The method `ClipGradients()`. -/
def InputOptSGDSolver.ClipGradients {α : Type} [LinearOrderedField α] (sqrt : α → α)
    (s : InputOptSGDSolver α) : InputOptSGDSolver α :=
  let clip_gradients := s.param_.clip_gradients
  if clip_gradients < 0 then s
  else
    let sumsq_diff := s.input_blob_.sumsq_diff
    let l2norm_diff := sqrt sumsq_diff
    if l2norm_diff > clip_gradients then
      let scale_factor := clip_gradients / l2norm_diff
      { s with input_blob_ := s.input_blob_.scale_diff scale_factor }
    else s

/-- The method `ComputeUpdateValue(rate)`, CPU branch.  `blobsize` is
`count - nrec_types * npoints_ - nlig_types * npoints_` (exact when the two products
together do not exceed `count`). -/
def InputOptSGDSolver.ComputeUpdateValue {α : Type} [LinearOrderedField α] (rate : α)
    (s : InputOptSGDSolver α) : InputOptSGDSolver α :=
  let momentum := s.param_.momentum
  let blobsize := s.input_blob_.data.length - s.nrec_types * s.npoints_
    - s.nlig_types * s.npoints_
  let ptr_offset := s.nrec_types * s.npoints_
  let history := caffe_cpu_axpby blobsize rate s.input_blob_.diff ptr_offset momentum
    s.history_ ptr_offset
  let diff := caffe_copy blobsize history ptr_offset s.input_blob_.diff ptr_offset
  { s with history_ := history, input_blob_ := { s.input_blob_ with diff := diff } }

/-- The method `ApplyUpdate()`, CPU path (the log line is left out). -/
def InputOptSGDSolver.ApplyUpdate {α : Type} [LinearOrderedField α] (env : Collaborators α)
    (s : InputOptSGDSolver α) : InputOptSGDSolver α :=
  let rate := env.GetLearningRate s.iter_
  let s := s.ClipGradients env.sqrt
  let s := s.ComputeUpdateValue rate
  let s := { s with input_blob_ := s.input_blob_.Update }
  if s.threshold_update_ then
    { s with input_blob_ :=
        { s.input_blob_ with
          data := InputOptSGDSolver.ThresholdBlob s.nrec_types s.nlig_types s.npoints_
            s.input_blob_.data } }
  else s

/-- The largest value of `int`. -/
def int_max : Int := 2147483647

/-- The smallest value of `int`. -/
def int_min : Int := -2147483648

/-- The solver object as `InputOptSGDPreSolve` and the blob class leave it, in the range
where the size arithmetic of `ComputeUpdateValue` and `ThresholdBlob` is exact and
their loops stay inside the arrays: the protected receptor and ligand parts together
do not exceed the `count()` of the input blob (so `blobsize`, a `size_t`, does not
wrap), that count is an `int`, and the gradient and the history (a blob of the shape
of the input blob) have that count. -/
def InputOptSGDSolver.well_formed {α : Type} (s : InputOptSGDSolver α) : Prop :=
  s.nrec_types * s.npoints_ + s.nlig_types * s.npoints_ ≤ s.input_blob_.data.length
    ∧ s.input_blob_.data.length ≤ 2147483647
    ∧ s.input_blob_.diff.length = s.input_blob_.data.length
    ∧ s.history_.length = s.input_blob_.data.length

instance InputOptSGDSolver.decidable_well_formed {α : Type} (s : InputOptSGDSolver α) :
    Decidable s.well_formed :=
  inferInstanceAs (Decidable (_ ∧ _ ∧ _ ∧ _))

/-- The net works on the input blob in place: the forward pass of the input layer and
the backward pass leave its `count()` as it is. -/
def Collaborators.keeps_count {α : Type} (env : Collaborators α) : Prop :=
  (∀ b : Blob α, (env.ForwardFromTo_0_0 b).data.length = b.data.length
      ∧ (env.ForwardFromTo_0_0 b).diff.length = b.diff.length)
    ∧ ∀ (iter_ : Int) (i : Nat) (layers : List Layer) (b : Blob α),
        (env.Backward iter_ i layers b).length = b.diff.length

/-- A solver whose input blob has two elements, the first one in the protected
receptor part (`nrec_types = npoints_ = 1`, `nlig_types = 0`): values `[10, 10]`,
gradient `[3, 4]`, history `[1, 1]`, momentum `0.9`, thresholding disabled, no test
and no snapshot interval, one sub-step per iteration, three layers the second of which
is a max-pooling layer.  The gradient ceiling is the argument. -/
def sample_solver (α : Type) [LinearOrderedField α] (clip_gradients : α) :
    InputOptSGDSolver α :=
  { param_ :=
      { momentum := 9 / 10, clip_gradients := clip_gradients, test_interval := 0,
        test_initialization := false, snapshot := 0, iter_size := 1 },
    threshold_update_ := false
    nrec_types := 1
    nlig_types := 0
    npoints_ := 1
    iter_ := 0
    requested_early_exit_ := false
    input_blob_ := { data := [10, 10], diff := [3, 4] }
    history_ := [1, 1]
    layers :=
      [ { type := "Input", pool := none },
        { type := "Pooling", pool := some PoolingParameter_PoolMethod.MAX },
        { type := "Convolution", pool := none } ]
    calls := []
    snapshots := [] }

/-- Collaborators for `sample_solver`: rate `0.01`, a net whose backward pass leaves
the gradient as it is, no stop request from testing, and the given square root and
request channel. -/
def sample_env (α : Type) [LinearOrderedField α] (sqrt : α → α)
    (request : Int → SolverAction) : Collaborators α :=
  { sqrt := sqrt
    root_solver := true
    GetLearningRate := fun _ => 1 / 100
    ForwardFromTo_0_0 := fun b => b
    Backward := fun _ _ _ b => b.diff
    TestAll := fun _ => false
    GetRequestedAction := request }

/-! ## `InputOptSGDSolver::ToggleMaxToAve` -/

/-- The search loop of `ToggleMaxToAve` from loop index `i` on, given the layers from
that index on: the index at which the loop breaks with `pool` non-null, or `none` when
`pool` is null after the loop (a break at a Convolution or InnerProduct layer, or no
break at all). -/
def InputOptSGDSolver.ToggleMaxToAve_scan : List Layer → Nat → Option Nat
  | [], _ => none
  | l :: rest, i =>
    if l.pool.isSome then some i
    else if l.type = "Convolution" then none
    else if l.type = "InnerProduct" then none
    else InputOptSGDSolver.ToggleMaxToAve_scan rest (i + 1)

/-- The call `pool->set_pool(method)` on the pooling layer at index `pool`. -/
def Layer.set_pool (layers : List Layer) (pool : Nat) (method : PoolingParameter_PoolMethod) :
    List Layer :=
  match layers[pool]? with
  | some l => layers.set pool { l with pool := some method }
  | none => layers

/-- The method `ToggleMaxToAve()` on the layers of the net: the returned pointer (the
index of the pooling layer, or `none` for `NULL`) and the layers afterwards. -/
def InputOptSGDSolver.ToggleMaxToAve (layers : List Layer) : Option Nat × List Layer :=
  match InputOptSGDSolver.ToggleMaxToAve_scan (layers.drop 1) 1 with
  | some i =>
    match layers[i]? with
    | some l =>
      if l.pool = some PoolingParameter_PoolMethod.MAX then
        (some i, Layer.set_pool layers i PoolingParameter_PoolMethod.AVE)
      else (none, layers)
    | none => (none, layers)
  | none => (none, layers)

/-! ## `InputOptSGDSolver::Step` -/

/-- Record a call in the log of the solver. -/
def InputOptSGDSolver.call {α : Type} (s : InputOptSGDSolver α) (c : Call) :
    InputOptSGDSolver α :=
  { s with calls := s.calls ++ [c] }

/-- The method `SnapshotSolverStateToBinaryProto`: the message it builds (the file name
and the write are left out). -/
def InputOptSGDSolver.SnapshotSolverStateToBinaryProto {α : Type}
    (s : InputOptSGDSolver α) : SolverState α :=
  { iter := s.iter_, history := s.history_, datablob := s.input_blob_.data }

/-- Modelled from the spec: `Solver::Snapshot()` belongs to the base solver, which is
not part of the sources at hand.  It checkpoints the state (iteration count, momentum
history and the current input tensor contents) through the state writer above. -/
def InputOptSGDSolver.Snapshot {α : Type} (s : InputOptSGDSolver α) : InputOptSGDSolver α :=
  { s with
    calls := s.calls ++ [Call.Snapshot]
    snapshots := s.snapshots ++ [s.SnapshotSolverStateToBinaryProto] }

/-- One pass `i` of the gradient-accumulation loop of `Step`:
`ForwardFrom(1)`, `ToggleMaxToAve()`, `Backward()`, and `set_pool(MAX)` on the returned
layer if there is one.  The forward and the backward pass do not change the pooling
method of a layer; the loss value is only reported and is left out. -/
def InputOptSGDSolver.Step_substep {α : Type} (env : Collaborators α)
    (s : InputOptSGDSolver α) (i : Nat) : InputOptSGDSolver α :=
  let s := s.call (Call.ForwardFrom 1)
  let toggled := InputOptSGDSolver.ToggleMaxToAve s.layers
  let pool := toggled.1
  let s := { s with layers := toggled.2 }
  let s := { s.call Call.Backward with
    input_blob_ := { s.input_blob_ with diff := env.Backward s.iter_ i s.layers s.input_blob_ } }
  match pool with
  | some p => { s with layers := Layer.set_pool s.layers p PoolingParameter_PoolMethod.MAX }
  | none => s

/-- The condition under which a pass of the `while` loop of `Step` tests the net, at
the value `iter_` of the iteration counter. -/
def SolverParameter.test_due {α : Type} (p : SolverParameter α) (iter_ : Int) : Bool :=
  decide (p.test_interval ≠ 0) && decide (iter_ % p.test_interval = 0)
    && (decide (iter_ > 0) || p.test_initialization)

/-- The condition under which a pass of the `while` loop of `Step` takes a snapshot,
`iter_` being the already incremented counter and `request` the polled action. -/
def SolverParameter.snapshot_due {α : Type} (p : SolverParameter α) (root_solver : Bool)
    (iter_ : Int) (request : SolverAction) : Bool :=
  (decide (p.snapshot ≠ 0) && decide (iter_ % p.snapshot = 0) && root_solver)
    || decide (request = SolverAction.SNAPSHOT)

/-- The part of a pass of the `while` loop of `Step` from the accumulation loop to the
increment of `iter_`: `iter_size` sub-steps, `ApplyUpdate()`, `++iter_` (the callbacks,
the smoothed loss and the display only report and are left out). -/
def InputOptSGDSolver.Step_advance {α : Type} [LinearOrderedField α]
    (env : Collaborators α) (s : InputOptSGDSolver α) : InputOptSGDSolver α :=
  let s := (List.range s.param_.iter_size.toNat).foldl (InputOptSGDSolver.Step_substep env) s
  let s := (s.call Call.ApplyUpdate).ApplyUpdate env
  { s with iter_ := s.iter_ + 1 }

/-- The first part of a pass of the `while` loop of `Step`: `ClearParamDiffs()` and,
when a test is due, `TestAll()` on the root solver.  Testing can only raise
`requested_early_exit_`. -/
def InputOptSGDSolver.Step_tested {α : Type} (env : Collaborators α)
    (s : InputOptSGDSolver α) : InputOptSGDSolver α :=
  let s := s.call Call.ClearParamDiffs
  if s.param_.test_due s.iter_ && env.root_solver then
    { s.call Call.TestAll with
      requested_early_exit_ := s.requested_early_exit_ || env.TestAll s.iter_ }
  else s

/-- One pass through the body of the `while` loop of `Step`; the flag tells whether the
pass ended in `break`. -/
def InputOptSGDSolver.Step_body {α : Type} [LinearOrderedField α] (env : Collaborators α)
    (s : InputOptSGDSolver α) : InputOptSGDSolver α × Bool :=
  let tested := s.param_.test_due s.iter_
  let s := s.Step_tested env
  if tested && s.requested_early_exit_ then (s, true)
  else
    let s := s.Step_advance env
    let request := env.GetRequestedAction s.iter_
    let s :=
      if s.param_.snapshot_due env.root_solver s.iter_ request then s.Snapshot else s
    if request = SolverAction.STOP then ({ s with requested_early_exit_ := true }, true)
    else (s, false)

/-- The `while (iter_ < stop_iter)` loop of `Step`, run for at most `fuel` passes;
`none` when the passes do not suffice. -/
def InputOptSGDSolver.Step_loop {α : Type} [LinearOrderedField α] (env : Collaborators α)
    (stop_iter : Int) : Nat → InputOptSGDSolver α → Option (InputOptSGDSolver α)
  | 0, s => if s.iter_ < stop_iter then none else some s
  | fuel + 1, s =>
    if s.iter_ < stop_iter then
      let r := s.Step_body env
      if r.2 then some r.1 else InputOptSGDSolver.Step_loop env stop_iter fuel r.1
    else some s

/-- The method `Step(iters)`, its loop run for at most `fuel` passes.  The sum
`iter_ + iters` is formed in `int`: `none` also when it leaves the range of `int`. -/
def InputOptSGDSolver.Step {α : Type} [LinearOrderedField α] (env : Collaborators α)
    (fuel : Nat) (iters : Int) (s : InputOptSGDSolver α) : Option (InputOptSGDSolver α) :=
  let stop_iter := s.iter_ + iters
  if int_min ≤ stop_iter ∧ stop_iter ≤ int_max then
    let s :=
      if s.iter_ = 0 then
        { s.call (Call.ForwardFromTo 0 0) with
          input_blob_ := env.ForwardFromTo_0_0 s.input_blob_ }
      else s
    InputOptSGDSolver.Step_loop env stop_iter fuel s
  else none

/-! ## The calls of a run of `Step`, as the specification words them -/

/-- Calls of `n` gradient-accumulation sub-steps: forward from layer 1, then
backward, `n` times. -/
def substep_calls : Nat → List Call
  | 0 => []
  | n + 1 => substep_calls n ++ [Call.ForwardFrom 1, Call.Backward]

/-- Calls of one full iteration at iteration count `iter`: clear the parameter diffs,
test when a test is due (root solver), `iter_size` sub-steps, one update, and a
snapshot when one is due at the incremented count. -/
def iteration_calls {α : Type} (env : Collaborators α) (p : SolverParameter α)
    (iter : Int) : List Call :=
  [Call.ClearParamDiffs]
    ++ (if p.test_due iter && env.root_solver then [Call.TestAll] else [])
    ++ substep_calls p.iter_size.toNat
    ++ [Call.ApplyUpdate]
    ++ (if p.snapshot_due env.root_solver (iter + 1) (env.GetRequestedAction (iter + 1))
        then [Call.Snapshot] else [])

/-- Calls of `n` full iterations starting at iteration count `iter`. -/
def run_calls {α : Type} (env : Collaborators α) (p : SolverParameter α) :
    Int → Nat → List Call
  | _, 0 => []
  | iter, n + 1 => iteration_calls env p iter ++ run_calls env p (iter + 1) n

/-- Whether the search of `ToggleMaxToAve` stops at a layer: it is a pooling layer, a
Convolution layer or an InnerProduct layer. -/
def Layer.stops_search (l : Layer) : Bool :=
  l.pool.isSome || decide (l.type = "Convolution") || decide (l.type = "InnerProduct")

/-- The solver `sample_solver` (clipping disabled) with snapshot interval `S`. -/
def sample_solver_snapshot (α : Type) [LinearOrderedField α] (S : Int) :
    InputOptSGDSolver α :=
  { sample_solver α (-1) with
    param_ := { (sample_solver α (-1)).param_ with snapshot := S } }

/-! ## `LSTMDataGetterLayer`: the timestep counter -/

/-- The members of `LSTMDataGetterLayer` that `Forward_cpu` and `Backward_cpu` use to
keep track of the timestep, and the bottom and top blobs of the layer (`blobs`).  The
counters are natural numbers: with `num_timesteps >= 1` none of the operations on them
leaves the range of their machine type. -/
structure LSTMDataGetterLayer (β : Type) where
  num_timesteps : Nat
  current_timestep : Nat
  blobs : β

/-- The method `Forward_cpu`.  `forward_blobs t` is what `GetData<apat>` and the
`h_conted` loop do to the blobs at timestep `t`; they read the counter and write blob
memory only. -/
def LSTMDataGetterLayer.Forward_cpu {β : Type} (forward_blobs : Nat → β → β)
    (l : LSTMDataGetterLayer β) : LSTMDataGetterLayer β :=
  let l := { l with blobs := forward_blobs l.current_timestep l.blobs }
  if (l.current_timestep : Int) ≠ (l.num_timesteps : Int) - 1 then
    { l with current_timestep := l.current_timestep + 1 }
  else l

/-- The method `Backward_cpu`.  `backward_blobs t` is what `GetData<apat>`, the
`h_conted` loop and `AccumulateDiff<apat>` do to the blobs at timestep `t`; they read
the counter and write blob memory only. -/
def LSTMDataGetterLayer.Backward_cpu {β : Type} (backward_blobs : Nat → β → β)
    (l : LSTMDataGetterLayer β) : LSTMDataGetterLayer β :=
  let l := { l with blobs := backward_blobs l.current_timestep l.blobs }
  if l.current_timestep ≠ 0 then
    { l with current_timestep := l.current_timestep - 1 }
  else l

/-- A call of one of the two passes of the layer. -/
inductive LayerCall where
  | Forward
  | Backward
deriving DecidableEq

/-- A sequence of `Forward_cpu` and `Backward_cpu` calls on the layer, in order. -/
def LSTMDataGetterLayer.run {β : Type} (forward_blobs backward_blobs : Nat → β → β)
    (l : LSTMDataGetterLayer β) : List LayerCall → LSTMDataGetterLayer β
  | [] => l
  | LayerCall.Forward :: rest =>
    LSTMDataGetterLayer.run forward_blobs backward_blobs (l.Forward_cpu forward_blobs) rest
  | LayerCall.Backward :: rest =>
    LSTMDataGetterLayer.run forward_blobs backward_blobs (l.Backward_cpu backward_blobs) rest

/-- A layer with four timesteps, as `LayerSetUp` leaves it, the blobs left abstract. -/
def sample_layer : LSTMDataGetterLayer Unit :=
  { num_timesteps := 4, current_timestep := 0, blobs := () }

/-! ## `LSTMDataGetter`: the strided-cube access pattern

The loop counters and the offsets of `GetData` and `AccumulateDiff` are `unsigned`.
Every `unsigned` value is a natural number below `2 ^ 32`; a sum or product of
`unsigned` values is the remainder of the exact result, so an expression built from
`+` and `*` alone is the remainder of its exact value.  A division by 0 traps: the
loops yield `none` when they reach one. -/

/-- Number of values of the machine type `unsigned`. -/
def unsigned_mod : Nat := 2 ^ 32

/-- The members of the layer that `LayerSetUp` sets and the strided-cube access
reads. -/
structure LSTMDataGetter where
  num_timesteps : Nat
  batch_size : Nat
  ntypes : Nat
  dim : Nat
  subgrid_dim : Nat
  cube_stride : Nat
  example_size : Nat
  current_timestep : Nat
deriving DecidableEq

/-- The method `LayerSetUp`, as far as it sets the members above.  `shape0 .. shape3`
are `bottom[0]->shape(0 .. 3)`, `stride` is `param.stride()`, `resolution` is
`mgrid_param.resolution()` (not 0), and `subgrid_dim` is the value the member of that
name holds when `subgrid_dim = ::round(subgrid_dim / resolution) + 1` reads it. -/
def LSTMDataGetter.LayerSetUp (shape0 shape1 shape2 shape3 stride resolution subgrid_dim : Nat) :
    LSTMDataGetter :=
  { cube_stride := stride
    num_timesteps := shape0
    batch_size := shape1
    ntypes := shape2
    dim := shape3
    subgrid_dim := (subgrid_dim / resolution + 1) % unsigned_mod
    example_size := (shape2 * shape3 * shape3 * shape3) % unsigned_mod
    current_timestep := 0 }

/-- The local `factor` of the strided-cube loops:
`((dim - subgrid_dim) / cube_stride) + 1` (its value where `cube_stride` is not 0). -/
def LSTMDataGetter.factor (L : LSTMDataGetter) : Nat :=
  ((L.dim + unsigned_mod - L.subgrid_dim) % unsigned_mod / L.cube_stride + 1) % unsigned_mod

/-- The local `x_offset`: `(current_timestep / (factor * factor)) * cube_stride` (its
value where `factor * factor` is not 0). -/
def LSTMDataGetter.x_offset (L : LSTMDataGetter) : Nat :=
  (L.current_timestep / ((L.factor * L.factor) % unsigned_mod) * L.cube_stride) % unsigned_mod

/-- The local `y_offset`: `(current_timestep / factor) * cube_stride` (its value where
`factor` is not 0). -/
def LSTMDataGetter.y_offset (L : LSTMDataGetter) : Nat :=
  (L.current_timestep / L.factor * L.cube_stride) % unsigned_mod

/-- The local `z_offset`: `(current_timestep % factor) * cube_stride` (its value where
`factor` is not 0). -/
def LSTMDataGetter.z_offset (L : LSTMDataGetter) : Nat :=
  (L.current_timestep % L.factor * L.cube_stride) % unsigned_mod

/-- The offset into the full grid used by both loops:
`batch_idx * example_size
  + (((x_offset + i) * dim + y_offset + j) * dim + z_offset + k) * dim`.
The channel counter `grid` does not occur in it. -/
def LSTMDataGetter.grid_index (L : LSTMDataGetter) (batch_idx i j k : Nat) : Nat :=
  (batch_idx * L.example_size
    + (((L.x_offset + i) * L.dim + L.y_offset + j) * L.dim + L.z_offset + k) * L.dim)
    % unsigned_mod

/-- The offset into the sub-cube array used by both loops:
`(((batch_idx * ntypes + grid) * subgrid_dim + i) * subgrid_dim + j) * subgrid_dim + k`. -/
def LSTMDataGetter.cube_index (L : LSTMDataGetter) (batch_idx grid i j k : Nat) : Nat :=
  ((((batch_idx * L.ntypes + grid) * L.subgrid_dim + i) * L.subgrid_dim + j) * L.subgrid_dim
    + k) % unsigned_mod

/-- Whether the divisions in the body of the innermost loop are defined: none of the
divisors `cube_stride`, `factor * factor` (an `unsigned` product) and `factor` is 0. -/
def LSTMDataGetter.divisors_nonzero (L : LSTMDataGetter) : Bool :=
  decide (L.cube_stride ≠ 0) && decide ((L.factor * L.factor) % unsigned_mod ≠ 0)
    && decide (L.factor ≠ 0)

/-- The body of the innermost loop of `GetData<strided_cube>`: the offsets are computed
and `dest[cube_index] = src[grid_index]`; `none` when a divisor is 0 or an offset lies
outside its array. -/
def LSTMDataGetter.GetData_assign {α : Type} (L : LSTMDataGetter) (src : List α)
    (batch_idx grid i j k : Nat) (dest : List α) : Option (List α) :=
  if L.divisors_nonzero then
    match src[L.grid_index batch_idx i j k]? with
    | some v =>
      if L.cube_index batch_idx grid i j k < dest.length then
        some (dest.set (L.cube_index batch_idx grid i j k) v)
      else none
    | none => none
  else none

/-- The method `GetData<AccessPattern::strided_cube>(src, dest)`: the five nested loops;
the result is the array `dest` afterwards. -/
def LSTMDataGetter.GetData {α : Type} (L : LSTMDataGetter) (src dest : List α) :
    Option (List α) :=
  (List.range L.batch_size).foldlM (fun dest batch_idx =>
    (List.range L.ntypes).foldlM (fun dest grid =>
      (List.range L.subgrid_dim).foldlM (fun dest i =>
        (List.range L.subgrid_dim).foldlM (fun dest j =>
          (List.range L.subgrid_dim).foldlM (fun dest k =>
            L.GetData_assign src batch_idx grid i j k dest) dest) dest) dest) dest) dest

/-- The body of the innermost loop of `AccumulateDiff<strided_cube>`: the offsets are
computed and `dest[grid_index] += src[cube_index]`; `none` when a divisor is 0 or an
offset lies outside its array. -/
def LSTMDataGetter.AccumulateDiff_assign {α : Type} [Add α] (L : LSTMDataGetter)
    (src : List α) (batch_idx grid i j k : Nat) (dest : List α) : Option (List α) :=
  if L.divisors_nonzero then
    match src[L.cube_index batch_idx grid i j k]?, dest[L.grid_index batch_idx i j k]? with
    | some v, some a => some (dest.set (L.grid_index batch_idx i j k) (a + v))
    | _, _ => none
  else none

/-- The method `AccumulateDiff<AccessPattern::strided_cube>(src, dest)`: the five nested
loops; the result is the array `dest` afterwards. -/
def LSTMDataGetter.AccumulateDiff {α : Type} [Add α] (L : LSTMDataGetter)
    (src dest : List α) : Option (List α) :=
  (List.range L.batch_size).foldlM (fun dest batch_idx =>
    (List.range L.ntypes).foldlM (fun dest grid =>
      (List.range L.subgrid_dim).foldlM (fun dest i =>
        (List.range L.subgrid_dim).foldlM (fun dest j =>
          (List.range L.subgrid_dim).foldlM (fun dest k =>
            L.AccumulateDiff_assign src batch_idx grid i j k dest) dest) dest) dest) dest) dest

/-! ## Sums over arrays, as the specification words them -/

/-- The sum over all positions `p` of `u[p] * v[p]`. -/
def dot {α : Type} [Zero α] [Add α] [Mul α] (u v : List α) : α :=
  (List.zipWith (fun a b => a * b) u v).sum

/-- The positions `(batch_idx, grid, i, j, k)` of the sub-cube array, in the order of
the loops. -/
def LSTMDataGetter.cells (L : LSTMDataGetter) : List (Nat × Nat × Nat × Nat × Nat) :=
  (List.range L.batch_size).flatMap fun b =>
    (List.range L.ntypes).flatMap fun g =>
      (List.range L.subgrid_dim).flatMap fun i =>
        (List.range L.subgrid_dim).flatMap fun j =>
          (List.range L.subgrid_dim).map fun k => (b, g, i, j, k)

/-- The offset into the full grid that the loops use at a position. -/
def LSTMDataGetter.cell_grid_index (L : LSTMDataGetter) (c : Nat × Nat × Nat × Nat × Nat) :
    Nat :=
  L.grid_index c.1 c.2.2.1 c.2.2.2.1 c.2.2.2.2

/-- The offset into the sub-cube array that the loops use at a position. -/
def LSTMDataGetter.cell_cube_index (L : LSTMDataGetter) (c : Nat × Nat × Nat × Nat × Nat) :
    Nat :=
  L.cube_index c.1 c.2.1 c.2.2.1 c.2.2.2.1 c.2.2.2.2

/-- The sum of the entries of the sub-cube array `y` at the positions whose `GetData`
read comes from cell `q` of the full grid. -/
def LSTMDataGetter.received {α : Type} [Zero α] [Add α] (L : LSTMDataGetter) (y : List α)
    (q : Nat) : α :=
  (((L.cells.zip y).filter (fun cy => decide (L.cell_grid_index cy.1 = q))).map
    (fun cy => cy.2)).sum

/-- The update `d[t] += v` of one cell of an array. -/
def add_at {α : Type} [Add α] (d : List α) (tv : Nat × α) : List α :=
  match d[tv.1]? with
  | some a => d.set tv.1 (a + tv.2)
  | none => d

/-! ## Sample layers -/

/-- A layer with one batch element, one channel and a grid of `2 x 2 x 2` cells, read
as one sub-cube of the same size, at timestep 0. -/
def sample_getter : LSTMDataGetter :=
  LSTMDataGetter.LayerSetUp 1 1 1 2 1 1 1

/-- The layer `sample_getter` with two channels. -/
def sample_getter_two : LSTMDataGetter :=
  LSTMDataGetter.LayerSetUp 1 1 2 2 1 1 1

/-- The layer `sample_getter` over two timesteps: the array `GetData` reads from holds
`num_timesteps * batch_size * example_size = 16` cells. -/
def sample_getter_long : LSTMDataGetter :=
  LSTMDataGetter.LayerSetUp 2 1 1 2 1 1 1

/-- A layer with one batch element, one channel, a grid of `3 x 3 x 3` cells and
sub-cubes of one cell, at timestep 9 of its 27. -/
def sample_getter_late : LSTMDataGetter :=
  { LSTMDataGetter.LayerSetUp 1 1 1 3 1 1 0 with current_timestep := 9 }
/-! ## Returned scalars -/

theorem conf_get_flex_val {α : Type} (flex : List (residue_conf α)) :
    ∀ (i nd : Nat), (conf.get_flex flex i nd).1 = (conf.flat_flex flex)[i]? := by
  induction flex with
  | nil => intro i nd; simp [conf.get_flex, conf.flat_flex]
  | cons res rest ih =>
    intro i nd
    simp only [conf.get_flex, conf.flat_flex]
    by_cases h : i < res.torsions.length
    · rw [dif_pos h, List.getElem?_append_left h, List.getElem?_eq_getElem h]
    · rw [dif_neg h, ih, List.getElem?_append_right (Nat.le_of_not_lt h)]

theorem conf_get_ligands_val {α : Type} (flex : List (residue_conf α))
    (ligs : List (ligand_conf α)) :
    ∀ (i nd : Nat),
      (conf.get_ligands flex ligs i nd).1 = (conf.flat_ligands ligs ++ conf.flat_flex flex)[i]? := by
  induction ligs with
  | nil => intro i nd; simp [conf.get_ligands, conf.flat_ligands, conf_get_flex_val]
  | cons lig rest ih =>
    intro i nd
    simp only [conf.get_ligands, conf.flat_ligands, ligand_conf.flat]
    by_cases h3 : i < 3
    · rw [if_pos h3]
      interval_cases i <;> simp [vec.get]
    · rw [if_neg h3]
      by_cases h4 : i - 3 < 4
      · rw [if_pos h4]
        have h7 : i < 7 := by omega
        interval_cases i <;> simp [qt.raw] at h3 ⊢
      · rw [if_neg h4]
        obtain ⟨j, rfl⟩ : ∃ j, i = j + 7 := ⟨i - 7, by omega⟩
        have e : j + 7 - 3 - 4 = j := by omega
        simp only [e, List.cons_append, List.nil_append, List.getElem?_cons_succ,
          List.append_assoc]
        by_cases h : j < lig.torsions.length
        · rw [dif_pos h, List.getElem?_append_left h, List.getElem?_eq_getElem h]
        · rw [dif_neg h, ih, List.getElem?_append_right (Nat.le_of_not_lt h)]

theorem change_get_flex_val {α : Type} (flex : List (residue_change α)) :
    ∀ (i nd : Nat), (change.get_flex flex i nd).1 = (change.flat_flex flex)[i]? := by
  induction flex with
  | nil => intro i nd; simp [change.get_flex, change.flat_flex]
  | cons res rest ih =>
    intro i nd
    simp only [change.get_flex, change.flat_flex]
    by_cases h : i < res.torsions.length
    · rw [dif_pos h, List.getElem?_append_left h, List.getElem?_eq_getElem h]
    · rw [dif_neg h, ih, List.getElem?_append_right (Nat.le_of_not_lt h)]

theorem change_get_ligands_val {α : Type} (flex : List (residue_change α))
    (ligs : List (ligand_change α)) :
    ∀ (i nd : Nat),
      (change.get_ligands flex ligs i nd).1
        = (change.flat_ligands ligs ++ change.flat_flex flex)[i]? := by
  induction ligs with
  | nil => intro i nd; simp [change.get_ligands, change.flat_ligands, change_get_flex_val]
  | cons lig rest ih =>
    intro i nd
    simp only [change.get_ligands, change.flat_ligands, ligand_change.flat]
    by_cases h3 : i < 3
    · rw [if_pos h3]
      interval_cases i <;> simp [vec.get]
    · rw [if_neg h3]
      by_cases h4 : i - 3 < 3
      · rw [if_pos h4]
        have h6 : i < 6 := by omega
        interval_cases i <;> simp [vec.get] at h3 ⊢
      · rw [if_neg h4]
        obtain ⟨j, rfl⟩ : ∃ j, i = j + 6 := ⟨i - 6, by omega⟩
        have e : j + 6 - 3 - 3 = j := by omega
        simp only [e, List.cons_append, List.nil_append, List.getElem?_cons_succ,
          List.append_assoc]
        by_cases h : j < lig.torsions.length
        · rw [dif_pos h, List.getElem?_append_left h, List.getElem?_eq_getElem h]
        · rw [dif_neg h, ih, List.getElem?_append_right (Nat.le_of_not_lt h)]

theorem conf_read_flex_val {α : Type} (flex : List (residue_conf α)) :
    ∀ (i : Nat), conf.read_flex flex i = (conf.flat_flex flex)[i]? := by
  induction flex with
  | nil => intro i; simp [conf.read_flex, conf.flat_flex]
  | cons res rest ih =>
    intro i
    simp only [conf.read_flex, conf.flat_flex]
    by_cases h : i < res.torsions.length
    · rw [dif_pos h, List.getElem?_append_left h, List.getElem?_eq_getElem h]
    · rw [dif_neg h, ih, List.getElem?_append_right (Nat.le_of_not_lt h)]

theorem conf_read_ligands_val {α : Type} (flex : List (residue_conf α))
    (ligs : List (ligand_conf α)) :
    ∀ (i : Nat),
      conf.read_ligands flex ligs i = (conf.flat_ligands ligs ++ conf.flat_flex flex)[i]? := by
  induction ligs with
  | nil => intro i; simp [conf.read_ligands, conf.flat_ligands, conf_read_flex_val]
  | cons lig rest ih =>
    intro i
    simp only [conf.read_ligands, conf.flat_ligands, ligand_conf.flat]
    by_cases h3 : i < 3
    · rw [if_pos h3]
      interval_cases i <;> simp [vec.get]
    · rw [if_neg h3]
      by_cases h4 : i - 3 < 4
      · rw [if_pos h4]
        have h7 : i < 7 := by omega
        interval_cases i <;> simp [qt.raw] at h3 ⊢
      · rw [if_neg h4]
        obtain ⟨j, rfl⟩ : ∃ j, i = j + 7 := ⟨i - 7, by omega⟩
        have e : j + 7 - 3 - 4 = j := by omega
        simp only [e, List.cons_append, List.nil_append, List.getElem?_cons_succ,
          List.append_assoc]
        by_cases h : j < lig.torsions.length
        · rw [dif_pos h, List.getElem?_append_left h, List.getElem?_eq_getElem h]
        · rw [dif_neg h, ih, List.getElem?_append_right (Nat.le_of_not_lt h)]

theorem conf_get_val {α : Type} (c : conf α) (i nd : Nat) :
    (c.get_with_node_idx i nd).1 = c.flatten[i]? :=
  conf_get_ligands_val c.flex c.ligands i nd

theorem change_get_val {α : Type} (c : change α) (i nd : Nat) :
    (c.get_with_node_idx i nd).1 = c.flatten[i]? :=
  change_get_ligands_val c.flex c.ligands i 0

theorem conf_read_val {α : Type} (c : conf α) (i : Nat) : c.read i = c.flatten[i]? :=
  conf_read_ligands_val c.flex c.ligands i

/-! ## Length of the flat ordering -/

theorem conf_length_flat_flex {α : Type} (flex : List (residue_conf α)) :
    (conf.flat_flex flex).length = (flex.map (fun r => r.torsions.length)).sum := by
  induction flex with
  | nil => rfl
  | cons r rest ih => simp [conf.flat_flex, ih]

theorem conf_length_flat_ligands {α : Type} (ligs : List (ligand_conf α)) :
    (conf.flat_ligands ligs).length = (ligs.map (fun l => 3 + 4 + l.torsions.length)).sum := by
  induction ligs with
  | nil => rfl
  | cons l rest ih => simp [conf.flat_ligands, ligand_conf.flat, ih]; omega

theorem conf_length_flatten {α : Type} (c : conf α) : c.flatten.length = c.num_floats := by
  simp [conf.flatten, conf.num_floats, conf_length_flat_flex, conf_length_flat_ligands]

theorem change_length_flat_flex {α : Type} (flex : List (residue_change α)) :
    (change.flat_flex flex).length = (flex.map (fun r => r.torsions.length)).sum := by
  induction flex with
  | nil => rfl
  | cons r rest ih => simp [change.flat_flex, ih]

theorem change_length_flat_ligands {α : Type} (ligs : List (ligand_change α)) :
    (change.flat_ligands ligs).length
      = (ligs.map (fun l => 3 + 3 + l.torsions.length)).sum := by
  induction ligs with
  | nil => rfl
  | cons l rest ih => simp [change.flat_ligands, ligand_change.flat, ih]; omega

theorem change_length_flatten {α : Type} (c : change α) :
    c.flatten.length = c.num_floats := by
  simp [change.flatten, change.num_floats, change_length_flat_flex,
    change_length_flat_ligands]

/-! ## Writing through `conf::operator()` -/

theorem conf_assign_flex_flat {α : Type} (v : α) (flex : List (residue_conf α)) :
    ∀ (i : Nat), (conf.assign_flex v flex i).map conf.flat_flex
      = if i < (conf.flat_flex flex).length then some ((conf.flat_flex flex).set i v)
        else none := by
  induction flex with
  | nil => intro i; simp [conf.assign_flex, conf.flat_flex]
  | cons res rest ih =>
    intro i
    simp only [conf.assign_flex, conf.flat_flex, List.length_append]
    by_cases h : i < res.torsions.length
    · rw [if_pos h, if_pos (by omega)]
      simp [conf.flat_flex, List.set_append_left _ _ h]
    · rw [if_neg h, Option.map_map]
      have e : (conf.flat_flex ∘ fun r => res :: r)
          = (fun l => res.torsions ++ l) ∘ conf.flat_flex := by
        funext r; simp [conf.flat_flex]
      rw [e, ← Option.map_map, ih]
      by_cases h2 : i - res.torsions.length < (conf.flat_flex rest).length
      · rw [if_pos h2, if_pos (by omega)]
        simp [List.set_append_right _ _ (Nat.le_of_not_lt h)]
      · rw [if_neg h2, if_neg (by omega)]; rfl

theorem conf_assign_flex_shape {α : Type} (v : α) (flex : List (residue_conf α)) :
    ∀ (i : Nat) (f2 : List (residue_conf α)), conf.assign_flex v flex i = some f2 →
      f2.map (fun r => r.torsions.length) = flex.map (fun r => r.torsions.length) := by
  induction flex with
  | nil => intro i f2 h; simp [conf.assign_flex] at h
  | cons res rest ih =>
    intro i f2 h
    simp only [conf.assign_flex] at h
    by_cases hi : i < res.torsions.length
    · rw [if_pos hi] at h
      cases h
      simp
    · rw [if_neg hi] at h
      cases hr : conf.assign_flex v rest (i - res.torsions.length) with
      | none => simp [hr] at h
      | some r2 =>
        simp [hr] at h
        subst h
        simp [ih _ _ hr]

theorem conf_assign_ligands_flat {α : Type} (v : α) (flex : List (residue_conf α))
    (ligs : List (ligand_conf α)) :
    ∀ (i : Nat),
      (conf.assign_ligands v flex ligs i).map
          (fun p => conf.flat_ligands p.1 ++ conf.flat_flex p.2)
        = if i < (conf.flat_ligands ligs ++ conf.flat_flex flex).length then
            some ((conf.flat_ligands ligs ++ conf.flat_flex flex).set i v)
          else none := by
  induction ligs with
  | nil =>
    intro i
    have e : ((fun p : List (ligand_conf α) × List (residue_conf α) =>
        conf.flat_ligands p.1 ++ conf.flat_flex p.2) ∘ fun f => ([], f)) = conf.flat_flex := by
      funext f; simp [conf.flat_ligands]
    simp only [conf.assign_ligands, Option.map_map, e, conf_assign_flex_flat,
      conf.flat_ligands, List.nil_append]
  | cons lig rest ih =>
    intro i
    simp only [conf.assign_ligands]
    by_cases h3 : i < 3
    · rw [if_pos h3]
      interval_cases i <;> simp [vec.set, conf.flat_ligands, ligand_conf.flat]
    · rw [if_neg h3]
      by_cases h4 : i - 3 < 4
      · rw [if_pos h4]
        have h7 : i < 7 := by omega
        interval_cases i <;> simp [qt.set_raw, conf.flat_ligands, ligand_conf.flat] at h3 ⊢
      · rw [if_neg h4]
        obtain ⟨j, rfl⟩ : ∃ j, i = j + 7 := ⟨i - 7, by omega⟩
        have e : j + 7 - 3 - 4 = j := by omega
        simp only [e]
        have hlen : (conf.flat_ligands (lig :: rest) ++ conf.flat_flex flex).length
            = 7 + lig.torsions.length
              + (conf.flat_ligands rest ++ conf.flat_flex flex).length := by
          simp [conf.flat_ligands, ligand_conf.flat]; omega
        have hflat : conf.flat_ligands (lig :: rest) ++ conf.flat_flex flex
            = lig.rigid.position.x :: lig.rigid.position.y :: lig.rigid.position.z ::
              lig.rigid.orientation.a :: lig.rigid.orientation.b :: lig.rigid.orientation.c ::
              lig.rigid.orientation.d ::
              (lig.torsions ++ (conf.flat_ligands rest ++ conf.flat_flex flex)) := by
          simp [conf.flat_ligands, ligand_conf.flat]
        by_cases h : j < lig.torsions.length
        · rw [if_pos h, hlen, if_pos (by omega), hflat]
          simp [conf.flat_ligands, ligand_conf.flat, List.set_append_left _ _ h]
        · rw [if_neg h, Option.map_map]
          have e2 : ((fun p : List (ligand_conf α) × List (residue_conf α) =>
                conf.flat_ligands p.1 ++ conf.flat_flex p.2) ∘ fun p => (lig :: p.1, p.2))
              = (fun l => lig.flat ++ l) ∘
                (fun p : List (ligand_conf α) × List (residue_conf α) =>
                  conf.flat_ligands p.1 ++ conf.flat_flex p.2) := by
            funext p; simp [conf.flat_ligands]
          rw [e2, ← Option.map_map, ih, hlen]
          by_cases h2 : j - lig.torsions.length
              < (conf.flat_ligands rest ++ conf.flat_flex flex).length
          · rw [if_pos h2, if_pos (by omega), hflat]
            simp [ligand_conf.flat, List.set_append_right _ _ (Nat.le_of_not_lt h)]
          · rw [if_neg h2, if_neg (by omega)]; rfl

theorem conf_assign_ligands_shape {α : Type} (v : α) (flex : List (residue_conf α))
    (ligs : List (ligand_conf α)) :
    ∀ (i : Nat) (p : List (ligand_conf α) × List (residue_conf α)),
      conf.assign_ligands v flex ligs i = some p →
        p.1.map (fun l => l.torsions.length) = ligs.map (fun l => l.torsions.length)
          ∧ p.2.map (fun r => r.torsions.length) = flex.map (fun r => r.torsions.length) := by
  induction ligs with
  | nil =>
    intro i p h
    simp only [conf.assign_ligands] at h
    cases hf : conf.assign_flex v flex i with
    | none => simp [hf] at h
    | some f2 =>
      simp [hf] at h
      subst h
      exact ⟨rfl, conf_assign_flex_shape v flex i f2 hf⟩
  | cons lig rest ih =>
    intro i p h
    simp only [conf.assign_ligands] at h
    by_cases h3 : i < 3
    · rw [if_pos h3] at h
      cases h
      simp
    · rw [if_neg h3] at h
      by_cases h4 : i - 3 < 4
      · rw [if_pos h4] at h
        cases h
        simp
      · rw [if_neg h4] at h
        by_cases ht : i - 3 - 4 < lig.torsions.length
        · rw [if_pos ht] at h
          cases h
          simp
        · rw [if_neg ht] at h
          cases hr : conf.assign_ligands v flex rest (i - 3 - 4 - lig.torsions.length) with
          | none => simp [hr] at h
          | some q =>
            simp [hr] at h
            subst h
            have := ih _ _ hr
            simp [this.1, this.2]

theorem conf_assign_flatten {α : Type} (c : conf α) (i : Nat) (v : α) :
    (c.assign i v).map conf.flatten
      = if i < c.num_floats then some (c.flatten.set i v) else none := by
  have h := conf_assign_ligands_flat v c.flex c.ligands i
  rw [← conf_length_flatten]
  simp only [conf.assign, Option.map_map]
  exact h

theorem conf_assign_shape {α : Type} (c c2 : conf α) (i : Nat) (v : α)
    (h : c.assign i v = some c2) : c2.shape = c.shape := by
  simp only [conf.assign] at h
  cases hp : conf.assign_ligands v c.flex c.ligands i with
  | none => simp [hp] at h
  | some p =>
    simp [hp] at h
    subst h
    have := conf_assign_ligands_shape v c.flex c.ligands i p hp
    simp [conf.shape, this.1, this.2]

/-! ## A configuration is determined by its shape and its flat vector -/

theorem conf_flat_flex_inj {α : Type} (f : List (residue_conf α)) :
    ∀ (f2 : List (residue_conf α)),
      f.map (fun r => r.torsions.length) = f2.map (fun r => r.torsions.length) →
      conf.flat_flex f = conf.flat_flex f2 → f = f2 := by
  induction f with
  | nil =>
    intro f2 hs _
    cases f2 with
    | nil => rfl
    | cons r2 rest2 => simp at hs
  | cons r rest ih =>
    intro f2 hs hf
    cases f2 with
    | nil => simp at hs
    | cons r2 rest2 =>
      simp only [List.map_cons, List.cons.injEq] at hs
      simp only [conf.flat_flex] at hf
      obtain ⟨ht, hr⟩ := List.append_inj hf hs.1
      have hrest := ih rest2 hs.2 hr
      cases r
      cases r2
      simp at ht
      simp [ht, hrest]

theorem conf_flat_ligands_inj {α : Type} (flex flex2 : List (residue_conf α))
    (hfs : flex.map (fun r => r.torsions.length) = flex2.map (fun r => r.torsions.length))
    (ligs : List (ligand_conf α)) :
    ∀ (ligs2 : List (ligand_conf α)),
      ligs.map (fun l => l.torsions.length) = ligs2.map (fun l => l.torsions.length) →
      conf.flat_ligands ligs ++ conf.flat_flex flex
        = conf.flat_ligands ligs2 ++ conf.flat_flex flex2 →
      ligs = ligs2 ∧ flex = flex2 := by
  induction ligs with
  | nil =>
    intro ligs2 hs hf
    cases ligs2 with
    | nil =>
      simp only [conf.flat_ligands, List.nil_append] at hf
      exact ⟨rfl, conf_flat_flex_inj flex flex2 hfs hf⟩
    | cons l2 rest2 => simp at hs
  | cons l rest ih =>
    intro ligs2 hs hf
    cases ligs2 with
    | nil => simp at hs
    | cons l2 rest2 =>
      simp only [List.map_cons, List.cons.injEq] at hs
      simp only [conf.flat_ligands, ligand_conf.flat, List.cons_append, List.nil_append,
        List.append_assoc, List.cons.injEq] at hf
      obtain ⟨h1, h2, h3, h4, h5, h6, h7, hrest⟩ := hf
      obtain ⟨ht, hr⟩ := List.append_inj hrest hs.1
      obtain ⟨hl, hx⟩ := ih rest2 hs.2 hr
      refine ⟨?_, hx⟩
      obtain ⟨⟨⟨px, py, pz⟩, ⟨qa, qb, qc, qd⟩⟩, tors⟩ := l
      obtain ⟨⟨⟨px2, py2, pz2⟩, ⟨qa2, qb2, qc2, qd2⟩⟩, tors2⟩ := l2
      simp only at h1 h2 h3 h4 h5 h6 h7 ht
      subst h1 h2 h3 h4 h5 h6 h7 ht hl
      rfl

theorem conf_eq_of_shape_of_flatten {α : Type} (c c2 : conf α)
    (hs : c.shape = c2.shape) (hf : c.flatten = c2.flatten) : c = c2 := by
  simp only [conf.shape, Prod.mk.injEq] at hs
  obtain ⟨h1, h2⟩ := conf_flat_ligands_inj c.flex c2.flex hs.2 c.ligands c2.ligands hs.1 hf
  cases c
  cases c2
  simp only at h1 h2
  subst h1 h2
  rfl

theorem conf_num_floats_of_shape {α : Type} (c c2 : conf α) (hs : c.shape = c2.shape) :
    c.num_floats = c2.num_floats := by
  simp only [conf.shape, Prod.mk.injEq] at hs
  have e1 : c.ligands.map (fun l => 3 + 4 + l.torsions.length)
      = (c.ligands.map (fun l => l.torsions.length)).map (fun n => 3 + 4 + n) := by
    simp
  have e2 : c2.ligands.map (fun l => 3 + 4 + l.torsions.length)
      = (c2.ligands.map (fun l => l.torsions.length)).map (fun n => 3 + 4 + n) := by
    simp
  simp only [conf.num_floats, e1, e2, hs.1, hs.2]

/-! ## The copy loop -/

theorem conf_copy_loop_spec {α : Type} (src : conf α) (ignore : Nat) :
    ∀ (count i : Nat) (dst : conf α), dst.shape = src.shape →
      i + count = src.num_floats →
      (∀ j, j < i → dst.flatten[j]? = src.flatten[j]?) →
      conf.copy_loop src ignore count i dst = some src := by
  intro count
  induction count with
  | zero =>
    intro i dst hs hi hpre
    simp only [conf.copy_loop, Option.some.injEq]
    apply conf_eq_of_shape_of_flatten _ _ hs
    apply List.ext_getElem?
    intro j
    by_cases hj : j < i
    · exact hpre j hj
    · have hn := conf_num_floats_of_shape dst src hs
      rw [List.getElem?_eq_none (by rw [conf_length_flatten]; omega),
        List.getElem?_eq_none (by rw [conf_length_flatten]; omega)]
  | succ count ih =>
    intro i dst hs hi hpre
    have hn := conf_num_floats_of_shape dst src hs
    have hlt : i < src.flatten.length := by rw [conf_length_flatten]; omega
    have hget : (src.get_with_node_idx i ignore).1 = some (src.flatten[i]) := by
      rw [conf_get_val, List.getElem?_eq_getElem hlt]
    have hfl := conf_assign_flatten dst i (src.flatten[i])
    rw [if_pos (by omega)] at hfl
    cases ha : dst.assign i (src.flatten[i]) with
    | none => simp [ha] at hfl
    | some dst2 =>
      simp only [ha, Option.map_some', Option.some.injEq] at hfl
      simp only [conf.copy_loop, hget, ha]
      apply ih (i + 1) dst2 ((conf_assign_shape dst dst2 i _ ha).trans hs) (by omega)
      intro j hj
      rw [hfl, List.getElem?_set]
      by_cases hij : i = j
      · subst hij
        rw [if_pos rfl, if_pos (by rw [conf_length_flatten]; omega),
          List.getElem?_eq_getElem hlt]
      · rw [if_neg hij]
        exact hpre j (by omega)

/-! ## The comparison loops -/

theorem conf_eq_loop_spec {α : Type} (fl_ne : α → α → Bool) (c o : conf α)
    (ignore : Nat → Nat) :
    ∀ (count i : Nat), i + count ≤ c.flatten.length → i + count ≤ o.flatten.length →
      ∃ r, conf.eq_loop fl_ne c o ignore count i = some r
        ∧ (r = true ↔ ∀ j, i ≤ j → j < i + count →
            ∃ a b, c.flatten[j]? = some a ∧ o.flatten[j]? = some b ∧ fl_ne a b = false) := by
  intro count
  induction count with
  | zero =>
    intro i _ _
    refine ⟨true, by simp only [conf.eq_loop], ?_⟩
    simp only [true_iff]
    intro j h1 h2
    omega
  | succ count ih =>
    intro i h1 h2
    have ha : c.flatten[i]? = some c.flatten[i] := List.getElem?_eq_getElem (by omega)
    have hb : o.flatten[i]? = some o.flatten[i] := List.getElem?_eq_getElem (by omega)
    obtain ⟨r, hr, hiff⟩ := ih (i + 1) (by omega) (by omega)
    simp only [conf.eq_loop, conf_get_val, ha, hb]
    cases hne : fl_ne c.flatten[i] o.flatten[i] with
    | true =>
      refine ⟨false, by simp, ?_⟩
      simp only [Bool.false_eq_true, false_iff]
      intro hall
      obtain ⟨a, b, h3, h4, h5⟩ := hall i (Nat.le_refl i) (by omega)
      rw [ha] at h3
      rw [hb] at h4
      cases h3
      cases h4
      rw [hne] at h5
      cases h5
    | false =>
      refine ⟨r, by simpa using hr, ?_⟩
      rw [hiff]
      constructor
      · intro hall j h3 h4
        by_cases hj : j = i
        · subst hj
          exact ⟨_, _, ha, hb, hne⟩
        · exact hall j (by omega) (by omega)
      · intro hall j h3 h4
        exact hall j (by omega) (by omega)

theorem change_eq_loop_spec {α : Type} (fl_ne : α → α → Bool) (c o : change α)
    (ignore : Nat → Nat) :
    ∀ (count i : Nat), i + count ≤ c.flatten.length → i + count ≤ o.flatten.length →
      ∃ r, change.eq_loop fl_ne c o ignore count i = some r
        ∧ (r = true ↔ ∀ j, i ≤ j → j < i + count →
            ∃ a b, c.flatten[j]? = some a ∧ o.flatten[j]? = some b ∧ fl_ne a b = false) := by
  intro count
  induction count with
  | zero =>
    intro i _ _
    refine ⟨true, by simp only [change.eq_loop], ?_⟩
    simp only [true_iff]
    intro j h1 h2
    omega
  | succ count ih =>
    intro i h1 h2
    have ha : c.flatten[i]? = some c.flatten[i] := List.getElem?_eq_getElem (by omega)
    have hb : o.flatten[i]? = some o.flatten[i] := List.getElem?_eq_getElem (by omega)
    obtain ⟨r, hr, hiff⟩ := ih (i + 1) (by omega) (by omega)
    simp only [change.eq_loop, change_get_val, ha, hb]
    cases hne : fl_ne c.flatten[i] o.flatten[i] with
    | true =>
      refine ⟨false, by simp, ?_⟩
      simp only [Bool.false_eq_true, false_iff]
      intro hall
      obtain ⟨a, b, h3, h4, h5⟩ := hall i (Nat.le_refl i) (by omega)
      rw [ha] at h3
      rw [hb] at h4
      cases h3
      cases h4
      rw [hne] at h5
      cases h5
    | false =>
      refine ⟨r, by simpa using hr, ?_⟩
      rw [hiff]
      constructor
      · intro hall j h3 h4
        by_cases hj : j = i
        · subst hj
          exact ⟨_, _, ha, hb, hne⟩
        · exact hall j (by omega) (by omega)
      · intro hall j h3 h4
        exact hall j (by omega) (by omega)

theorem conf_op_eq_spec {α : Type} (fl_ne : α → α → Bool) (c o : conf α)
    (ignore : Nat → Nat) (hn : c.num_floats = o.num_floats) :
    ∃ r, c.op_eq fl_ne o ignore = some r
      ∧ (r = true ↔ ∀ j, j < c.num_floats →
          ∃ a b, c.flatten[j]? = some a ∧ o.flatten[j]? = some b ∧ fl_ne a b = false) := by
  obtain ⟨r, hr, hiff⟩ := conf_eq_loop_spec fl_ne c o ignore c.num_floats 0
    (by rw [conf_length_flatten]; omega) (by rw [conf_length_flatten]; omega)
  refine ⟨r, by simp only [conf.op_eq, hn.symm, if_true, hr], ?_⟩
  rw [hiff]
  simp only [Nat.zero_le, Nat.zero_add, true_implies]

theorem change_op_eq_spec {α : Type} (fl_ne : α → α → Bool) (c o : change α)
    (ignore : Nat → Nat) (hn : c.num_floats = o.num_floats) :
    ∃ r, c.op_eq fl_ne o ignore = some r
      ∧ (r = true ↔ ∀ j, j < c.num_floats →
          ∃ a b, c.flatten[j]? = some a ∧ o.flatten[j]? = some b ∧ fl_ne a b = false) := by
  obtain ⟨r, hr, hiff⟩ := change_eq_loop_spec fl_ne c o ignore c.num_floats 0
    (by rw [change_length_flatten]; omega) (by rw [change_length_flatten]; omega)
  refine ⟨r, by simp only [change.op_eq, hn.symm, if_true, hr], ?_⟩
  rw [hiff]
  simp only [Nat.zero_le, Nat.zero_add, true_implies]

/-- A Boolean result is settled by when it is `true`. -/
theorem option_bool_eq_of_iff (x y : Option Bool) (r s : Bool) (hx : x = some r)
    (hy : y = some s) (h : r = true ↔ s = true) : x = y := by
  rw [hx, hy]
  cases r <;> cases s <;> simp at h ⊢

theorem option_bool_true_iff (x : Option Bool) (r : Bool) (P : Prop) (hx : x = some r)
    (h : r = true ↔ P) : x = some true ↔ P := by
  rw [hx, ← h]
  simp

theorem option_bool_false_of_not (x : Option Bool) (r : Bool) (P : Prop) (hx : x = some r)
    (h : r = true ↔ P) (hP : ¬ P) : x = some false := by
  rw [hx]
  cases r
  · rfl
  · exact absurd (h.mp rfl) hP

/-- Every element of a list satisfies `P` when every index below the length holds an
element that does. -/
theorem forall_mem_iff_forall_index {α : Type} (l : List α) (n : Nat) (hn : l.length = n)
    (P : α → α → Prop) :
    (∀ j, j < n → ∃ a b, l[j]? = some a ∧ l[j]? = some b ∧ P a b) ↔ ∀ a ∈ l, P a a := by
  subst hn
  constructor
  · intro h a ha
    obtain ⟨j, hj, rfl⟩ := List.getElem_of_mem ha
    obtain ⟨a, b, h1, h2, h3⟩ := h j hj
    rw [List.getElem?_eq_getElem hj] at h1 h2
    cases h1
    cases h2
    exact h3
  · intro h j hj
    exact ⟨l[j], l[j], List.getElem?_eq_getElem hj, List.getElem?_eq_getElem hj,
      h _ (List.getElem_mem hj)⟩

/-! ## Node numbering of `change::get_with_node_idx` -/

theorem change_get_flex_skip {α : Type} (res : residue_change α)
    (rest : List (residue_change α)) (x nd : Nat) :
    change.get_flex (res :: rest) (res.torsions.length + x) nd
      = change.get_flex rest x ((nd + res.torsions.length) % sz_mod) := by
  simp only [change.get_flex]
  rw [dif_neg (by omega)]
  have e1 : res.torsions.length + x - res.torsions.length = x := by omega
  have e2 : min (res.torsions.length + x) res.torsions.length = res.torsions.length := by
    omega
  rw [e1, e2]

theorem change_get_ligands_skip {α : Type} (flex : List (residue_change α))
    (lig : ligand_change α) (rest : List (ligand_change α)) (x nd : Nat) :
    change.get_ligands flex (lig :: rest) (3 + 3 + lig.torsions.length + x) nd
      = change.get_ligands flex rest x ((nd + (1 + lig.torsions.length)) % sz_mod) := by
  simp only [change.get_ligands]
  rw [if_neg (by omega), if_neg (by omega), dif_neg (by omega)]
  have e1 : 3 + 3 + lig.torsions.length + x - 3 - 3 - lig.torsions.length = x := by omega
  have e2 : min (3 + 3 + lig.torsions.length + x - 3 - 3) lig.torsions.length
      = lig.torsions.length := by omega
  rw [e1, e2]

theorem change_node_flex {α : Type} (flex : List (residue_change α)) :
    ∀ (r t nd : Nat) (res : residue_change α), flex[r]? = some res →
      t < res.torsions.length →
      nd + (flex.map (fun q => q.torsions.length)).sum < sz_mod →
      (change.get_flex flex (change.res_offset flex r + t) nd).2
        = nd + change.res_offset flex r + t := by
  induction flex with
  | nil => intro r t nd res h; simp at h
  | cons q rest ih =>
    intro r t nd res h ht hfit
    simp only [List.map_cons, List.sum_cons] at hfit
    cases r with
    | zero =>
      simp only [List.getElem?_cons_zero, Option.some.injEq] at h
      subst h
      simp only [change.res_offset, List.take_zero, List.map_nil, List.sum_nil, Nat.zero_add,
        change.get_flex, dif_pos ht, Nat.add_zero]
      rw [Nat.min_eq_left (Nat.le_of_lt ht), Nat.mod_eq_of_lt (by omega)]
    | succ r =>
      simp only [List.getElem?_cons_succ] at h
      have e : change.res_offset (q :: rest) (r + 1) + t
          = q.torsions.length + (change.res_offset rest r + t) := by
        simp [change.res_offset]; omega
      rw [e, change_get_flex_skip, Nat.mod_eq_of_lt (by omega),
        ih r t _ res h ht (by omega)]
      simp [change.res_offset]; omega

theorem change_node_flex_after {α : Type} (flex : List (residue_change α))
    (ligs : List (ligand_change α)) :
    ∀ (x nd : Nat),
      nd + (ligs.map (fun l => 1 + l.torsions.length)).sum < sz_mod →
      change.get_ligands flex ligs
          ((ligs.map (fun l => 3 + 3 + l.torsions.length)).sum + x) nd
        = change.get_flex flex x (nd + (ligs.map (fun l => 1 + l.torsions.length)).sum) := by
  induction ligs with
  | nil => intro x nd _; simp [change.get_ligands]
  | cons l rest ih =>
    intro x nd hfit
    simp only [List.map_cons, List.sum_cons] at hfit ⊢
    rw [Nat.add_assoc, change_get_ligands_skip, Nat.mod_eq_of_lt (by omega),
      ih x _ (by omega)]
    congr 1
    omega

theorem change_node_rigid {α : Type} (flex : List (residue_change α))
    (ligs : List (ligand_change α)) :
    ∀ (k s nd : Nat) (lig : ligand_change α), ligs[k]? = some lig → s < 3 + 3 →
      nd + (ligs.map (fun l => 1 + l.torsions.length)).sum < sz_mod →
      (change.get_ligands flex ligs (change.lig_offset ligs k + s) nd).2
        = nd + change.lig_nodes ligs k := by
  induction ligs with
  | nil => intro k s nd lig h; simp at h
  | cons l rest ih =>
    intro k s nd lig h hs hfit
    simp only [List.map_cons, List.sum_cons] at hfit
    cases k with
    | zero =>
      simp only [change.lig_offset, change.lig_nodes, List.take_zero, List.map_nil,
        List.sum_nil, Nat.zero_add, Nat.add_zero, change.get_ligands]
      by_cases h3 : s < 3
      · rw [if_pos h3]
      · rw [if_neg h3, if_pos (by omega)]
    | succ k =>
      simp only [List.getElem?_cons_succ] at h
      have e : change.lig_offset (l :: rest) (k + 1) + s
          = 3 + 3 + l.torsions.length + (change.lig_offset rest k + s) := by
        simp [change.lig_offset]; omega
      rw [e, change_get_ligands_skip, Nat.mod_eq_of_lt (by omega),
        ih k s _ lig h hs (by omega)]
      simp [change.lig_nodes]; omega

theorem change_node_torsion {α : Type} (flex : List (residue_change α))
    (ligs : List (ligand_change α)) :
    ∀ (k t nd : Nat) (lig : ligand_change α), ligs[k]? = some lig →
      t < lig.torsions.length →
      nd + (ligs.map (fun l => 1 + l.torsions.length)).sum < sz_mod →
      (change.get_ligands flex ligs (change.lig_offset ligs k + 3 + 3 + t) nd).2
        = nd + change.lig_nodes ligs k + 1 + t := by
  induction ligs with
  | nil => intro k t nd lig h; simp at h
  | cons l rest ih =>
    intro k t nd lig h ht hfit
    simp only [List.map_cons, List.sum_cons] at hfit
    cases k with
    | zero =>
      simp only [List.getElem?_cons_zero, Option.some.injEq] at h
      subst h
      simp only [change.lig_offset, change.lig_nodes, List.take_zero, List.map_nil,
        List.sum_nil, Nat.zero_add, Nat.add_zero, change.get_ligands]
      have e : 3 + 3 + t - 3 - 3 = t := by omega
      rw [if_neg (by omega), if_neg (by omega), dif_pos (by omega)]
      show (nd + (1 + min (3 + 3 + t - 3 - 3) l.torsions.length)) % sz_mod = nd + 1 + t
      rw [e, Nat.min_eq_left (Nat.le_of_lt ht), Nat.mod_eq_of_lt (by omega)]
      omega
    | succ k =>
      simp only [List.getElem?_cons_succ] at h
      have e : change.lig_offset (l :: rest) (k + 1) + 3 + 3 + t
          = 3 + 3 + l.torsions.length + (change.lig_offset rest k + 3 + 3 + t) := by
        simp [change.lig_offset]; omega
      rw [e, change_get_ligands_skip, Nat.mod_eq_of_lt (by omega),
        ih k t _ lig h ht (by omega)]
      simp [change.lig_nodes]; omega

theorem change_nodes_le_num_floats {α : Type} (c : change α) :
    (c.ligands.map (fun l => 1 + l.torsions.length)).sum
        + (c.flex.map (fun q => q.torsions.length)).sum ≤ c.num_floats := by
  have h : ∀ ligs : List (ligand_change α),
      (ligs.map (fun l => 1 + l.torsions.length)).sum
        ≤ (ligs.map (fun l => 3 + 3 + l.torsions.length)).sum := by
    intro ligs
    induction ligs with
    | nil => simp
    | cons l rest ih => simp only [List.map_cons, List.sum_cons]; omega
  have := h c.ligands
  simp only [change.num_floats]
  omega

/-! ## Every flat index of a change is a rigid scalar or a torsion -/

theorem change_cover_flex {α : Type} (flex : List (residue_change α)) :
    ∀ (i : Nat), i < (flex.map (fun q => q.torsions.length)).sum →
      ∃ r res t, flex[r]? = some res ∧ t < res.torsions.length
        ∧ i = change.res_offset flex r + t := by
  induction flex with
  | nil => intro i h; simp at h
  | cons q rest ih =>
    intro i h
    simp only [List.map_cons, List.sum_cons] at h
    by_cases hi : i < q.torsions.length
    · exact ⟨0, q, i, by simp, hi, by simp [change.res_offset]⟩
    · obtain ⟨r, res, t, h1, h2, h3⟩ := ih (i - q.torsions.length) (by omega)
      refine ⟨r + 1, res, t, by simpa using h1, h2, ?_⟩
      simp only [change.res_offset, List.take_succ_cons, List.map_cons, List.sum_cons] at h3 ⊢
      omega

theorem change_cover_ligands {α : Type} (ligs : List (ligand_change α)) :
    ∀ (i : Nat), i < (ligs.map (fun l => 3 + 3 + l.torsions.length)).sum →
      ∃ k lig, ligs[k]? = some lig ∧
        ((∃ s, s < 3 + 3 ∧ i = change.lig_offset ligs k + s)
          ∨ (∃ t, t < lig.torsions.length ∧ i = change.lig_offset ligs k + 3 + 3 + t)) := by
  induction ligs with
  | nil => intro i h; simp at h
  | cons l rest ih =>
    intro i h
    simp only [List.map_cons, List.sum_cons] at h
    by_cases h6 : i < 3 + 3
    · exact ⟨0, l, by simp, Or.inl ⟨i, h6, by simp [change.lig_offset]⟩⟩
    · by_cases ht : i - (3 + 3) < l.torsions.length
      · refine ⟨0, l, by simp, Or.inr ⟨i - (3 + 3), ht, ?_⟩⟩
        simp only [change.lig_offset, List.take_zero, List.map_nil, List.sum_nil]
        omega
      · obtain ⟨k, lig, h1, h2⟩ := ih (i - (3 + 3 + l.torsions.length)) (by omega)
        refine ⟨k + 1, lig, by simpa using h1, ?_⟩
        have e : change.lig_offset (l :: rest) (k + 1)
            = 3 + 3 + l.torsions.length + change.lig_offset rest k := by
          simp [change.lig_offset]
        rcases h2 with ⟨s, hs, hi⟩ | ⟨t, ht2, hi⟩
        · exact Or.inl ⟨s, hs, by omega⟩
        · exact Or.inr ⟨t, ht2, by omega⟩

/-! ## Elements `ThresholdBlob` does not touch -/

theorem InputOptSGDSolver_threshold_at_other {α : Type} [Zero α] [LT α]
    [DecidableRel (fun a b : α => a < b)] (offset : Nat) (data : List α) (i j : Nat)
    (h : offset + i ≠ j) :
    (InputOptSGDSolver.threshold_at offset data i)[j]? = data[j]? := by
  unfold InputOptSGDSolver.threshold_at
  split
  · split
    · exact List.getElem?_set_ne h
    · rfl
  · rfl

theorem InputOptSGDSolver_foldl_threshold_other {α : Type} [Zero α] [LT α]
    [DecidableRel (fun a b : α => a < b)] (offset j : Nat) (is : List Nat) :
    ∀ (data : List α), (∀ i, i ∈ is → offset + i ≠ j) →
      (is.foldl (InputOptSGDSolver.threshold_at offset) data)[j]? = data[j]? := by
  induction is with
  | nil => intro data _; rfl
  | cons i rest ih =>
    intro data h
    rw [List.foldl_cons, ih _ (fun k hk => h k (List.mem_cons_of_mem _ hk)),
      InputOptSGDSolver_threshold_at_other offset data i j (h i (List.mem_cons_self _ _))]

/-! ## Auxiliary facts for the claims -/

theorem exists_getElem?_iff_lt {α : Type} (l : List α) (i : Nat) :
    (∃ x, l[i]? = some x) ↔ i < l.length := by
  constructor
  · rintro ⟨x, hx⟩
    by_contra hc
    rw [List.getElem?_eq_none (by omega)] at hx
    cases hx
  · intro h
    exact ⟨l[i], List.getElem?_eq_getElem h⟩

theorem conf_assign_some_iff {α : Type} (c : conf α) (i : Nat) (v : α) :
    (∃ c2, c.assign i v = some c2) ↔ i < c.num_floats := by
  have h := conf_assign_flatten c i v
  constructor
  · rintro ⟨c2, hc⟩
    by_contra hn
    rw [hc, if_neg hn] at h
    cases h
  · intro hi
    rw [if_pos hi] at h
    cases ha : c.assign i v with
    | none => rw [ha] at h; cases h
    | some c2 => exact ⟨c2, rfl⟩

theorem fl_sample_ne_symm (a b : fl_sample) : fl_sample.ne a b = fl_sample.ne b a := by
  cases a <;> cases b <;> simp only [fl_sample.ne]
  rename_i m n
  rw [Bool.eq_iff_iff, bne_iff_ne, bne_iff_ne]
  exact ne_comm

theorem int_ne_symm (a b : Int) : int_ne a b = int_ne b a := by
  unfold int_ne
  rw [Bool.eq_iff_iff, bne_iff_ne, bne_iff_ne]
  exact ne_comm

/-! ## The claims -/

/-- C1. For every configuration `c`, every flat index `i < num_floats(c)` and whatever
the node counter held before the call, `conf::get_with_node_idx(i)` returns a scalar,
and it is the `i`-th element of the canonical flattening of `c` (for each ligand in
order 3 position scalars, the 4 raw orientation components, its torsions in order;
then the torsions of each residue in order), a list of `num_floats(c)` elements. -/
theorem conf_get_with_node_idx_flat {α : Type} (c : conf α) (i node_idx : Nat)
    (h : i < c.num_floats) :
    c.flatten.length = c.num_floats ∧
      ∃ hi : i < c.flatten.length,
        (c.get_with_node_idx i node_idx).1 = some (c.flatten.get ⟨i, hi⟩) := by
  refine ⟨conf_length_flatten c, ?_⟩
  have hi : i < c.flatten.length := by rw [conf_length_flatten]; exact h
  exact ⟨hi, by rw [conf_get_val, List.getElem?_eq_getElem hi]; rfl⟩

/-- Witness for C1 on `sample_conf` at flat index 8 (torsion 1 of ligand 0). -/
theorem conf_get_with_node_idx_flat_witness :
    sample_conf.flatten.length = sample_conf.num_floats ∧
      ∃ hi : 8 < sample_conf.flatten.length,
        (sample_conf.get_with_node_idx 8 0).1 = some (sample_conf.flatten.get ⟨8, hi⟩) :=
  conf_get_with_node_idx_flat sample_conf 8 0 (by decide)

/-- C2. For every change `d`, every flat index `i < num_floats(d)` and whatever the
node counter held before the call, `change::get_with_node_idx(i)` returns a scalar,
and it is the `i`-th element of the canonical flattening of `d` (for each ligand in
order 3 position deltas, 3 angular components, its torsions in order; then the
torsions of each residue in order), a list of `num_floats(d)` elements. -/
theorem change_get_with_node_idx_flat {α : Type} (d : change α) (i node_idx : Nat)
    (h : i < d.num_floats) :
    d.flatten.length = d.num_floats ∧
      ∃ hi : i < d.flatten.length,
        (d.get_with_node_idx i node_idx).1 = some (d.flatten.get ⟨i, hi⟩) := by
  refine ⟨change_length_flatten d, ?_⟩
  have hi : i < d.flatten.length := by rw [change_length_flatten]; exact h
  exact ⟨hi, by rw [change_get_val, List.getElem?_eq_getElem hi]; rfl⟩

/-- Witness for C2 on `sample_change` at flat index 7 (torsion 1 of ligand 0). -/
theorem change_get_with_node_idx_flat_witness :
    sample_change.flatten.length = sample_change.num_floats ∧
      ∃ hi : 7 < sample_change.flatten.length,
        (sample_change.get_with_node_idx 7 0).1 = some (sample_change.flatten.get ⟨7, hi⟩) :=
  change_get_with_node_idx_flat sample_change 7 0 (by decide)

/-- C3. For every change `d` whose flat length fits the index type, and whatever the
node counter held before the call, `change::get_with_node_idx` reports: for a
position or angular scalar of ligand `k` the sum over ligands `j < k` of
`1 + torsion_count_j`; for torsion `t` of ligand `k` that sum plus `1 + t`; for
torsion `t` of residue `r` the sum over all ligands of `1 + torsion_count` plus the
torsion counts of the residues before `r` plus `t`.  Every flat index below
`num_floats(d)` is of one of these three kinds. -/
theorem change_node_idx {α : Type} (d : change α) (node_idx : Nat)
    (hfit : d.num_floats < sz_mod) :
    (∀ k lig s, d.ligands[k]? = some lig → s < 3 + 3 →
        (d.get_with_node_idx (change.lig_offset d.ligands k + s) node_idx).2
          = change.lig_nodes d.ligands k)
    ∧ (∀ k lig t, d.ligands[k]? = some lig → t < lig.torsions.length →
        (d.get_with_node_idx (change.lig_offset d.ligands k + 3 + 3 + t) node_idx).2
          = change.lig_nodes d.ligands k + 1 + t)
    ∧ (∀ r res t, d.flex[r]? = some res → t < res.torsions.length →
        (d.get_with_node_idx
            ((d.ligands.map (fun l => 3 + 3 + l.torsions.length)).sum
              + change.res_offset d.flex r + t) node_idx).2
          = (d.ligands.map (fun l => 1 + l.torsions.length)).sum
              + change.res_offset d.flex r + t)
    ∧ (∀ i, i < d.num_floats →
        (∃ k lig s, d.ligands[k]? = some lig ∧ s < 3 + 3
            ∧ i = change.lig_offset d.ligands k + s)
        ∨ (∃ k lig t, d.ligands[k]? = some lig ∧ t < lig.torsions.length
            ∧ i = change.lig_offset d.ligands k + 3 + 3 + t)
        ∨ (∃ r res t, d.flex[r]? = some res ∧ t < res.torsions.length
            ∧ i = (d.ligands.map (fun l => 3 + 3 + l.torsions.length)).sum
                + change.res_offset d.flex r + t)) := by
  have hn := change_nodes_le_num_floats d
  refine ⟨?_, ?_, ?_, ?_⟩
  · intro k lig s hk hs
    have := change_node_rigid d.flex d.ligands k s 0 lig hk hs (by omega)
    simpa [change.get_with_node_idx] using this
  · intro k lig t hk ht
    have := change_node_torsion d.flex d.ligands k t 0 lig hk ht (by omega)
    simpa [change.get_with_node_idx] using this
  · intro r res t hr ht
    simp only [change.get_with_node_idx]
    rw [Nat.add_assoc, change_node_flex_after d.flex d.ligands _ 0 (by omega),
      change_node_flex d.flex r t _ res hr ht (by omega)]
    omega
  · intro i hi
    by_cases hl : i < (d.ligands.map (fun l => 3 + 3 + l.torsions.length)).sum
    · obtain ⟨k, lig, hk, h⟩ := change_cover_ligands d.ligands i hl
      rcases h with ⟨s, hs, e⟩ | ⟨t, ht, e⟩
      · exact Or.inl ⟨k, lig, s, hk, hs, e⟩
      · exact Or.inr (Or.inl ⟨k, lig, t, hk, ht, e⟩)
    · simp only [change.num_floats] at hi
      obtain ⟨r, res, t, hr, ht, e⟩ := change_cover_flex d.flex
        (i - (d.ligands.map (fun l => 3 + 3 + l.torsions.length)).sum) (by omega)
      exact Or.inr (Or.inr ⟨r, res, t, hr, ht, by omega⟩)

/-- Witness for C3 on `sample_change`: torsion 0 of ligand 1. -/
theorem change_node_idx_witness :
    sample_change.num_floats < sz_mod ∧
      (sample_change.get_with_node_idx
          (change.lig_offset sample_change.ligands 1 + 3 + 3 + 0) 0).2
        = change.lig_nodes sample_change.ligands 1 + 1 + 0 :=
  ⟨by decide, (change_node_idx sample_change 0 (by decide)).2.1 1 _ 0 rfl (by decide)⟩

/-- C4 (the code at the failing input).  In `one_torsion_conf` flat index 7 is torsion 0
of ligand 0.  Started with the node counter at 0, `conf::get_with_node_idx` returns
that torsion and reports node 2: the counter is increased by `1 + min(index, 1)` while
`index` is still 4, before `index -= 4`.  The claimed node is `0 + 1 + 0 = 1`, which is
what `change::get_with_node_idx` reports for the same torsion (flat index 6) of the
change of the same shape. -/
theorem conf_node_idx_counts_before_orientation_skip :
    one_torsion_conf.get_with_node_idx 7 0 = (some 5, 2)
      ∧ one_torsion_change.get_with_node_idx 6 0 = (some 5, 1) := by
  decide

/-- C5 (the code at the failing input).  Two queries of flat index 7 on the same
`one_torsion_conf` report node 2 when the caller's variable held 0 and node 9 when it
held 7; for flat index 0 the variable is not written at all.  The sibling
`change::get_with_node_idx` reports the same node for both initial values. -/
theorem conf_node_idx_keeps_caller_value :
    (one_torsion_conf.get_with_node_idx 7 0).2 = 2
      ∧ (one_torsion_conf.get_with_node_idx 7 7).2 = 9
      ∧ (one_torsion_conf.get_with_node_idx 0 0).2 = 0
      ∧ (one_torsion_conf.get_with_node_idx 0 7).2 = 7
      ∧ (one_torsion_change.get_with_node_idx 6 0).2 = 1
      ∧ (one_torsion_change.get_with_node_idx 6 7).2 = 1 := by
  decide

/-- C6. For every two configurations `c` and `c2` of the same shape (same ligand count,
residue count and per-entry torsion counts), reading every flat scalar of `c` (indices
`0 .. num_floats - 1`) and writing each into `c2` at the same index through
`conf::operator()` runs to completion and makes `c2` equal to `c` in every field; in
particular writing the flat vector of `c` back into `c` leaves `c` unchanged. -/
theorem conf_copy_flat_roundtrip {α : Type} (c c2 : conf α) (ignore : Nat)
    (hs : c2.shape = c.shape) :
    conf.copy_flat c c2 ignore = some c ∧ conf.copy_flat c c ignore = some c :=
  ⟨conf_copy_loop_spec c ignore c.num_floats 0 c2 hs (Nat.zero_add _)
      (fun j hj => absurd hj (Nat.not_lt_zero j)),
    conf_copy_loop_spec c ignore c.num_floats 0 c rfl (Nat.zero_add _)
      (fun j hj => absurd hj (Nat.not_lt_zero j))⟩

/-- Witness for C6: copying `sample_conf` into `sample_conf_zero`. -/
theorem conf_copy_flat_roundtrip_witness :
    sample_conf_zero.shape = sample_conf.shape
      ∧ conf.copy_flat sample_conf sample_conf_zero 0 = some sample_conf
      ∧ conf.copy_flat sample_conf sample_conf 0 = some sample_conf :=
  ⟨by decide, conf_copy_flat_roundtrip sample_conf sample_conf_zero 0 (by decide)⟩

/-- C7, the claim as stated fails on floating-point scalars.  `sample_conf_zero_fl`
holds the positive zero at flat index 7; writing the negative zero there, a value
different from the one held, yields another configuration that `conf::operator==`
reports equal to the original in both argument orders.  And `sample_conf_fl`, which
holds a NaN, compares unequal to itself. -/
theorem conf_assign_neg_zero_keeps_op_eq :
    7 < sample_conf_zero_fl.num_floats
      ∧ sample_conf_zero_fl.read 7 = some (fl_sample.num 0)
      ∧ fl_sample.neg_zero ≠ fl_sample.num 0
      ∧ (∃ c2, sample_conf_zero_fl.assign 7 fl_sample.neg_zero = some c2
          ∧ c2 ≠ sample_conf_zero_fl
          ∧ c2.op_eq fl_sample.ne sample_conf_zero_fl (fun _ => 0) = some true
          ∧ sample_conf_zero_fl.op_eq fl_sample.ne c2 (fun _ => 0) = some true)
      ∧ sample_conf_fl.op_eq fl_sample.ne sample_conf_fl (fun _ => 0) = some false := by
  refine ⟨by decide, by decide, by decide, ⟨_, rfl, by decide, by decide, by decide⟩,
    by decide⟩

/-- C7, amended.  For every configuration `c`, every flat index `i < num_floats(c)` and
every value `v` that `!=` reports unequal to the scalar currently at `i` (in both
argument orders), the assignment `c(i) = v` through `conf::operator()` yields a
configuration that `conf::operator==` reports unequal to the original `c` (in both
argument orders); and `c` compares equal to itself exactly when each of its scalars
compares equal to itself, that is, when none of them is a NaN. -/
theorem conf_assign_flips_op_eq {α : Type} (fl_ne : α → α → Bool) (c : conf α) (i : Nat)
    (v : α) (ignore : Nat → Nat) (h : i < c.num_floats)
    (hv : ∃ a, c.read i = some a ∧ fl_ne v a = true ∧ fl_ne a v = true) :
    (∃ c2, c.assign i v = some c2 ∧ c2.op_eq fl_ne c ignore = some false
        ∧ c.op_eq fl_ne c2 ignore = some false)
      ∧ (c.op_eq fl_ne c ignore = some true ↔ ∀ a ∈ c.flatten, fl_ne a a = false) := by
  constructor
  · obtain ⟨c2, hc2⟩ := (conf_assign_some_iff c i v).mpr h
    obtain ⟨a, ha, hva, hav⟩ := hv
    have hfl := conf_assign_flatten c i v
    rw [hc2, if_pos h] at hfl
    simp only [Option.map_some', Option.some.injEq] at hfl
    have hn : c2.num_floats = c.num_floats :=
      conf_num_floats_of_shape c2 c (conf_assign_shape c c2 i v hc2)
    have h2 : c2.flatten[i]? = some v := by
      rw [hfl, List.getElem?_set, if_pos rfl, if_pos (by rw [conf_length_flatten]; exact h)]
    have h1 : c.flatten[i]? = some a := by rw [← conf_read_val]; exact ha
    refine ⟨c2, hc2, ?_, ?_⟩
    · obtain ⟨r, hr, hiff⟩ := conf_op_eq_spec fl_ne c2 c ignore hn
      refine option_bool_false_of_not _ r _ hr hiff ?_
      intro hall
      obtain ⟨x, y, hx, hy, hxy⟩ := hall i (by omega)
      rw [h2] at hx
      rw [h1] at hy
      cases hx
      cases hy
      rw [hva] at hxy
      cases hxy
    · obtain ⟨r, hr, hiff⟩ := conf_op_eq_spec fl_ne c c2 ignore hn.symm
      refine option_bool_false_of_not _ r _ hr hiff ?_
      intro hall
      obtain ⟨x, y, hx, hy, hxy⟩ := hall i h
      rw [h1] at hx
      rw [h2] at hy
      cases hx
      cases hy
      rw [hav] at hxy
      cases hxy
  · obtain ⟨r, hr, hiff⟩ := conf_op_eq_spec fl_ne c c ignore rfl
    rw [option_bool_true_iff _ r _ hr hiff]
    exact forall_mem_iff_forall_index c.flatten c.num_floats (conf_length_flatten c)
      (fun a b => fl_ne a b = false)

/-- Witness for C7: assigning 5 at flat index 7 of `sample_conf_zero_fl`, which holds
no NaN. -/
theorem conf_assign_flips_op_eq_witness :
    (7 < sample_conf_zero_fl.num_floats)
      ∧ (∃ a, sample_conf_zero_fl.read 7 = some a ∧ fl_sample.ne (fl_sample.num 5) a = true
          ∧ fl_sample.ne a (fl_sample.num 5) = true)
      ∧ (∃ c2, sample_conf_zero_fl.assign 7 (fl_sample.num 5) = some c2
          ∧ c2.op_eq fl_sample.ne sample_conf_zero_fl (fun _ => 0) = some false
          ∧ sample_conf_zero_fl.op_eq fl_sample.ne c2 (fun _ => 0) = some false)
      ∧ sample_conf_zero_fl.op_eq fl_sample.ne sample_conf_zero_fl (fun _ => 0)
          = some true :=
  ⟨by decide, ⟨fl_sample.num 0, by decide, by decide, by decide⟩,
    (conf_assign_flips_op_eq fl_sample.ne sample_conf_zero_fl 7 (fl_sample.num 5)
      (fun _ => 0) (by decide) ⟨fl_sample.num 0, by decide, by decide, by decide⟩).1,
    (conf_assign_flips_op_eq fl_sample.ne sample_conf_zero_fl 7 (fl_sample.num 5)
      (fun _ => 0) (by decide)
      ⟨fl_sample.num 0, by decide, by decide, by decide⟩).2.mpr (by decide)⟩

/-- C8, the claim as stated fails on floating-point scalars.  `sample_conf_fl` and
`sample_change_fl` hold a NaN.  Compared with themselves, `get_with_node_idx` returns
the same scalar on both sides at every flat index, yet `operator==` returns `false`:
the equivalence fails from right to left, and `operator==` is not reflexive. -/
theorem op_eq_not_reflexive_on_nan :
    (∀ i, i < sample_conf_fl.num_floats → ∀ n1 n2,
        (sample_conf_fl.get_with_node_idx i n1).1 = (sample_conf_fl.get_with_node_idx i n2).1)
      ∧ sample_conf_fl.op_eq fl_sample.ne sample_conf_fl (fun _ => 0) = some false
      ∧ (∀ i, i < sample_change_fl.num_floats → ∀ n1 n2,
          (sample_change_fl.get_with_node_idx i n1).1
            = (sample_change_fl.get_with_node_idx i n2).1)
      ∧ sample_change_fl.op_eq fl_sample.ne sample_change_fl (fun _ => 0) = some false := by
  refine ⟨?_, by decide, ?_, by decide⟩
  · intro i _ n1 n2
    rw [conf_get_val, conf_get_val]
  · intro i _ n1 n2
    rw [change_get_val, change_get_val]

/-- C8, amended.  For every pair of configurations, and every pair of changes, with
equal `num_floats`, `operator==` returns a result, and that result is `true` if and
only if, for every flat index `i < num_floats`, the scalars `get_with_node_idx` returns
on the two (whatever the node counters held) compare equal, `!=` being `false` on
them; `operator==` holds of an operand and itself exactly when none of its scalars is a
NaN (each compares equal to itself); and it is symmetric on such pairs, `!=` on scalars
being symmetric. -/
theorem op_eq_tracks_flat_vector {α : Type} (fl_ne : α → α → Bool) (c o : conf α)
    (d e : change α) (ignore ignore2 : Nat → Nat)
    (hc : c.num_floats = o.num_floats) (hd : d.num_floats = e.num_floats) :
    ((∃ b, c.op_eq fl_ne o ignore = some b)
      ∧ (c.op_eq fl_ne o ignore = some true ↔
          ∀ i, i < c.num_floats → ∀ n1 n2, ∃ a b,
            (c.get_with_node_idx i n1).1 = some a ∧ (o.get_with_node_idx i n2).1 = some b
              ∧ fl_ne a b = false)
      ∧ (c.op_eq fl_ne c ignore = some true ↔ ∀ a ∈ c.flatten, fl_ne a a = false)
      ∧ ((∀ a b, fl_ne a b = fl_ne b a) →
          c.op_eq fl_ne o ignore = o.op_eq fl_ne c ignore2))
    ∧ ((∃ b, d.op_eq fl_ne e ignore = some b)
      ∧ (d.op_eq fl_ne e ignore = some true ↔
          ∀ i, i < d.num_floats → ∀ n1 n2, ∃ a b,
            (d.get_with_node_idx i n1).1 = some a ∧ (e.get_with_node_idx i n2).1 = some b
              ∧ fl_ne a b = false)
      ∧ (d.op_eq fl_ne d ignore = some true ↔ ∀ a ∈ d.flatten, fl_ne a a = false)
      ∧ ((∀ a b, fl_ne a b = fl_ne b a) →
          d.op_eq fl_ne e ignore = e.op_eq fl_ne d ignore2)) := by
  refine ⟨⟨?_, ?_, ?_, ?_⟩, ⟨?_, ?_, ?_, ?_⟩⟩
  · obtain ⟨r, hr, _⟩ := conf_op_eq_spec fl_ne c o ignore hc
    exact ⟨r, hr⟩
  · obtain ⟨r, hr, hiff⟩ := conf_op_eq_spec fl_ne c o ignore hc
    rw [option_bool_true_iff _ r _ hr hiff]
    simp only [conf_get_val]
    exact ⟨fun hall i hi _ _ => hall i hi, fun hall i hi => hall i hi 0 0⟩
  · obtain ⟨r, hr, hiff⟩ := conf_op_eq_spec fl_ne c c ignore rfl
    rw [option_bool_true_iff _ r _ hr hiff]
    exact forall_mem_iff_forall_index c.flatten c.num_floats (conf_length_flatten c)
      (fun a b => fl_ne a b = false)
  · intro hsym
    obtain ⟨r, hr, hiff⟩ := conf_op_eq_spec fl_ne c o ignore hc
    obtain ⟨s, hs, hiff2⟩ := conf_op_eq_spec fl_ne o c ignore2 hc.symm
    refine option_bool_eq_of_iff _ _ r s hr hs ?_
    rw [hiff, hiff2, hc]
    constructor
    · intro hall j hj
      obtain ⟨a, b, h1, h2, h3⟩ := hall j hj
      exact ⟨b, a, h2, h1, by rw [hsym]; exact h3⟩
    · intro hall j hj
      obtain ⟨a, b, h1, h2, h3⟩ := hall j hj
      exact ⟨b, a, h2, h1, by rw [hsym]; exact h3⟩
  · obtain ⟨r, hr, _⟩ := change_op_eq_spec fl_ne d e ignore hd
    exact ⟨r, hr⟩
  · obtain ⟨r, hr, hiff⟩ := change_op_eq_spec fl_ne d e ignore hd
    rw [option_bool_true_iff _ r _ hr hiff]
    simp only [change_get_val]
    exact ⟨fun hall i hi _ _ => hall i hi, fun hall i hi => hall i hi 0 0⟩
  · obtain ⟨r, hr, hiff⟩ := change_op_eq_spec fl_ne d d ignore rfl
    rw [option_bool_true_iff _ r _ hr hiff]
    exact forall_mem_iff_forall_index d.flatten d.num_floats (change_length_flatten d)
      (fun a b => fl_ne a b = false)
  · intro hsym
    obtain ⟨r, hr, hiff⟩ := change_op_eq_spec fl_ne d e ignore hd
    obtain ⟨s, hs, hiff2⟩ := change_op_eq_spec fl_ne e d ignore2 hd.symm
    refine option_bool_eq_of_iff _ _ r s hr hs ?_
    rw [hiff, hiff2, hd]
    constructor
    · intro hall j hj
      obtain ⟨a, b, h1, h2, h3⟩ := hall j hj
      exact ⟨b, a, h2, h1, by rw [hsym]; exact h3⟩
    · intro hall j hj
      obtain ⟨a, b, h1, h2, h3⟩ := hall j hj
      exact ⟨b, a, h2, h1, by rw [hsym]; exact h3⟩

/-- Witness for C8 on the sample configurations and changes. -/
theorem op_eq_tracks_flat_vector_witness :
    sample_conf.num_floats = sample_conf_zero.num_floats
      ∧ sample_change.num_floats = sample_change_zero.num_floats
      ∧ sample_conf.op_eq int_ne sample_conf_zero (fun _ => 0)
          = sample_conf_zero.op_eq int_ne sample_conf (fun _ => 3)
      ∧ sample_change.op_eq int_ne sample_change_zero (fun _ => 0)
          = sample_change_zero.op_eq int_ne sample_change (fun _ => 3) :=
  ⟨by decide, by decide,
    (op_eq_tracks_flat_vector int_ne sample_conf sample_conf_zero sample_change
      sample_change_zero (fun _ => 0) (fun _ => 3) (by decide) (by decide)).1.2.2.2
      int_ne_symm,
    (op_eq_tracks_flat_vector int_ne sample_conf sample_conf_zero sample_change
      sample_change_zero (fun _ => 0) (fun _ => 3) (by decide) (by decide)).2.2.2.2
      int_ne_symm⟩

/-- C9. For every configuration `c`, change `d` and index `i`: the scan of
`conf::get_with_node_idx` returns a scalar if and only if `i` is below the sum over
ligands of `3 + 4 + torsion_count` plus the sum over residues of `torsion_count`, and
runs into the unreachable end otherwise; the same holds for `conf::operator()`, read or
assigned through; and `change::get_with_node_idx` returns a scalar if and only if `i`
is below the sum over ligands of `3 + 3 + torsion_count` plus the sum over residues of
`torsion_count`, and runs into the unreachable end otherwise. -/
theorem scan_returns_iff_index_in_range {α : Type} (c : conf α) (d : change α)
    (i node_idx : Nat) (v : α) :
    (((∃ x, (c.get_with_node_idx i node_idx).1 = some x) ↔
        i < (c.ligands.map (fun l => 3 + 4 + l.torsions.length)).sum
              + (c.flex.map (fun r => r.torsions.length)).sum)
      ∧ ((c.get_with_node_idx i node_idx).1 = none ↔
        (c.ligands.map (fun l => 3 + 4 + l.torsions.length)).sum
              + (c.flex.map (fun r => r.torsions.length)).sum ≤ i))
    ∧ (((∃ x, c.read i = some x) ↔
        i < (c.ligands.map (fun l => 3 + 4 + l.torsions.length)).sum
              + (c.flex.map (fun r => r.torsions.length)).sum)
      ∧ (c.read i = none ↔
        (c.ligands.map (fun l => 3 + 4 + l.torsions.length)).sum
              + (c.flex.map (fun r => r.torsions.length)).sum ≤ i)
      ∧ ((∃ c2, c.assign i v = some c2) ↔
        i < (c.ligands.map (fun l => 3 + 4 + l.torsions.length)).sum
              + (c.flex.map (fun r => r.torsions.length)).sum))
    ∧ (((∃ x, (d.get_with_node_idx i node_idx).1 = some x) ↔
        i < (d.ligands.map (fun l => 3 + 3 + l.torsions.length)).sum
              + (d.flex.map (fun r => r.torsions.length)).sum)
      ∧ ((d.get_with_node_idx i node_idx).1 = none ↔
        (d.ligands.map (fun l => 3 + 3 + l.torsions.length)).sum
              + (d.flex.map (fun r => r.torsions.length)).sum ≤ i)) := by
  have hc : c.flatten.length = (c.ligands.map (fun l => 3 + 4 + l.torsions.length)).sum
      + (c.flex.map (fun r => r.torsions.length)).sum := conf_length_flatten c
  have hd : d.flatten.length = (d.ligands.map (fun l => 3 + 3 + l.torsions.length)).sum
      + (d.flex.map (fun r => r.torsions.length)).sum := change_length_flatten d
  refine ⟨⟨?_, ?_⟩, ⟨?_, ?_, ?_⟩, ⟨?_, ?_⟩⟩
  · rw [conf_get_val, exists_getElem?_iff_lt, hc]
  · rw [conf_get_val, List.getElem?_eq_none_iff, hc]
  · rw [conf_read_val, exists_getElem?_iff_lt, hc]
  · rw [conf_read_val, List.getElem?_eq_none_iff, hc]
  · exact conf_assign_some_iff c i v
  · rw [change_get_val, exists_getElem?_iff_lt, hd]
  · rw [change_get_val, List.getElem?_eq_none_iff, hd]

theorem InputOptSGDSolver_length_threshold_at {α : Type} [Zero α] [LT α]
    [DecidableRel (fun a b : α => a < b)] (offset : Nat) (data : List α) (i : Nat) :
    (InputOptSGDSolver.threshold_at offset data i).length = data.length := by
  unfold InputOptSGDSolver.threshold_at
  split
  · split
    · exact List.length_set _ _ _
    · rfl
  · rfl

theorem InputOptSGDSolver_length_foldl_threshold {α : Type} [Zero α] [LT α]
    [DecidableRel (fun a b : α => a < b)] (offset : Nat) (is : List Nat) :
    ∀ (data : List α),
      (is.foldl (InputOptSGDSolver.threshold_at offset) data).length = data.length := by
  induction is with
  | nil => intro data; rfl
  | cons i rest ih =>
    intro data
    rw [List.foldl_cons, ih, InputOptSGDSolver_length_threshold_at]

/-- C10 (counterexample).  With `nrec_types = nlig_types = npoints = 1` and the blob
`[-1, -1, -1]` the protected length is `P = 2 <= 3 = count`, `blobsize` is 1 and the
loop works on `tptr + 1`: the element at index 1, below `P`, is negative and is set
to zero. -/
theorem ThresholdBlob_zeroes_ligand_cell_below_P :
    1 * 1 + 1 * 1 ≤ ([-1, -1, -1] : List Int).length
      ∧ (1 : Nat) < 1 * 1 + 1 * 1
      ∧ InputOptSGDSolver.ThresholdBlob 1 1 1 ([-1, -1, -1] : List Int) = [-1, 0, -1]
      ∧ (InputOptSGDSolver.ThresholdBlob 1 1 1 ([-1, -1, -1] : List Int))[1]?
          ≠ ([-1, -1, -1] : List Int)[1]? := by
  decide

/-- C10 (amended).  For every blob of length `count` and every `nrec_types`,
`nlig_types`, `npoints` with `nrec_types * npoints + nlig_types * npoints <= count`,
`ThresholdBlob` (CPU path) keeps the length of the blob and leaves unchanged, even if
negative, every element at an index below `nrec_types * npoints` and every element at
an index from `count - nlig_types * npoints` on. -/
theorem ThresholdBlob_keeps_receptor_head_and_ligand_tail {α : Type} [Zero α] [LT α]
    [DecidableRel (fun a b : α => a < b)] (nrec_types nlig_types npoints_ : Nat)
    (tblob : List α)
    (hP : nrec_types * npoints_ + nlig_types * npoints_ ≤ tblob.length) :
    (InputOptSGDSolver.ThresholdBlob nrec_types nlig_types npoints_ tblob).length
        = tblob.length
      ∧ ∀ j, (j < nrec_types * npoints_ ∨ tblob.length - nlig_types * npoints_ ≤ j) →
          (InputOptSGDSolver.ThresholdBlob nrec_types nlig_types npoints_ tblob)[j]?
            = tblob[j]? := by
  refine ⟨InputOptSGDSolver_length_foldl_threshold _ _ _, ?_⟩
  intro j hj
  apply InputOptSGDSolver_foldl_threshold_other
  intro i hi
  rw [List.mem_range] at hi
  omega

/-- Witness for the amended C10 on the blob `[-1, -1, -1]`. -/
theorem ThresholdBlob_keeps_receptor_head_and_ligand_tail_witness :
    1 * 1 + 1 * 1 ≤ ([-1, -1, -1] : List Int).length
      ∧ (InputOptSGDSolver.ThresholdBlob 1 1 1 ([-1, -1, -1] : List Int)).length
          = ([-1, -1, -1] : List Int).length
      ∧ ∀ j, (j < 1 * 1 ∨ ([-1, -1, -1] : List Int).length - 1 * 1 ≤ j) →
          (InputOptSGDSolver.ThresholdBlob 1 1 1 ([-1, -1, -1] : List Int))[j]?
            = ([-1, -1, -1] : List Int)[j]? :=
  ⟨by decide,
    ThresholdBlob_keeps_receptor_head_and_ligand_tail 1 1 1 ([-1, -1, -1] : List Int)
      (by decide)⟩

/-! ## Elements `ThresholdBlob` clamps -/

theorem InputOptSGDSolver_foldl_threshold_range {α : Type} [Zero α] [LT α]
    [DecidableRel (fun a b : α => a < b)] (offset : Nat) (data : List α) (j : Nat) :
    ∀ (n : Nat),
      ((List.range n).foldl (InputOptSGDSolver.threshold_at offset) data)[j]?
        = if offset ≤ j ∧ j < offset + n then
            (data[j]?).map (fun x => if x < 0 then 0 else x)
          else data[j]? := by
  intro n
  induction n with
  | zero =>
    rw [if_neg (by omega)]
    rfl
  | succ n ih =>
    rw [List.range_succ, List.foldl_append, List.foldl_cons, List.foldl_nil]
    by_cases hj : offset + n = j
    · subst hj
      rw [if_neg (by omega)] at ih
      rw [if_pos (by omega)]
      generalize (List.range n).foldl (InputOptSGDSolver.threshold_at offset) data = d at ih
      unfold InputOptSGDSolver.threshold_at
      rw [ih]
      cases hd : data[offset + n]? with
      | none => simp only [Option.map_none', ih, hd]
      | some x =>
        simp only [Option.map_some']
        by_cases hx : x < 0
        · rw [if_pos hx, if_pos hx]
          exact List.getElem?_set_self (List.getElem?_eq_some_iff.mp (ih.trans hd)).1
        · rw [if_neg hx, if_neg hx, ih, hd]
    · rw [InputOptSGDSolver_threshold_at_other offset _ n j hj, ih]
      by_cases hw : offset ≤ j ∧ j < offset + n
      · rw [if_pos hw, if_pos (by omega)]
      · rw [if_neg hw, if_neg (by omega)]

/-- C11 (counterexample).  With `nrec_types = 0`, `nlig_types = 1`, `npoints = 1` and
the blob `[-3, -2]` the protected length is `P = 1 <= 2 = count`, `blobsize` is 1 and
the loop works on `tptr + 0`: the element at index 1, at or beyond `P` and negative,
is still `-2` afterwards. -/
theorem ThresholdBlob_leaves_negative_tail_cell :
    0 * 1 + 1 * 1 ≤ ([-3, -2] : List Int).length
      ∧ 0 * 1 + 1 * 1 ≤ (1 : Nat)
      ∧ ([-3, -2] : List Int)[1]? = some (-2)
      ∧ InputOptSGDSolver.ThresholdBlob 0 1 1 ([-3, -2] : List Int) = [0, -2]
      ∧ (InputOptSGDSolver.ThresholdBlob 0 1 1 ([-3, -2] : List Int))[1]? ≠ some 0 := by
  decide

/-- C11 (amended).  For every blob of length `count` and every `nrec_types`,
`nlig_types`, `npoints` with `nrec_types * npoints + nlig_types * npoints <= count`,
after `ThresholdBlob` (CPU path) every element at an index from `nrec_types * npoints`
up to `count - nlig_types * npoints - 1` that was negative is exactly zero, and every
element, at whatever index, that was not negative is unchanged. -/
theorem ThresholdBlob_clamps_window {α : Type} [Zero α] [LT α]
    [DecidableRel (fun a b : α => a < b)] (nrec_types nlig_types npoints_ : Nat)
    (tblob : List α)
    (hP : nrec_types * npoints_ + nlig_types * npoints_ ≤ tblob.length) :
    ∀ j x, tblob[j]? = some x →
      (nrec_types * npoints_ ≤ j → j < tblob.length - nlig_types * npoints_ → x < 0 →
          (InputOptSGDSolver.ThresholdBlob nrec_types nlig_types npoints_ tblob)[j]?
            = some 0)
      ∧ (¬ x < 0 →
          (InputOptSGDSolver.ThresholdBlob nrec_types nlig_types npoints_ tblob)[j]?
            = some x) := by
  intro j x hx
  have h := InputOptSGDSolver_foldl_threshold_range (nrec_types * npoints_) tblob j
    (tblob.length - nrec_types * npoints_ - nlig_types * npoints_)
  constructor
  · intro h1 h2 hneg
    rw [if_pos (by omega), hx] at h
    simpa [InputOptSGDSolver.ThresholdBlob, hneg] using h
  · intro hpos
    by_cases hw : nrec_types * npoints_ ≤ j ∧ j < nrec_types * npoints_
        + (tblob.length - nrec_types * npoints_ - nlig_types * npoints_)
    · rw [if_pos hw, hx] at h
      simpa [InputOptSGDSolver.ThresholdBlob, hpos] using h
    · rw [if_neg hw, hx] at h
      exact h

/-- Witness for the amended C11 on the blob `[-3, -2]`. -/
theorem ThresholdBlob_clamps_window_witness :
    0 * 1 + 1 * 1 ≤ ([-3, -2] : List Int).length
      ∧ ∀ j x, ([-3, -2] : List Int)[j]? = some x →
        (0 * 1 ≤ j → j < ([-3, -2] : List Int).length - 1 * 1 → x < 0 →
            (InputOptSGDSolver.ThresholdBlob 0 1 1 ([-3, -2] : List Int))[j]? = some 0)
        ∧ (¬ x < 0 →
            (InputOptSGDSolver.ThresholdBlob 0 1 1 ([-3, -2] : List Int))[j]? = some x) :=
  ⟨by decide, ThresholdBlob_clamps_window 0 1 1 ([-3, -2] : List Int) (by decide)⟩

/-! ## Element-wise loops on a window -/

theorem window_update_other {α : Type} (off : Nat) (f : Nat → α → α) (Y : List α)
    (i j : Nat) (h : off + i ≠ j) : (window_update off f Y i)[j]? = Y[j]? := by
  unfold window_update
  split
  · exact List.getElem?_set_ne h
  · rfl

theorem foldl_window_update {α : Type} (off : Nat) (f : Nat → α → α) (Y : List α)
    (j : Nat) :
    ∀ (n : Nat),
      ((List.range n).foldl (window_update off f) Y)[j]?
        = if off ≤ j ∧ j < off + n then (Y[j]?).map (f (j - off)) else Y[j]? := by
  intro n
  induction n with
  | zero =>
    rw [if_neg (by omega)]
    rfl
  | succ n ih =>
    rw [List.range_succ, List.foldl_append, List.foldl_cons, List.foldl_nil]
    by_cases hj : off + n = j
    · subst hj
      rw [if_neg (by omega)] at ih
      rw [if_pos (by omega)]
      generalize (List.range n).foldl (window_update off f) Y = d at ih
      unfold window_update
      rw [ih]
      have e : off + n - off = n := by omega
      cases hd : Y[off + n]? with
      | none => simp only [Option.map_none', ih, hd]
      | some y =>
        simp only [Option.map_some', e]
        exact List.getElem?_set_self (List.getElem?_eq_some_iff.mp (ih.trans hd)).1
    · rw [window_update_other off f _ n j hj, ih]
      by_cases hw : off ≤ j ∧ j < off + n
      · rw [if_pos hw, if_pos (by omega)]
      · rw [if_neg hw, if_neg (by omega)]

theorem caffe_cpu_axpby_window {α : Type} [Add α] [Mul α] (N : Nat) (alpha beta : α)
    (X Y : List α) (off j : Nat) (x y : α) (hx : X[j]? = some x) (hy : Y[j]? = some y)
    (h1 : off ≤ j) (h2 : j < off + N) :
    (caffe_cpu_axpby N alpha X off beta Y off)[j]? = some (alpha * x + beta * y) := by
  unfold caffe_cpu_axpby
  rw [foldl_window_update, if_pos ⟨h1, h2⟩, hy]
  have e : off + (j - off) = j := by omega
  simp only [Option.map_some', e, hx]

theorem caffe_copy_window {α : Type} (N : Nat) (X Y : List α) (off j : Nat) (x y : α)
    (hx : X[j]? = some x) (hy : Y[j]? = some y) (h1 : off ≤ j) (h2 : j < off + N) :
    (caffe_copy N X off Y off)[j]? = some x := by
  unfold caffe_copy
  rw [foldl_window_update, if_pos ⟨h1, h2⟩, hy]
  have e : off + (j - off) = j := by omega
  simp only [Option.map_some', e, hx]

/-! ## The update of the input blob -/

theorem ClipGradients_disabled {α : Type} [LinearOrderedField α] (sqrt : α → α)
    (s : InputOptSGDSolver α) (h : s.param_.clip_gradients < 0) :
    s.ClipGradients sqrt = s := by
  unfold InputOptSGDSolver.ClipGradients
  simp only [h, if_true]

theorem sumsq_map_mul {α : Type} [LinearOrderedField α] (c : α) (l : List α) :
    ((l.map (fun x => c * x)).map (fun x => x * x)).sum
      = c * c * (l.map (fun x => x * x)).sum := by
  induction l with
  | nil => simp
  | cons a rest ih =>
    simp only [List.map_cons, List.sum_cons, ih]
    ring

/-- C12 (counterexample).  In `sample_solver` with clipping disabled (ceiling `-1`) and
thresholding disabled, element 0 lies in the protected receptor part.  With momentum
`0.9`, rate `0.01`, old history 1 and gradient 3 the claimed new history is `0.93`;
`ApplyUpdate` leaves history 1 and gradient 3 at element 0 and subtracts the gradient
itself from the value: `10 - 3 = 7`, not `10 - 0.93`.  Element 1 is updated as
claimed. -/
theorem ApplyUpdate_skips_protected_element :
    (sample_solver ℚ (-1)).param_.clip_gradients < 0
      ∧ (sample_solver ℚ (-1)).threshold_update_ = false
      ∧ ((sample_solver ℚ (-1)).ApplyUpdate
            (sample_env ℚ id (fun _ => SolverAction.NONE))).history_
          = [1, 94 / 100]
      ∧ ((sample_solver ℚ (-1)).ApplyUpdate
            (sample_env ℚ id (fun _ => SolverAction.NONE))).input_blob_.diff
          = [3, 94 / 100]
      ∧ ((sample_solver ℚ (-1)).ApplyUpdate
            (sample_env ℚ id (fun _ => SolverAction.NONE))).input_blob_.data
          = [7, 10 - 94 / 100]
      ∧ (1 : ℚ) ≠ 9 / 10 * 1 + 1 / 100 * 3 := by
  simp [InputOptSGDSolver.ApplyUpdate, InputOptSGDSolver.ClipGradients,
    InputOptSGDSolver.ComputeUpdateValue, caffe_cpu_axpby, caffe_copy, window_update,
    Blob.Update, sample_solver, sample_env, List.range_succ]
  norm_num

/-- C12 (amended).  With clipping disabled, thresholding disabled and
`nrec_types * npoints + nlig_types * npoints <= count`, one `ApplyUpdate` (CPU path)
with momentum `m` and rate `r` sets, for every element index `e` from
`nrec_types * npoints` up to `count - nlig_types * npoints - 1` (every index of the
input tensor when both products are 0), `history[e]` to
`m * history_old[e] + r * gradient[e]`, overwrites `gradient[e]` with that value, and
sets `value[e]` to `value_old[e]` minus the new `history[e]`. -/
theorem ApplyUpdate_momentum_step_on_window {α : Type} [LinearOrderedField α]
    (env : Collaborators α) (s : InputOptSGDSolver α)
    (hclip : s.param_.clip_gradients < 0) (hthr : s.threshold_update_ = false)
    (hP : s.nrec_types * s.npoints_ + s.nlig_types * s.npoints_ ≤ s.input_blob_.data.length) :
    ∀ e v g h, s.input_blob_.data[e]? = some v → s.input_blob_.diff[e]? = some g →
      s.history_[e]? = some h →
      s.nrec_types * s.npoints_ ≤ e →
      e < s.input_blob_.data.length - s.nlig_types * s.npoints_ →
      (s.ApplyUpdate env).history_[e]?
          = some (s.param_.momentum * h + env.GetLearningRate s.iter_ * g)
        ∧ (s.ApplyUpdate env).input_blob_.diff[e]?
          = some (s.param_.momentum * h + env.GetLearningRate s.iter_ * g)
        ∧ (s.ApplyUpdate env).input_blob_.data[e]?
          = some (v - (s.param_.momentum * h + env.GetLearningRate s.iter_ * g)) := by
  intro e v g h hv hg hh h1 h2
  have hwin : e < s.nrec_types * s.npoints_
      + (s.input_blob_.data.length - s.nrec_types * s.npoints_
          - s.nlig_types * s.npoints_) := by omega
  have hhist := caffe_cpu_axpby_window _ (env.GetLearningRate s.iter_) s.param_.momentum
    s.input_blob_.diff s.history_ _ e g h hg hh h1 hwin
  rw [add_comm] at hhist
  have hdiff := caffe_copy_window _ _ s.input_blob_.diff _ e _ g hhist hg h1 hwin
  simp only [InputOptSGDSolver.ApplyUpdate, ClipGradients_disabled env.sqrt s hclip,
    InputOptSGDSolver.ComputeUpdateValue, hthr, Blob.Update, Bool.false_eq_true, if_false]
  refine ⟨hhist, hdiff, ?_⟩
  rw [List.getElem?_zipWith, hv, hdiff]

/-- Witness for the amended C12: element 1 of `sample_solver`. -/
theorem ApplyUpdate_momentum_step_on_window_witness :
    ((sample_solver ℚ (-1)).ApplyUpdate
          (sample_env ℚ id (fun _ => SolverAction.NONE))).history_[1]?
        = some (9 / 10 * 1 + 1 / 100 * 4)
      ∧ ((sample_solver ℚ (-1)).ApplyUpdate
            (sample_env ℚ id (fun _ => SolverAction.NONE))).input_blob_.diff[1]?
        = some (9 / 10 * 1 + 1 / 100 * 4)
      ∧ ((sample_solver ℚ (-1)).ApplyUpdate
            (sample_env ℚ id (fun _ => SolverAction.NONE))).input_blob_.data[1]?
        = some (10 - (9 / 10 * 1 + 1 / 100 * 4)) :=
  ApplyUpdate_momentum_step_on_window (sample_env ℚ id (fun _ => SolverAction.NONE))
    (sample_solver ℚ (-1)) (by simp [sample_solver]) rfl (by simp [sample_solver])
    1 10 4 1 rfl rfl rfl (by simp [sample_solver]) (by simp [sample_solver])

/-! ## Gradient clipping -/

/-- C13. For every gradient whose L2 norm `g` (the square root of the sum of squares,
`sqrt` being a square root there) exceeds the ceiling and every ceiling above 0,
`ClipGradients` multiplies every component by the same factor `ceiling / g`, which is
positive (same direction); the sum of squares of the result is `ceiling * ceiling`, so
its L2 norm, the one number `n >= 0` with `n * n` equal to that sum, is exactly the
ceiling.  Stated for any ordered field, in particular the reals with the real
square root. -/
theorem ClipGradients_scales_to_ceiling {α : Type} [LinearOrderedField α] (sqrt : α → α)
    (s : InputOptSGDSolver α)
    (hsqrt : sqrt s.input_blob_.sumsq_diff * sqrt s.input_blob_.sumsq_diff
      = s.input_blob_.sumsq_diff)
    (hc : 0 < s.param_.clip_gradients)
    (hg : s.param_.clip_gradients < sqrt s.input_blob_.sumsq_diff) :
    (s.ClipGradients sqrt).input_blob_.diff
        = s.input_blob_.diff.map
            (fun x => s.param_.clip_gradients / sqrt s.input_blob_.sumsq_diff * x)
      ∧ 0 < s.param_.clip_gradients / sqrt s.input_blob_.sumsq_diff
      ∧ (s.ClipGradients sqrt).input_blob_.sumsq_diff
        = s.param_.clip_gradients * s.param_.clip_gradients
      ∧ ∀ n, 0 ≤ n → n * n = (s.ClipGradients sqrt).input_blob_.sumsq_diff →
          n = s.param_.clip_gradients := by
  have hgpos : 0 < sqrt s.input_blob_.sumsq_diff := lt_trans hc hg
  have hdiff : (s.ClipGradients sqrt).input_blob_.diff
      = s.input_blob_.diff.map
          (fun x => s.param_.clip_gradients / sqrt s.input_blob_.sumsq_diff * x) := by
    unfold InputOptSGDSolver.ClipGradients
    simp only [not_lt.mpr (le_of_lt hc), if_false, gt_iff_lt, hg, if_true, Blob.scale_diff]
  have hsum : (s.ClipGradients sqrt).input_blob_.sumsq_diff
      = s.param_.clip_gradients * s.param_.clip_gradients := by
    unfold Blob.sumsq_diff
    rw [hdiff, sumsq_map_mul]
    have h2 : (s.input_blob_.diff.map (fun x => x * x)).sum
        = sqrt s.input_blob_.sumsq_diff * sqrt s.input_blob_.sumsq_diff := hsqrt.symm
    rw [h2]
    field_simp
  refine ⟨hdiff, div_pos hc hgpos, hsum, ?_⟩
  intro n hn hnn
  rw [hsum] at hnn
  exact (mul_self_inj hn (le_of_lt hc)).mp hnn

/-- Witness for C13 over the reals: gradient `[3, 4]` of norm 5, ceiling 1. -/
theorem ClipGradients_scales_to_ceiling_witness :
    ((sample_solver ℝ 1).ClipGradients Real.sqrt).input_blob_.diff
        = (sample_solver ℝ 1).input_blob_.diff.map
            (fun x => (sample_solver ℝ 1).param_.clip_gradients
              / Real.sqrt (sample_solver ℝ 1).input_blob_.sumsq_diff * x)
      ∧ 0 < (sample_solver ℝ 1).param_.clip_gradients
          / Real.sqrt (sample_solver ℝ 1).input_blob_.sumsq_diff
      ∧ ((sample_solver ℝ 1).ClipGradients Real.sqrt).input_blob_.sumsq_diff
        = (sample_solver ℝ 1).param_.clip_gradients * (sample_solver ℝ 1).param_.clip_gradients
      ∧ ∀ n, 0 ≤ n →
          n * n = ((sample_solver ℝ 1).ClipGradients Real.sqrt).input_blob_.sumsq_diff →
          n = (sample_solver ℝ 1).param_.clip_gradients :=
  ClipGradients_scales_to_ceiling Real.sqrt (sample_solver ℝ 1)
    (Real.mul_self_sqrt (by simp [sample_solver, Blob.sumsq_diff]; norm_num))
    (by simp [sample_solver])
    (by
      rw [Real.lt_sqrt (by simp [sample_solver])]
      simp [sample_solver, Blob.sumsq_diff]
      norm_num)

/-- C14. `ClipGradients` never scales the gradient up: for every gradient, every
ceiling and whatever `sqrt` returns, each component after clipping has a magnitude at
most its magnitude before; and the gradient is left exactly unchanged whenever the
ceiling is negative or the L2 norm does not exceed the ceiling. -/
theorem ClipGradients_never_scales_up {α : Type} [LinearOrderedField α] (sqrt : α → α)
    (s : InputOptSGDSolver α) :
    (s.ClipGradients sqrt).input_blob_.diff.length = s.input_blob_.diff.length
      ∧ (∀ (e : Nat) (x : α), s.input_blob_.diff[e]? = some x →
          ∃ y, (s.ClipGradients sqrt).input_blob_.diff[e]? = some y ∧ |y| ≤ |x|)
      ∧ ((s.param_.clip_gradients < 0
            ∨ sqrt s.input_blob_.sumsq_diff ≤ s.param_.clip_gradients) →
          (s.ClipGradients sqrt).input_blob_.diff = s.input_blob_.diff) := by
  by_cases hneg : s.param_.clip_gradients < 0
  · have e : s.ClipGradients sqrt = s := ClipGradients_disabled sqrt s hneg
    rw [e]
    exact ⟨rfl, fun _ x hx => ⟨x, hx, le_refl |x|⟩, fun _ => rfl⟩
  · by_cases hg : sqrt s.input_blob_.sumsq_diff > s.param_.clip_gradients
    · have hdiff : (s.ClipGradients sqrt).input_blob_.diff
          = s.input_blob_.diff.map
              (fun x => s.param_.clip_gradients / sqrt s.input_blob_.sumsq_diff * x) := by
        unfold InputOptSGDSolver.ClipGradients
        simp only [hneg, if_false, hg, if_true, Blob.scale_diff]
      have hc : 0 ≤ s.param_.clip_gradients := not_lt.mp hneg
      have hgpos : 0 < sqrt s.input_blob_.sumsq_diff := lt_of_le_of_lt hc hg
      have hf0 : 0 ≤ s.param_.clip_gradients / sqrt s.input_blob_.sumsq_diff :=
        div_nonneg hc (le_of_lt hgpos)
      have hf1 : s.param_.clip_gradients / sqrt s.input_blob_.sumsq_diff ≤ 1 :=
        (div_le_one hgpos).mpr (le_of_lt hg)
      refine ⟨by rw [hdiff, List.length_map], ?_, ?_⟩
      · intro e x hx
        refine ⟨_, by rw [hdiff, List.getElem?_map, hx]; rfl, ?_⟩
        rw [abs_mul, abs_of_nonneg hf0]
        exact mul_le_of_le_one_left (abs_nonneg x) hf1
      · intro h
        rcases h with h | h
        · exact absurd h hneg
        · exact absurd hg (not_lt.mpr h)
    · have e : s.ClipGradients sqrt = s := by
        unfold InputOptSGDSolver.ClipGradients
        simp only [hneg, if_false, hg]
      rw [e]
      exact ⟨rfl, fun _ x hx => ⟨x, hx, le_refl |x|⟩, fun _ => rfl⟩

/-- Witness for C14 over the reals: the ceiling `-1` leaves the gradient `[3, 4]`
unchanged. -/
theorem ClipGradients_never_scales_up_witness :
    ((sample_solver ℝ (-1)).param_.clip_gradients < 0
        ∨ Real.sqrt (sample_solver ℝ (-1)).input_blob_.sumsq_diff
          ≤ (sample_solver ℝ (-1)).param_.clip_gradients)
      ∧ ((sample_solver ℝ (-1)).ClipGradients Real.sqrt).input_blob_.diff
        = (sample_solver ℝ (-1)).input_blob_.diff :=
  ⟨Or.inl (by simp [sample_solver]),
    (ClipGradients_never_scales_up Real.sqrt (sample_solver ℝ (-1))).2.2
      (Or.inl (by simp [sample_solver]))⟩

/-! ## `ToggleMaxToAve` and the pooling methods -/

theorem set_eq_self_of_getElem? {β : Type} (l : List β) (i : Nat) (a : β)
    (h : l[i]? = some a) : l.set i a = l := by
  apply List.ext_getElem?
  intro j
  rw [List.getElem?_set]
  by_cases hij : i = j
  · subst hij
    rw [if_pos rfl, if_pos (List.getElem?_eq_some_iff.mp h).1, h]
  · rw [if_neg hij]

theorem ToggleMaxToAve_scan_stop (ls : List Layer) :
    ∀ (i m : Nat) (l : Layer), ls[m]? = some l → l.stops_search = true →
      (∀ (j : Nat) (l2 : Layer), j < m → ls[j]? = some l2 → l2.stops_search = false) →
      InputOptSGDSolver.ToggleMaxToAve_scan ls i
        = if l.pool.isSome then some (i + m) else none := by
  induction ls with
  | nil => intro i m l h; simp at h
  | cons a rest ih =>
    intro i m l h hs hb
    cases m with
    | zero =>
      simp only [List.getElem?_cons_zero, Option.some.injEq] at h
      subst h
      simp only [InputOptSGDSolver.ToggleMaxToAve_scan, Nat.add_zero]
      by_cases hp : a.pool.isSome = true
      · simp only [hp, if_true]
      · simp only [hp, Bool.false_eq_true, if_false]
        simp only [Layer.stops_search, hp, Bool.false_or, Bool.or_eq_true,
          decide_eq_true_eq] at hs
        rcases hs with hc | hi
        · simp only [hc, if_true]
        · simp only [hi, if_true, ite_self]
    | succ m =>
      have ha := hb 0 a (Nat.succ_pos m) (List.getElem?_cons_zero)
      simp only [Layer.stops_search, Bool.or_eq_false_iff, decide_eq_false_iff_not] at ha
      simp only [List.getElem?_cons_succ] at h
      simp only [InputOptSGDSolver.ToggleMaxToAve_scan, ha.1.1, Bool.false_eq_true, if_false,
        ha.1.2, ha.2]
      rw [ih (i + 1) m l h hs (fun j l2 hj hl => hb (j + 1) l2 (by omega) (by simpa using hl))]
      have e : i + 1 + m = i + (m + 1) := by omega
      rw [e]

theorem ToggleMaxToAve_scan_no_stop (ls : List Layer) :
    ∀ (i : Nat), (∀ (j : Nat) (l2 : Layer), ls[j]? = some l2 → l2.stops_search = false) →
      InputOptSGDSolver.ToggleMaxToAve_scan ls i = none := by
  induction ls with
  | nil => intro i _; rfl
  | cons a rest ih =>
    intro i hb
    have ha := hb 0 a (List.getElem?_cons_zero)
    simp only [Layer.stops_search, Bool.or_eq_false_iff, decide_eq_false_iff_not] at ha
    simp only [InputOptSGDSolver.ToggleMaxToAve_scan, ha.1.1, Bool.false_eq_true, if_false,
      ha.1.2, ha.2]
    exact ih (i + 1) (fun j l2 hl => hb (j + 1) l2 (by simpa using hl))

theorem ToggleMaxToAve_restore (layers : List Layer) :
    (match (InputOptSGDSolver.ToggleMaxToAve layers).1 with
      | some p =>
        Layer.set_pool (InputOptSGDSolver.ToggleMaxToAve layers).2 p
          PoolingParameter_PoolMethod.MAX
      | none => (InputOptSGDSolver.ToggleMaxToAve layers).2) = layers := by
  unfold InputOptSGDSolver.ToggleMaxToAve
  cases hscan : InputOptSGDSolver.ToggleMaxToAve_scan (layers.drop 1) 1 with
  | none => rfl
  | some i =>
    cases hl : layers[i]? with
    | none => simp only [hl]
    | some l =>
      by_cases hm : l.pool = some PoolingParameter_PoolMethod.MAX
      · simp only [hl, hm, if_true]
        have hi : i < layers.length := (List.getElem?_eq_some_iff.mp hl).1
        simp only [Layer.set_pool, hl, List.getElem?_set_self hi, List.set_set]
        apply set_eq_self_of_getElem?
        rw [hl]
        cases l
        simp only at hm
        simp [hm]
      · simp only [hl, hm, if_false]

/-- C18. For every layer sequence, `ToggleMaxToAve` looks at the layers from index 1 on
and stops at the first one that is a pooling layer, a Convolution layer or an
InnerProduct layer.  If that layer is a pooling layer whose method is MAX, it is
switched to AVE (no other layer changes) and returned; if it is anything else, or if
there is no such layer, the result is null and no layer changes. -/
theorem ToggleMaxToAve_first_stop (layers : List Layer) :
    (∀ (i : Nat) (l : Layer), 1 ≤ i → layers[i]? = some l → l.stops_search = true →
        (∀ (j : Nat) (l2 : Layer), 1 ≤ j → j < i → layers[j]? = some l2 →
          l2.stops_search = false) →
        (l.pool = some PoolingParameter_PoolMethod.MAX →
            InputOptSGDSolver.ToggleMaxToAve layers
              = (some i, layers.set i { l with pool := some PoolingParameter_PoolMethod.AVE }))
          ∧ (l.pool ≠ some PoolingParameter_PoolMethod.MAX →
            InputOptSGDSolver.ToggleMaxToAve layers = (none, layers)))
      ∧ ((∀ (j : Nat) (l2 : Layer), 1 ≤ j → layers[j]? = some l2 →
            l2.stops_search = false) →
          InputOptSGDSolver.ToggleMaxToAve layers = (none, layers)) := by
  constructor
  · intro i l hi hl hs hb
    have hscan := ToggleMaxToAve_scan_stop (layers.drop 1) 1 (i - 1) l
      (by rw [List.getElem?_drop]; rw [show 1 + (i - 1) = i by omega]; exact hl) hs
      (fun j l2 hj hl2 => hb (1 + j) l2 (by omega) (by omega)
        (by rw [List.getElem?_drop] at hl2; exact hl2))
    rw [show 1 + (i - 1) = i by omega] at hscan
    constructor
    · intro hm
      unfold InputOptSGDSolver.ToggleMaxToAve
      simp only [hscan, hm, Option.isSome_some, if_true, hl, Layer.set_pool]
    · intro hm
      unfold InputOptSGDSolver.ToggleMaxToAve
      rw [hscan]
      by_cases hp : l.pool.isSome = true
      · simp only [hp, if_true, hl, hm, if_false]
      · simp only [hp, Bool.false_eq_true, if_false]
  · intro hb
    have hscan := ToggleMaxToAve_scan_no_stop (layers.drop 1) 1
      (fun j l2 hl2 => hb (1 + j) l2 (by omega)
        (by rw [List.getElem?_drop] at hl2; exact hl2))
    unfold InputOptSGDSolver.ToggleMaxToAve
    rw [hscan]

/-- Witness for C18 on the layers of `sample_solver`: layer 1 is the first stopping
layer and a max-pooling layer. -/
theorem ToggleMaxToAve_first_stop_witness :
    InputOptSGDSolver.ToggleMaxToAve (sample_solver ℚ 0).layers
      = (some 1,
          (sample_solver ℚ 0).layers.set 1
            { ({ type := "Pooling", pool := some PoolingParameter_PoolMethod.MAX } : Layer) with
              pool := some PoolingParameter_PoolMethod.AVE }) :=
  ((ToggleMaxToAve_first_stop (sample_solver ℚ 0).layers).1 1
    { type := "Pooling", pool := some PoolingParameter_PoolMethod.MAX } (Nat.le_refl 1) rfl rfl
    (fun j _ h1 h2 _ => absurd h1 (by omega))).1 rfl

/-- C19. For every layer sequence, after a gradient-accumulation sub-step of `Step`
(forward, `ToggleMaxToAve`, backward, restore) every layer is as it was before the
sub-step, in particular its pooling method: a layer switched from MAX to AVE is set
back to MAX and no other layer is set to MAX; the backward pass in between sees the
layers as `ToggleMaxToAve` left them.  The same holds after all `iter_size` sub-steps of
an iteration. -/
theorem Step_substep_restores_pooling {α : Type} [LinearOrderedField α]
    (env : Collaborators α) (s : InputOptSGDSolver α) (i : Nat) :
    (s.Step_substep env i).layers = s.layers
      ∧ (s.Step_substep env i).layers.map Layer.pool = s.layers.map Layer.pool
      ∧ (s.Step_substep env i).input_blob_.diff
          = env.Backward s.iter_ i (InputOptSGDSolver.ToggleMaxToAve s.layers).2 s.input_blob_
      ∧ (s.Step_advance env).layers = s.layers := by
  have h1 : ∀ (t : InputOptSGDSolver α) (k : Nat), (t.Step_substep env k).layers = t.layers := by
    intro t k
    have hr := ToggleMaxToAve_restore t.layers
    unfold InputOptSGDSolver.Step_substep
    simp only [InputOptSGDSolver.call]
    cases hp : (InputOptSGDSolver.ToggleMaxToAve t.layers).1 with
    | none => rw [hp] at hr; simpa using hr
    | some p => rw [hp] at hr; simpa using hr
  have h2 : ∀ (ks : List Nat) (t : InputOptSGDSolver α),
      (ks.foldl (InputOptSGDSolver.Step_substep env) t).layers = t.layers := by
    intro ks
    induction ks with
    | nil => intro t; rfl
    | cons k rest ih => intro t; rw [List.foldl_cons, ih, h1]
  refine ⟨h1 s i, by rw [h1 s i], ?_, ?_⟩
  · unfold InputOptSGDSolver.Step_substep
    simp only [InputOptSGDSolver.call]
    cases (InputOptSGDSolver.ToggleMaxToAve s.layers).1 <;> rfl
  · unfold InputOptSGDSolver.Step_advance
    have h3 : ∀ t : InputOptSGDSolver α, (t.ApplyUpdate env).layers = t.layers := by
      intro t
      unfold InputOptSGDSolver.ApplyUpdate InputOptSGDSolver.ComputeUpdateValue
        InputOptSGDSolver.ClipGradients
      simp only
      split_ifs <;> rfl
    simp only [h3, InputOptSGDSolver.call, h2]

/-! ## Fields the update and the sub-steps leave alone -/

theorem ApplyUpdate_frame {α : Type} [LinearOrderedField α] (env : Collaborators α)
    (s : InputOptSGDSolver α) :
    (s.ApplyUpdate env).param_ = s.param_ ∧ (s.ApplyUpdate env).iter_ = s.iter_
      ∧ (s.ApplyUpdate env).requested_early_exit_ = s.requested_early_exit_
      ∧ (s.ApplyUpdate env).calls = s.calls
      ∧ (s.ApplyUpdate env).snapshots = s.snapshots := by
  unfold InputOptSGDSolver.ApplyUpdate InputOptSGDSolver.ComputeUpdateValue
    InputOptSGDSolver.ClipGradients
  simp only
  split_ifs <;> exact ⟨rfl, rfl, rfl, rfl, rfl⟩

theorem Step_substep_frame {α : Type} [LinearOrderedField α] (env : Collaborators α)
    (s : InputOptSGDSolver α) (i : Nat) :
    (s.Step_substep env i).param_ = s.param_ ∧ (s.Step_substep env i).iter_ = s.iter_
      ∧ (s.Step_substep env i).requested_early_exit_ = s.requested_early_exit_
      ∧ (s.Step_substep env i).calls = s.calls ++ [Call.ForwardFrom 1, Call.Backward]
      ∧ (s.Step_substep env i).snapshots = s.snapshots := by
  unfold InputOptSGDSolver.Step_substep
  simp only [InputOptSGDSolver.call]
  cases (InputOptSGDSolver.ToggleMaxToAve s.layers).1 <;>
    exact ⟨rfl, rfl, rfl, by simp, rfl⟩

theorem Step_accumulate_frame {α : Type} [LinearOrderedField α] (env : Collaborators α) :
    ∀ (n : Nat) (s : InputOptSGDSolver α),
      ((List.range n).foldl (InputOptSGDSolver.Step_substep env) s).param_ = s.param_
        ∧ ((List.range n).foldl (InputOptSGDSolver.Step_substep env) s).iter_ = s.iter_
        ∧ ((List.range n).foldl (InputOptSGDSolver.Step_substep env) s).requested_early_exit_
            = s.requested_early_exit_
        ∧ ((List.range n).foldl (InputOptSGDSolver.Step_substep env) s).calls
            = s.calls ++ substep_calls n
        ∧ ((List.range n).foldl (InputOptSGDSolver.Step_substep env) s).snapshots
            = s.snapshots := by
  intro n
  induction n with
  | zero => intro s; simp [substep_calls]
  | succ n ih =>
    intro s
    rw [List.range_succ, List.foldl_append, List.foldl_cons, List.foldl_nil]
    obtain ⟨h1, h2, h3, h4, h5⟩ := ih s
    obtain ⟨g1, g2, g3, g4, g5⟩ := Step_substep_frame env
      ((List.range n).foldl (InputOptSGDSolver.Step_substep env) s) n
    refine ⟨g1.trans h1, g2.trans h2, g3.trans h3, ?_, g5.trans h5⟩
    rw [g4, h4, substep_calls, List.append_assoc]

theorem Step_advance_frame {α : Type} [LinearOrderedField α] (env : Collaborators α)
    (s : InputOptSGDSolver α) :
    (s.Step_advance env).param_ = s.param_ ∧ (s.Step_advance env).iter_ = s.iter_ + 1
      ∧ (s.Step_advance env).requested_early_exit_ = s.requested_early_exit_
      ∧ (s.Step_advance env).calls
          = s.calls ++ substep_calls s.param_.iter_size.toNat ++ [Call.ApplyUpdate]
      ∧ (s.Step_advance env).snapshots = s.snapshots := by
  obtain ⟨h1, h2, h3, h4, h5⟩ := Step_accumulate_frame env s.param_.iter_size.toNat s
  unfold InputOptSGDSolver.Step_advance
  generalize (List.range s.param_.iter_size.toNat).foldl
    (InputOptSGDSolver.Step_substep env) s = t at h1 h2 h3 h4 h5
  obtain ⟨g1, g2, g3, g4, g5⟩ := ApplyUpdate_frame env (t.call Call.ApplyUpdate)
  refine ⟨g1.trans h1, congrArg (fun x => x + 1) (g2.trans h2), g3.trans h3, ?_, g5.trans h5⟩
  refine g4.trans ?_
  show t.calls ++ [Call.ApplyUpdate] = _
  rw [h4]

/-! ## The counts of the blobs are kept -/

theorem length_window_update {α : Type} (off : Nat) (f : Nat → α → α) (Y : List α)
    (i : Nat) : (window_update off f Y i).length = Y.length := by
  unfold window_update
  split
  · exact List.length_set _ _ _
  · rfl

theorem length_foldl_window_update {α : Type} (off : Nat) (f : Nat → α → α)
    (is : List Nat) :
    ∀ (Y : List α), (is.foldl (window_update off f) Y).length = Y.length := by
  induction is with
  | nil => intro Y; rfl
  | cons i rest ih =>
    intro Y
    rw [List.foldl_cons, ih, length_window_update]

theorem ClipGradients_well_formed {α : Type} [LinearOrderedField α] (sqrt : α → α)
    (s : InputOptSGDSolver α) (hwf : s.well_formed) : (s.ClipGradients sqrt).well_formed := by
  unfold InputOptSGDSolver.ClipGradients
  simp only
  split_ifs
  · exact hwf
  · obtain ⟨w1, w2, w3, w4⟩ := hwf
    refine ⟨w1, w2, ?_, w4⟩
    show (s.input_blob_.diff.map _).length = s.input_blob_.data.length
    rw [List.length_map]
    exact w3
  · exact hwf

theorem ComputeUpdateValue_well_formed {α : Type} [LinearOrderedField α] (rate : α)
    (s : InputOptSGDSolver α) (hwf : s.well_formed) :
    (s.ComputeUpdateValue rate).well_formed := by
  obtain ⟨w1, w2, w3, w4⟩ := hwf
  refine ⟨w1, w2, ?_, ?_⟩
  · show (caffe_copy _ _ _ s.input_blob_.diff _).length = s.input_blob_.data.length
    unfold caffe_copy
    rw [length_foldl_window_update]
    exact w3
  · show (caffe_cpu_axpby _ _ _ _ _ s.history_ _).length = s.input_blob_.data.length
    unfold caffe_cpu_axpby
    rw [length_foldl_window_update]
    exact w4

theorem ApplyUpdate_well_formed {α : Type} [LinearOrderedField α] (env : Collaborators α)
    (s : InputOptSGDSolver α) (hwf : s.well_formed) : (s.ApplyUpdate env).well_formed := by
  have h := ComputeUpdateValue_well_formed (env.GetLearningRate s.iter_)
    (s.ClipGradients env.sqrt) (ClipGradients_well_formed env.sqrt s hwf)
  unfold InputOptSGDSolver.ApplyUpdate
  simp only
  generalize (s.ClipGradients env.sqrt).ComputeUpdateValue (env.GetLearningRate s.iter_) = u
    at h
  obtain ⟨w1, w2, w3, w4⟩ := h
  have hlen : (u.input_blob_.Update).data.length = u.input_blob_.data.length := by
    show (List.zipWith _ u.input_blob_.data u.input_blob_.diff).length = _
    rw [List.length_zipWith, w3, Nat.min_self]
  split_ifs
  · refine ⟨?_, ?_, ?_, ?_⟩
    · show _ ≤ (InputOptSGDSolver.ThresholdBlob _ _ _ (u.input_blob_.Update).data).length
      unfold InputOptSGDSolver.ThresholdBlob
      rw [InputOptSGDSolver_length_foldl_threshold, hlen]
      exact w1
    · show (InputOptSGDSolver.ThresholdBlob _ _ _ (u.input_blob_.Update).data).length ≤ _
      unfold InputOptSGDSolver.ThresholdBlob
      rw [InputOptSGDSolver_length_foldl_threshold, hlen]
      exact w2
    · show u.input_blob_.diff.length
        = (InputOptSGDSolver.ThresholdBlob _ _ _ (u.input_blob_.Update).data).length
      unfold InputOptSGDSolver.ThresholdBlob
      rw [InputOptSGDSolver_length_foldl_threshold, hlen]
      exact w3
    · show u.history_.length
        = (InputOptSGDSolver.ThresholdBlob _ _ _ (u.input_blob_.Update).data).length
      unfold InputOptSGDSolver.ThresholdBlob
      rw [InputOptSGDSolver_length_foldl_threshold, hlen]
      exact w4
  · refine ⟨?_, ?_, ?_, ?_⟩
    · show _ ≤ (u.input_blob_.Update).data.length
      rw [hlen]; exact w1
    · show (u.input_blob_.Update).data.length ≤ _
      rw [hlen]; exact w2
    · show u.input_blob_.diff.length = (u.input_blob_.Update).data.length
      rw [hlen]; exact w3
    · show u.history_.length = (u.input_blob_.Update).data.length
      rw [hlen]; exact w4

theorem Step_substep_well_formed {α : Type} (env : Collaborators α)
    (s : InputOptSGDSolver α) (i : Nat) (henv : env.keeps_count) (hwf : s.well_formed) :
    (s.Step_substep env i).well_formed := by
  obtain ⟨w1, w2, w3, w4⟩ := hwf
  unfold InputOptSGDSolver.Step_substep
  simp only [InputOptSGDSolver.call]
  cases (InputOptSGDSolver.ToggleMaxToAve s.layers).1 <;>
    exact ⟨w1, w2, (henv.2 _ _ _ _).trans w3, w4⟩

theorem Step_accumulate_well_formed {α : Type} (env : Collaborators α)
    (henv : env.keeps_count) :
    ∀ (n : Nat) (s : InputOptSGDSolver α), s.well_formed →
      ((List.range n).foldl (InputOptSGDSolver.Step_substep env) s).well_formed := by
  intro n
  induction n with
  | zero => intro s hwf; exact hwf
  | succ n ih =>
    intro s hwf
    rw [List.range_succ, List.foldl_append, List.foldl_cons, List.foldl_nil]
    exact Step_substep_well_formed env _ n henv (ih s hwf)

theorem Step_advance_well_formed {α : Type} [LinearOrderedField α] (env : Collaborators α)
    (s : InputOptSGDSolver α) (henv : env.keeps_count) (hwf : s.well_formed) :
    (s.Step_advance env).well_formed := by
  have h := Step_accumulate_well_formed env henv s.param_.iter_size.toNat s hwf
  unfold InputOptSGDSolver.Step_advance
  generalize (List.range s.param_.iter_size.toNat).foldl
    (InputOptSGDSolver.Step_substep env) s = t at h
  have h2 : (t.call Call.ApplyUpdate).well_formed := h
  exact ApplyUpdate_well_formed env _ h2

theorem Step_tested_well_formed {α : Type} (env : Collaborators α)
    (s : InputOptSGDSolver α) (hwf : s.well_formed) : (s.Step_tested env).well_formed := by
  unfold InputOptSGDSolver.Step_tested
  simp only [InputOptSGDSolver.call]
  split_ifs <;> exact hwf

theorem Step_body_well_formed {α : Type} [LinearOrderedField α] (env : Collaborators α)
    (s : InputOptSGDSolver α) (henv : env.keeps_count) (hwf : s.well_formed) :
    (s.Step_body env).1.well_formed := by
  have h1 := Step_tested_well_formed env s hwf
  have h2 := Step_advance_well_formed env (s.Step_tested env) henv h1
  unfold InputOptSGDSolver.Step_body
  simp only
  generalize (s.Step_tested env).Step_advance env = u at h2
  generalize s.Step_tested env = v at h1
  split_ifs <;> first | exact h1 | exact h2

/-! ## One pass of the loop of `Step` -/

theorem Step_tested_frame {α : Type} (env : Collaborators α) (s : InputOptSGDSolver α)
    (hflag : s.requested_early_exit_ = false) (htest : env.TestAll s.iter_ = false) :
    (s.Step_tested env).param_ = s.param_ ∧ (s.Step_tested env).iter_ = s.iter_
      ∧ (s.Step_tested env).requested_early_exit_ = false
      ∧ (s.Step_tested env).calls
          = s.calls ++ [Call.ClearParamDiffs]
            ++ (if s.param_.test_due s.iter_ && env.root_solver then [Call.TestAll] else [])
      ∧ (s.Step_tested env).snapshots = s.snapshots
      ∧ (s.Step_tested env).layers = s.layers := by
  unfold InputOptSGDSolver.Step_tested
  simp only [InputOptSGDSolver.call]
  by_cases h : (s.param_.test_due s.iter_ && env.root_solver) = true
  · simp only [h, if_true, hflag, htest, Bool.or_self, and_self]
  · simp only [h, Bool.false_eq_true, if_false, hflag, List.append_nil, and_self]

theorem Step_body_spec {α : Type} [LinearOrderedField α] (env : Collaborators α)
    (s : InputOptSGDSolver α)
    (hflag : s.requested_early_exit_ = false) (htest : env.TestAll s.iter_ = false) :
    ((s.Step_body env).2 = decide (env.GetRequestedAction (s.iter_ + 1) = SolverAction.STOP))
      ∧ (s.Step_body env).1.param_ = s.param_
      ∧ (s.Step_body env).1.iter_ = s.iter_ + 1
      ∧ (s.Step_body env).1.requested_early_exit_
          = decide (env.GetRequestedAction (s.iter_ + 1) = SolverAction.STOP)
      ∧ (s.Step_body env).1.calls = s.calls ++ iteration_calls env s.param_ s.iter_
      ∧ (s.Step_body env).1.snapshots
          = s.snapshots ++
            (if s.param_.snapshot_due env.root_solver (s.iter_ + 1)
                (env.GetRequestedAction (s.iter_ + 1)) then
              [(s.Step_body env).1.SnapshotSolverStateToBinaryProto] else [])
      ∧ (s.Step_body env).1.layers = s.layers
      ∧ (s.Step_body env).1.input_blob_ = ((s.Step_tested env).Step_advance env).input_blob_
      ∧ (s.Step_body env).1.history_ = ((s.Step_tested env).Step_advance env).history_ := by
  obtain ⟨t1, t2, t3, t4, t5, t6⟩ := Step_tested_frame env s hflag htest
  obtain ⟨a1, a2, a3, a4, a5⟩ := Step_advance_frame env (s.Step_tested env)
  have a6 := (Step_substep_restores_pooling env (s.Step_tested env) 0).2.2.2
  rw [t1] at a1 a4
  rw [t2] at a2
  rw [t3] at a3
  rw [t4] at a4
  rw [t5] at a5
  rw [t6] at a6
  unfold InputOptSGDSolver.Step_body iteration_calls
  simp only [t3, Bool.and_false, Bool.false_eq_true, if_false, a1, a2]
  generalize (s.Step_tested env).Step_advance env = u at a1 a2 a3 a4 a5 a6
  generalize env.GetRequestedAction (s.iter_ + 1) = req
  generalize s.param_.snapshot_due env.root_solver (s.iter_ + 1) req = d
  cases d <;> cases req <;>
    simp [InputOptSGDSolver.Snapshot, InputOptSGDSolver.SnapshotSolverStateToBinaryProto,
      a1, a2, a3, a4, a5, a6]

/-! ## Runs of the loop of `Step` -/

theorem Step_loop_run {α : Type} [LinearOrderedField α] (env : Collaborators α)
    (stop_iter : Int) :
    ∀ (k fuel : Nat) (s : InputOptSGDSolver α), k ≤ fuel → s.iter_ + k ≤ stop_iter →
      s.requested_early_exit_ = false →
      (∀ j : Nat, j < k → env.TestAll (s.iter_ + j) = false) →
      (∀ j : Nat, 1 ≤ j → j ≤ k →
        env.GetRequestedAction (s.iter_ + j) ≠ SolverAction.STOP) →
      ∃ t, InputOptSGDSolver.Step_loop env stop_iter fuel s
            = InputOptSGDSolver.Step_loop env stop_iter (fuel - k) t
        ∧ t.param_ = s.param_ ∧ t.iter_ = s.iter_ + k
        ∧ t.requested_early_exit_ = false
        ∧ t.calls = s.calls ++ run_calls env s.param_ s.iter_ k
        ∧ t.layers = s.layers
        ∧ (k = 0 → t = s)
        ∧ (1 ≤ k →
            s.param_.snapshot_due env.root_solver (s.iter_ + k)
              (env.GetRequestedAction (s.iter_ + k)) = true →
            t.snapshots.getLast? = some t.SnapshotSolverStateToBinaryProto)
        ∧ (env.keeps_count → s.well_formed → t.well_formed) := by
  intro k
  induction k with
  | zero =>
    intro fuel s _ _ hflag _ _
    exact ⟨s, rfl, rfl, by simp, hflag, by simp [run_calls], rfl, fun _ => rfl,
      fun h => absurd h (by omega), fun _ h => h⟩
  | succ k ih =>
    intro fuel s hfuel hstop hflag htest hreq
    obtain ⟨f, rfl⟩ : ∃ f, fuel = f + 1 := ⟨fuel - 1, by omega⟩
    have hlt : s.iter_ < stop_iter := by push_cast at hstop; omega
    have ht0 : env.TestAll s.iter_ = false := by
      have := htest 0 (Nat.succ_pos k)
      simpa using this
    have hr1 : env.GetRequestedAction (s.iter_ + 1) ≠ SolverAction.STOP := by
      have := hreq 1 (Nat.le_refl 1) (by omega)
      simpa using this
    obtain ⟨b1, b2, b3, b4, b5, b6, b7, -, -⟩ := Step_body_spec env s hflag ht0
    simp only [hr1, decide_False] at b1 b4
    have hshift : ∀ j : Nat, (s.Step_body env).1.iter_ + (j : Int)
        = s.iter_ + ((j + 1 : Nat) : Int) := by
      intro j
      rw [b3]
      push_cast
      ring
    obtain ⟨t, h1, h2, h3, h4, h5, h6, h7, h8, h9⟩ := ih f (s.Step_body env).1 (by omega)
      (by rw [hshift]; exact hstop) b4
      (fun j hj => by rw [hshift]; exact htest (j + 1) (by omega))
      (fun j hj1 hj2 => by rw [hshift]; exact hreq (j + 1) (by omega) (by omega))
    refine ⟨t, ?_, h2.trans b2, ?_, h4, ?_, h6.trans b7, fun h => absurd h (by omega), ?_,
      fun henv hwf => h9 henv (Step_body_well_formed env s henv hwf)⟩
    · rw [InputOptSGDSolver.Step_loop, if_pos hlt]
      simp only [b1, Bool.false_eq_true, if_false]
      rw [h1, Nat.add_sub_add_right]
    · rw [h3, hshift]
    · rw [h5, b5, b2, b3, run_calls, List.append_assoc]
    · intro _ hdue
      by_cases hk : k = 0
      · subst hk
        rw [h7 rfl, b6]
        simp only [Nat.zero_add, Nat.cast_one] at hdue
        simp only [hdue, if_true]
        exact List.getLast?_concat _
      · apply h8 (by omega)
        rw [b2, hshift]
        exact hdue

theorem Step_loop_done {α : Type} [LinearOrderedField α] (env : Collaborators α)
    (stop_iter : Int) (fuel : Nat) (s : InputOptSGDSolver α) (h : ¬ s.iter_ < stop_iter) :
    InputOptSGDSolver.Step_loop env stop_iter fuel s = some s := by
  cases fuel with
  | zero => rw [InputOptSGDSolver.Step_loop, if_neg h]
  | succ f => rw [InputOptSGDSolver.Step_loop, if_neg h]

theorem substep_calls_count (m : Nat) :
    (substep_calls m).count (Call.ForwardFrom 1) = m
      ∧ (substep_calls m).count Call.Backward = m
      ∧ (substep_calls m).count Call.ApplyUpdate = 0
      ∧ (substep_calls m).count Call.ClearParamDiffs = 0 := by
  induction m with
  | zero => simp [substep_calls]
  | succ m ih =>
    obtain ⟨h1, h2, h3, h4⟩ := ih
    simp [substep_calls, List.count_cons, h1, h2, h3, h4]

theorem iteration_calls_count {α : Type} (env : Collaborators α) (p : SolverParameter α)
    (iter : Int) :
    (iteration_calls env p iter).count Call.ClearParamDiffs = 1
      ∧ (iteration_calls env p iter).count (Call.ForwardFrom 1) = p.iter_size.toNat
      ∧ (iteration_calls env p iter).count Call.Backward = p.iter_size.toNat
      ∧ (iteration_calls env p iter).count Call.ApplyUpdate = 1 := by
  obtain ⟨h1, h2, h3, h4⟩ := substep_calls_count p.iter_size.toNat
  unfold iteration_calls
  split_ifs <;> simp [List.count_cons, h1, h2, h3, h4]

theorem run_calls_count {α : Type} (env : Collaborators α) (p : SolverParameter α) :
    ∀ (n : Nat) (iter : Int),
      (run_calls env p iter n).count Call.ClearParamDiffs = n
        ∧ (run_calls env p iter n).count (Call.ForwardFrom 1) = n * p.iter_size.toNat
        ∧ (run_calls env p iter n).count Call.Backward = n * p.iter_size.toNat
        ∧ (run_calls env p iter n).count Call.ApplyUpdate = n := by
  intro n
  induction n with
  | zero => intro iter; simp [run_calls]
  | succ n ih =>
    intro iter
    obtain ⟨h1, h2, h3, h4⟩ := ih (iter + 1)
    obtain ⟨g1, g2, g3, g4⟩ := iteration_calls_count env p iter
    simp only [run_calls, List.count_append, h1, h2, h3, h4, g1, g2, g3, g4]
    refine ⟨by omega, by ring, by ring, by omega⟩

theorem run_calls_succ_last {α : Type} (env : Collaborators α) (p : SolverParameter α) :
    ∀ (k : Nat) (iter : Int),
      run_calls env p iter (k + 1)
        = run_calls env p iter k ++ iteration_calls env p (iter + k) := by
  intro k
  induction k with
  | zero => intro iter; simp [run_calls]
  | succ k ih =>
    intro iter
    rw [run_calls, ih (iter + 1), run_calls, List.append_assoc]
    have e : iter + 1 + (k : Int) = iter + ((k + 1 : Nat) : Int) := by push_cast; ring
    rw [e]

theorem Step_unfold {α : Type} [LinearOrderedField α] (env : Collaborators α)
    (fuel : Nat) (iters : Int) (s : InputOptSGDSolver α)
    (hmin : int_min ≤ s.iter_ + iters) (hmax : s.iter_ + iters ≤ int_max) :
    ∃ s0, s.Step env fuel iters = InputOptSGDSolver.Step_loop env (s.iter_ + iters) fuel s0
      ∧ s0.param_ = s.param_ ∧ s0.iter_ = s.iter_
      ∧ s0.requested_early_exit_ = s.requested_early_exit_
      ∧ s0.calls = s.calls ++ (if s.iter_ = 0 then [Call.ForwardFromTo 0 0] else [])
      ∧ s0.layers = s.layers
      ∧ (env.keeps_count → s.well_formed → s0.well_formed) := by
  unfold InputOptSGDSolver.Step
  simp only [hmin, hmax, and_self, if_true]
  by_cases h : s.iter_ = 0
  · simp only [h, if_true]
    refine ⟨_, rfl, rfl, h.symm ▸ rfl, rfl, rfl, rfl, ?_⟩
    intro henv hwf
    obtain ⟨w1, w2, w3, w4⟩ := hwf
    obtain ⟨e1, e2⟩ := henv.1 s.input_blob_
    refine ⟨?_, ?_, ?_, ?_⟩
    · show _ ≤ (env.ForwardFromTo_0_0 s.input_blob_).data.length
      rw [e1]; exact w1
    · show (env.ForwardFromTo_0_0 s.input_blob_).data.length ≤ _
      rw [e1]; exact w2
    · show (env.ForwardFromTo_0_0 s.input_blob_).diff.length
        = (env.ForwardFromTo_0_0 s.input_blob_).data.length
      rw [e1, e2]; exact w3
    · show s.history_.length = (env.ForwardFromTo_0_0 s.input_blob_).data.length
      rw [e1]; exact w4
  · simp only [h, if_false]
    exact ⟨s, rfl, rfl, rfl, rfl, by simp, rfl, fun _ hwf => hwf⟩

/-! ## The claims on `Step`

The solver is taken well formed (`InputOptSGDSolver.well_formed`), the net is taken to
leave the count of the input blob alone (`Collaborators.keeps_count`), and the
iteration counter is taken non-negative with `iter_ + iters` in the range of `int`:
outside these the source leaves the arrays or overflows a signed counter. -/

theorem sample_solver_well_formed (α : Type) [LinearOrderedField α] (c : α) :
    (sample_solver α c).well_formed :=
  ⟨by show 1 * 1 + 0 * 1 ≤ 2; decide, by show 2 ≤ 2147483647; decide, rfl, rfl⟩

theorem sample_solver_snapshot_well_formed (α : Type) [LinearOrderedField α] (S : Int) :
    (sample_solver_snapshot α S).well_formed :=
  ⟨by show 1 * 1 + 0 * 1 ≤ 2; decide, by show 2 ≤ 2147483647; decide, rfl, rfl⟩

theorem sample_env_keeps_count (α : Type) [LinearOrderedField α] (sqrt : α → α)
    (request : Int → SolverAction) : (sample_env α sqrt request).keeps_count :=
  ⟨fun _ => ⟨rfl, rfl⟩, fun _ _ _ _ => rfl⟩

/-- C15. For every well-formed solver at a starting iteration count `s >= 0` and every
`n >= 0` with `s + n` in the range of `int`, when the early-exit flag is not set, no
test raises it and no poll answers STOP, `Step(n)` terminates (any number of passes
from `n` on suffices) having run exactly `n` iterations, each one clearing the
parameter diffs, running forward from layer 1 and backward `iter_size` times and
applying one update, in that order; it leaves `iter_` equal to its starting value plus
`n`, so `Step(1)` increments it by exactly 1, and it leaves the solver well formed. -/
theorem Step_runs_planned_iterations {α : Type} [LinearOrderedField α]
    (env : Collaborators α) (s : InputOptSGDSolver α) (n fuel : Nat) (hfuel : n ≤ fuel)
    (hwf : s.well_formed) (henv : env.keeps_count)
    (hiter : 0 ≤ s.iter_) (hmax : s.iter_ + n ≤ int_max)
    (hflag : s.requested_early_exit_ = false)
    (htest : ∀ j : Nat, j < n → env.TestAll (s.iter_ + j) = false)
    (hreq : ∀ j : Nat, 1 ≤ j → j ≤ n →
      env.GetRequestedAction (s.iter_ + j) ≠ SolverAction.STOP) :
    ∃ s2, s.Step env fuel n = some s2
      ∧ s2.iter_ = s.iter_ + n
      ∧ s2.requested_early_exit_ = false
      ∧ s2.calls
          = s.calls ++ (if s.iter_ = 0 then [Call.ForwardFromTo 0 0] else [])
            ++ run_calls env s.param_ s.iter_ n
      ∧ (run_calls env s.param_ s.iter_ n).count Call.ClearParamDiffs = n
      ∧ (run_calls env s.param_ s.iter_ n).count (Call.ForwardFrom 1)
          = n * s.param_.iter_size.toNat
      ∧ (run_calls env s.param_ s.iter_ n).count Call.Backward
          = n * s.param_.iter_size.toNat
      ∧ (run_calls env s.param_ s.iter_ n).count Call.ApplyUpdate = n
      ∧ s2.well_formed := by
  have hmin : int_min ≤ s.iter_ + n := by unfold int_min; omega
  obtain ⟨s0, e0, p0, i0, f0, c0, -, w0⟩ := Step_unfold env fuel n s hmin hmax
  obtain ⟨t, h1, h2, h3, h4, h5, -, -, -, h9⟩ := Step_loop_run env (s.iter_ + n) n fuel s0
    hfuel (by rw [i0]) (f0.trans hflag) (fun j hj => by rw [i0]; exact htest j hj)
    (fun j hj1 hj2 => by rw [i0]; exact hreq j hj1 hj2)
  obtain ⟨g1, g2, g3, g4⟩ := run_calls_count env s.param_ n s.iter_
  refine ⟨t, ?_, by rw [h3, i0], h4, by rw [h5, c0, p0, i0], g1, g2, g3, g4,
    h9 henv (w0 henv hwf)⟩
  rw [e0, h1]
  exact Step_loop_done env _ _ t (by rw [h3, i0]; omega)

/-- Witness for C15: `Step(1)` on `sample_solver` with a request channel that never
answers STOP. -/
theorem Step_runs_planned_iterations_witness :
    (sample_solver ℚ (-1)).well_formed
      ∧ (sample_env ℚ id (fun _ => SolverAction.NONE)).keeps_count
      ∧ 0 ≤ (sample_solver ℚ (-1)).iter_
      ∧ (sample_solver ℚ (-1)).iter_ + ((1 : Nat) : Int) ≤ int_max
      ∧ ∃ s2, (sample_solver ℚ (-1)).Step (sample_env ℚ id (fun _ => SolverAction.NONE)) 1
          ((1 : Nat) : Int) = some s2
      ∧ s2.iter_ = (sample_solver ℚ (-1)).iter_ + ((1 : Nat) : Int)
      ∧ s2.requested_early_exit_ = false
      ∧ s2.calls
          = (sample_solver ℚ (-1)).calls
            ++ (if (sample_solver ℚ (-1)).iter_ = 0 then [Call.ForwardFromTo 0 0] else [])
            ++ run_calls (sample_env ℚ id (fun _ => SolverAction.NONE))
                (sample_solver ℚ (-1)).param_ (sample_solver ℚ (-1)).iter_ 1
      ∧ (run_calls (sample_env ℚ id (fun _ => SolverAction.NONE))
            (sample_solver ℚ (-1)).param_ (sample_solver ℚ (-1)).iter_ 1).count
              Call.ClearParamDiffs = 1
      ∧ (run_calls (sample_env ℚ id (fun _ => SolverAction.NONE))
            (sample_solver ℚ (-1)).param_ (sample_solver ℚ (-1)).iter_ 1).count
              (Call.ForwardFrom 1) = 1 * (sample_solver ℚ (-1)).param_.iter_size.toNat
      ∧ (run_calls (sample_env ℚ id (fun _ => SolverAction.NONE))
            (sample_solver ℚ (-1)).param_ (sample_solver ℚ (-1)).iter_ 1).count
              Call.Backward = 1 * (sample_solver ℚ (-1)).param_.iter_size.toNat
      ∧ (run_calls (sample_env ℚ id (fun _ => SolverAction.NONE))
            (sample_solver ℚ (-1)).param_ (sample_solver ℚ (-1)).iter_ 1).count
              Call.ApplyUpdate = 1
      ∧ s2.well_formed :=
  ⟨sample_solver_well_formed ℚ (-1), sample_env_keeps_count ℚ id _, by decide, by decide,
    Step_runs_planned_iterations (sample_env ℚ id (fun _ => SolverAction.NONE))
      (sample_solver ℚ (-1)) 1 1 (Nat.le_refl 1) (sample_solver_well_formed ℚ (-1))
      (sample_env_keeps_count ℚ id _) (by decide) (by decide) rfl (fun _ _ => rfl)
      (fun _ _ _ h => SolverAction.noConfusion h)⟩

/-- C16. For every well-formed solver at a starting iteration count `s >= 0`, every
planned count `n` with `s + n` in the range of `int` and every `k` with
`1 <= k <= n`, if the early-exit flag is not set, no test before raises it, and the
poll at the end of the `k`-th iteration of `Step(n)` is the first to answer STOP, then
the loop ends (any number of passes from `n` on suffices) with `iter_` equal to its
starting value plus `k` (so `iter == k` when started at 0), with the early-exit flag
set, and with the calls of exactly `k` iterations made, `k` updates among them, and
nothing after them; the solver is left well formed. -/
theorem Step_stops_after_requested_iteration {α : Type} [LinearOrderedField α]
    (env : Collaborators α) (s : InputOptSGDSolver α) (n k fuel : Nat)
    (hk1 : 1 ≤ k) (hkn : k ≤ n) (hfuel : n ≤ fuel)
    (hwf : s.well_formed) (henv : env.keeps_count)
    (hiter : 0 ≤ s.iter_) (hmax : s.iter_ + n ≤ int_max)
    (hflag : s.requested_early_exit_ = false)
    (htest : ∀ j : Nat, j < k → env.TestAll (s.iter_ + j) = false)
    (hbefore : ∀ j : Nat, 1 ≤ j → j < k →
      env.GetRequestedAction (s.iter_ + j) ≠ SolverAction.STOP)
    (hstop : env.GetRequestedAction (s.iter_ + k) = SolverAction.STOP) :
    ∃ s2, s.Step env fuel n = some s2
      ∧ s2.iter_ = s.iter_ + k
      ∧ (s.iter_ = 0 → s2.iter_ = k)
      ∧ s2.requested_early_exit_ = true
      ∧ s2.calls
          = s.calls ++ (if s.iter_ = 0 then [Call.ForwardFromTo 0 0] else [])
            ++ run_calls env s.param_ s.iter_ k
      ∧ (run_calls env s.param_ s.iter_ k).count Call.ApplyUpdate = k
      ∧ s2.well_formed := by
  obtain ⟨m, rfl⟩ : ∃ m, k = m + 1 := ⟨k - 1, by omega⟩
  have hmin : int_min ≤ s.iter_ + n := by unfold int_min; omega
  obtain ⟨s0, e0, p0, i0, f0, c0, -, w0⟩ := Step_unfold env fuel n s hmin hmax
  obtain ⟨t, h1, h2, h3, h4, h5, -, -, -, h9⟩ := Step_loop_run env (s.iter_ + n) m fuel s0
    (by omega) (by rw [i0]; omega) (f0.trans hflag)
    (fun j hj => by rw [i0]; exact htest j (by omega))
    (fun j hj1 hj2 => by rw [i0]; exact hbefore j hj1 (by omega))
  have hcast : s.iter_ + (m : Int) + 1 = s.iter_ + ((m + 1 : Nat) : Int) := by
    push_cast; ring
  have htt : env.TestAll t.iter_ = false := by
    rw [h3, i0]; exact htest m (by omega)
  obtain ⟨b1, b2, b3, b4, b5, -, -, -, -⟩ := Step_body_spec env t h4 htt
  rw [h3, i0, hcast] at b1 b3 b4
  simp only [hstop, decide_True] at b1 b4
  obtain ⟨f, hf⟩ : ∃ f, fuel - m = f + 1 := ⟨fuel - m - 1, by omega⟩
  have hlt : t.iter_ < s.iter_ + n := by rw [h3, i0]; omega
  refine ⟨(t.Step_body env).1, ?_, b3, ?_, b4, ?_, (run_calls_count env s.param_ _ _).2.2.2,
    Step_body_well_formed env t henv (h9 henv (w0 henv hwf))⟩
  · rw [e0, h1, hf, InputOptSGDSolver.Step_loop, if_pos hlt]
    simp only [b1, if_true]
  · intro h0
    rw [b3, h0]
    simp
  · rw [b5, h5, c0, h2, p0, h3, i0, run_calls_succ_last, List.append_assoc]

/-- Witness for C16: the scenario of a stop requested during iteration 3 of a planned
10, on `sample_solver` started at iteration 0. -/
theorem Step_stops_after_requested_iteration_witness :
    (sample_solver ℚ (-1)).well_formed
      ∧ (sample_env ℚ id
          (fun i => if i = 3 then SolverAction.STOP else SolverAction.NONE)).keeps_count
      ∧ 0 ≤ (sample_solver ℚ (-1)).iter_
      ∧ (sample_solver ℚ (-1)).iter_ + ((10 : Nat) : Int) ≤ int_max
      ∧ ∃ s2, (sample_solver ℚ (-1)).Step
          (sample_env ℚ id (fun i => if i = 3 then SolverAction.STOP else SolverAction.NONE))
          10 ((10 : Nat) : Int) = some s2
      ∧ s2.iter_ = (sample_solver ℚ (-1)).iter_ + ((3 : Nat) : Int)
      ∧ ((sample_solver ℚ (-1)).iter_ = 0 → s2.iter_ = ((3 : Nat) : Int))
      ∧ s2.requested_early_exit_ = true
      ∧ s2.calls
          = (sample_solver ℚ (-1)).calls
            ++ (if (sample_solver ℚ (-1)).iter_ = 0 then [Call.ForwardFromTo 0 0] else [])
            ++ run_calls
                (sample_env ℚ id
                  (fun i => if i = 3 then SolverAction.STOP else SolverAction.NONE))
                (sample_solver ℚ (-1)).param_ (sample_solver ℚ (-1)).iter_ 3
      ∧ (run_calls
            (sample_env ℚ id (fun i => if i = 3 then SolverAction.STOP else SolverAction.NONE))
            (sample_solver ℚ (-1)).param_ (sample_solver ℚ (-1)).iter_ 3).count
              Call.ApplyUpdate = 3
      ∧ s2.well_formed :=
  ⟨sample_solver_well_formed ℚ (-1), sample_env_keeps_count ℚ id _, by decide, by decide,
    Step_stops_after_requested_iteration
      (sample_env ℚ id (fun i => if i = 3 then SolverAction.STOP else SolverAction.NONE))
      (sample_solver ℚ (-1)) 10 3 10 (by decide) (by decide) (Nat.le_refl 10)
      (sample_solver_well_formed ℚ (-1)) (sample_env_keeps_count ℚ id _)
      (by decide) (by decide) rfl
      (fun _ _ => rfl)
      (fun j h1 h2 => by
        have hj : ((sample_solver ℚ (-1)).iter_ + (j : Int) = 3) = False := by
          simp only [sample_solver, eq_iff_iff, iff_false]
          omega
        simp only [sample_env, hj, if_false]
        exact fun h => SolverAction.noConfusion h)
      (by simp [sample_env, sample_solver])⟩

/-- C17. On the root solver with snapshot interval `S > 0`, for a well-formed solver
at an iteration count `s >= 0`: in a pass of the loop of `Step` that is not cut short
by a test (`s + 1` in the range of `int`), a snapshot is taken exactly when the
just-incremented `iter_` is a multiple of `S` or the polled request is SNAPSHOT; the
state it records carries that iteration count and the history and input tensor as they
are after that pass's update.  Hence a run of `n >= 1` iterations without a STOP
(`s + n` in the range of `int`) that ends on a multiple of `S` (interval 5, five
iterations from 0) leaves as its last snapshot one with the final iteration count and
the live input tensor, the solver being left well formed. -/
theorem Step_snapshot_rule {α : Type} [LinearOrderedField α] (env : Collaborators α)
    (s : InputOptSGDSolver α) (hroot : env.root_solver = true)
    (hS : 0 < s.param_.snapshot) (hwf : s.well_formed) (henv : env.keeps_count)
    (hiter : 0 ≤ s.iter_) (hflag : s.requested_early_exit_ = false) :
    (s.iter_ + 1 ≤ int_max → env.TestAll s.iter_ = false →
        (s.Step_body env).1.snapshots
          = s.snapshots ++
            (if (s.iter_ + 1) % s.param_.snapshot = 0
                ∨ env.GetRequestedAction (s.iter_ + 1) = SolverAction.SNAPSHOT then
              [{ iter := s.iter_ + 1,
                 history := ((s.Step_tested env).Step_advance env).history_,
                 datablob := ((s.Step_tested env).Step_advance env).input_blob_.data }]
            else [])
          ∧ (s.Step_body env).1.well_formed)
      ∧ (∀ n fuel : Nat, 1 ≤ n → n ≤ fuel → s.iter_ + n ≤ int_max →
          (∀ j : Nat, j < n → env.TestAll (s.iter_ + j) = false) →
          (∀ j : Nat, 1 ≤ j → j ≤ n →
            env.GetRequestedAction (s.iter_ + j) ≠ SolverAction.STOP) →
          (s.iter_ + n) % s.param_.snapshot = 0 →
          ∃ s2, s.Step env fuel n = some s2 ∧ s2.iter_ = s.iter_ + n
            ∧ s2.snapshots.getLast?
                = some { iter := s.iter_ + n, history := s2.history_,
                         datablob := s2.input_blob_.data }
            ∧ s2.well_formed) := by
  have hdue : ∀ (it : Int) (req : SolverAction),
      s.param_.snapshot_due env.root_solver it req
        = decide (it % s.param_.snapshot = 0 ∨ req = SolverAction.SNAPSHOT) := by
    intro it req
    have hne : s.param_.snapshot ≠ 0 := ne_of_gt hS
    simp [SolverParameter.snapshot_due, hroot, hne]
  constructor
  · intro _ htest
    obtain ⟨-, -, b3, -, -, b6, -, b8, b9⟩ := Step_body_spec env s hflag htest
    refine ⟨?_, Step_body_well_formed env s henv hwf⟩
    rw [b6, hdue]
    by_cases hc : (s.iter_ + 1) % s.param_.snapshot = 0
        ∨ env.GetRequestedAction (s.iter_ + 1) = SolverAction.SNAPSHOT
    · simp only [hc, decide_True, if_true, InputOptSGDSolver.SnapshotSolverStateToBinaryProto,
        b3, b8, b9]
    · simp only [hc, decide_False, Bool.false_eq_true, if_false]
  · intro n fuel hn hfuel hmax htest hreq hmult
    have hmin : int_min ≤ s.iter_ + n := by unfold int_min; omega
    obtain ⟨s0, e0, p0, i0, f0, -, -, w0⟩ := Step_unfold env fuel n s hmin hmax
    obtain ⟨t, h1, -, h3, -, -, -, -, h8, h9⟩ := Step_loop_run env (s.iter_ + n) n fuel s0
      hfuel (by rw [i0]) (f0.trans hflag) (fun j hj => by rw [i0]; exact htest j hj)
      (fun j hj1 hj2 => by rw [i0]; exact hreq j hj1 hj2)
    refine ⟨t, ?_, by rw [h3, i0], ?_, h9 henv (w0 henv hwf)⟩
    · rw [e0, h1]
      exact Step_loop_done env _ _ t (by rw [h3, i0]; omega)
    · have := h8 hn (by rw [p0, i0, hdue]; simp [hmult])
      rw [this]
      simp only [InputOptSGDSolver.SnapshotSolverStateToBinaryProto, h3, i0]

/-- Witness for C17: snapshot interval 5, five iterations from iteration 0. -/
theorem Step_snapshot_rule_witness :
    (sample_solver_snapshot ℚ 5).well_formed
      ∧ (sample_env ℚ id (fun _ => SolverAction.NONE)).keeps_count
      ∧ 0 ≤ (sample_solver_snapshot ℚ 5).iter_
      ∧ (sample_solver_snapshot ℚ 5).iter_ + ((5 : Nat) : Int) ≤ int_max
      ∧ ∃ s2, (sample_solver_snapshot ℚ 5).Step (sample_env ℚ id (fun _ => SolverAction.NONE))
          5 ((5 : Nat) : Int) = some s2
      ∧ s2.iter_ = (sample_solver_snapshot ℚ 5).iter_ + ((5 : Nat) : Int)
      ∧ s2.snapshots.getLast?
          = some { iter := (sample_solver_snapshot ℚ 5).iter_ + ((5 : Nat) : Int),
                   history := s2.history_, datablob := s2.input_blob_.data }
      ∧ s2.well_formed :=
  ⟨sample_solver_snapshot_well_formed ℚ 5, sample_env_keeps_count ℚ id _, by decide,
    by decide,
    (Step_snapshot_rule (sample_env ℚ id (fun _ => SolverAction.NONE))
      (sample_solver_snapshot ℚ 5) rfl (by simp [sample_solver_snapshot])
      (sample_solver_snapshot_well_formed ℚ 5) (sample_env_keeps_count ℚ id _)
      (by decide) rfl).2 5 5
      (by decide) (Nat.le_refl 5) (by decide) (fun _ _ => rfl)
      (fun _ _ _ h => SolverAction.noConfusion h)
      (by simp [sample_solver_snapshot, sample_solver])⟩

/-! ## The timestep counter of `LSTMDataGetterLayer` -/

theorem LSTMDataGetterLayer_step {β : Type} (forward_blobs backward_blobs : Nat → β → β)
    (l : LSTMDataGetterLayer β) (hT : 1 ≤ l.num_timesteps)
    (h : l.current_timestep ≤ l.num_timesteps - 1) :
    ((l.Forward_cpu forward_blobs).num_timesteps = l.num_timesteps
        ∧ (l.Forward_cpu forward_blobs).current_timestep
          = (if l.current_timestep = l.num_timesteps - 1 then l.current_timestep
              else l.current_timestep + 1)
        ∧ (l.Forward_cpu forward_blobs).current_timestep ≤ l.num_timesteps - 1)
      ∧ ((l.Backward_cpu backward_blobs).num_timesteps = l.num_timesteps
        ∧ (l.Backward_cpu backward_blobs).current_timestep
          = (if l.current_timestep = 0 then 0 else l.current_timestep - 1)
        ∧ (l.Backward_cpu backward_blobs).current_timestep ≤ l.num_timesteps - 1) := by
  constructor
  · unfold LSTMDataGetterLayer.Forward_cpu
    simp only [ne_eq]
    by_cases hc : (l.current_timestep : Int) = (l.num_timesteps : Int) - 1
    · have ht : l.current_timestep = l.num_timesteps - 1 := by omega
      rw [if_neg (not_not.mpr hc), if_pos ht]
      exact ⟨rfl, rfl, h⟩
    · have ht : ¬ l.current_timestep = l.num_timesteps - 1 := by omega
      rw [if_pos hc, if_neg ht]
      refine ⟨rfl, rfl, ?_⟩
      show l.current_timestep + 1 ≤ l.num_timesteps - 1
      omega
  · unfold LSTMDataGetterLayer.Backward_cpu
    simp only [ne_eq]
    by_cases ht : l.current_timestep = 0
    · rw [if_neg (not_not.mpr ht), if_pos ht]
      exact ⟨rfl, ht, by rw [ht]; exact Nat.zero_le _⟩
    · rw [if_pos ht, if_neg ht]
      refine ⟨rfl, rfl, ?_⟩
      show l.current_timestep - 1 ≤ l.num_timesteps - 1
      omega

/-- C20. In `LSTMDataGetterLayer` with `num_timesteps >= 1` and `current_timestep`
starting at 0, every sequence of `Forward_cpu` and `Backward_cpu` calls keeps
`0 <= current_timestep <= num_timesteps - 1` (and `num_timesteps` as it is): from any
state in that range `Forward_cpu` advances the timestep by one except at the last
timestep, where it stays, and `Backward_cpu` decreases it by one except at 0, where it
stays. -/
theorem LSTMDataGetterLayer_timestep_in_range {β : Type}
    (forward_blobs backward_blobs : Nat → β → β) (l : LSTMDataGetterLayer β)
    (hT : 1 ≤ l.num_timesteps) (h0 : l.current_timestep = 0) (calls : List LayerCall) :
    (0 ≤ (l.run forward_blobs backward_blobs calls).current_timestep
        ∧ (l.run forward_blobs backward_blobs calls).current_timestep ≤ l.num_timesteps - 1
        ∧ (l.run forward_blobs backward_blobs calls).num_timesteps = l.num_timesteps)
      ∧ ∀ m : LSTMDataGetterLayer β, 1 ≤ m.num_timesteps →
          m.current_timestep ≤ m.num_timesteps - 1 →
          (m.Forward_cpu forward_blobs).current_timestep
              = (if m.current_timestep = m.num_timesteps - 1 then m.current_timestep
                  else m.current_timestep + 1)
            ∧ (m.Backward_cpu backward_blobs).current_timestep
              = (if m.current_timestep = 0 then 0 else m.current_timestep - 1) := by
  have hrun : ∀ (cs : List LayerCall) (m : LSTMDataGetterLayer β), 1 ≤ m.num_timesteps →
      m.current_timestep ≤ m.num_timesteps - 1 →
      (m.run forward_blobs backward_blobs cs).current_timestep ≤ m.num_timesteps - 1
        ∧ (m.run forward_blobs backward_blobs cs).num_timesteps = m.num_timesteps := by
    intro cs
    induction cs with
    | nil => intro m _ hm; exact ⟨hm, rfl⟩
    | cons c rest ih =>
      intro m hm1 hm
      obtain ⟨⟨f1, -, f3⟩, ⟨b1, -, b3⟩⟩ :=
        LSTMDataGetterLayer_step forward_blobs backward_blobs m hm1 hm
      cases c with
      | Forward =>
        have := ih (m.Forward_cpu forward_blobs) (by rw [f1]; exact hm1) (by rw [f1]; exact f3)
        rw [f1] at this
        exact this
      | Backward =>
        have := ih (m.Backward_cpu backward_blobs) (by rw [b1]; exact hm1)
          (by rw [b1]; exact b3)
        rw [b1] at this
        exact this
  have hl := hrun calls l hT (by omega)
  refine ⟨⟨Nat.zero_le _, hl.1, hl.2⟩, ?_⟩
  intro m hm1 hm
  obtain ⟨⟨-, f2, -⟩, ⟨-, b2, -⟩⟩ :=
    LSTMDataGetterLayer_step forward_blobs backward_blobs m hm1 hm
  exact ⟨f2, b2⟩

/-- Witness for C20: five forward calls and then a backward call on a layer with four
timesteps. -/
theorem LSTMDataGetterLayer_timestep_in_range_witness :
    (0 ≤ (sample_layer.run (fun _ b => b) (fun _ b => b)
            [LayerCall.Forward, LayerCall.Forward, LayerCall.Forward, LayerCall.Forward,
              LayerCall.Forward, LayerCall.Backward]).current_timestep
        ∧ (sample_layer.run (fun _ b => b) (fun _ b => b)
            [LayerCall.Forward, LayerCall.Forward, LayerCall.Forward, LayerCall.Forward,
              LayerCall.Forward, LayerCall.Backward]).current_timestep
          ≤ sample_layer.num_timesteps - 1
        ∧ (sample_layer.run (fun _ b => b) (fun _ b => b)
            [LayerCall.Forward, LayerCall.Forward, LayerCall.Forward, LayerCall.Forward,
              LayerCall.Forward, LayerCall.Backward]).num_timesteps
          = sample_layer.num_timesteps) :=
  (LSTMDataGetterLayer_timestep_in_range (fun _ b => b) (fun _ b => b) sample_layer
    (by decide) rfl
    [LayerCall.Forward, LayerCall.Forward, LayerCall.Forward, LayerCall.Forward,
      LayerCall.Forward, LayerCall.Backward]).1

/-! ## Nested loops as one loop over the positions -/

theorem foldlM_flatMap_option {σ γ β : Type} (f : σ → β → Option σ) (g : γ → List β) :
    ∀ (l : List γ) (init : σ),
      (l.flatMap g).foldlM f init = l.foldlM (fun s a => (g a).foldlM f s) init := by
  intro l
  induction l with
  | nil => intro init; rfl
  | cons a rest ih =>
    intro init
    rw [List.flatMap_cons, List.foldlM_append, List.foldlM_cons]
    cases (g a).foldlM f init with
    | none => rfl
    | some s => exact ih s

theorem GetData_eq_foldlM_cells {α : Type} (L : LSTMDataGetter) (src dest : List α) :
    L.GetData src dest
      = L.cells.foldlM
          (fun d c => L.GetData_assign src c.1 c.2.1 c.2.2.1 c.2.2.2.1 c.2.2.2.2 d) dest := by
  unfold LSTMDataGetter.GetData LSTMDataGetter.cells
  simp only [foldlM_flatMap_option, List.foldlM_map]

theorem AccumulateDiff_eq_foldlM_cells {α : Type} [Add α] (L : LSTMDataGetter)
    (src dest : List α) :
    L.AccumulateDiff src dest
      = L.cells.foldlM
          (fun d c => L.AccumulateDiff_assign src c.1 c.2.1 c.2.2.1 c.2.2.2.1 c.2.2.2.2 d)
          dest := by
  unfold LSTMDataGetter.AccumulateDiff LSTMDataGetter.cells
  simp only [foldlM_flatMap_option, List.foldlM_map]

/-! ## The loops visit the sub-cube array position by position -/

theorem flatMap_range_range' (len s0 : Nat) (f : Nat → List Nat) :
    ∀ (n : Nat), (∀ j, j < n → f j = List.range' (s0 + j * len) len) →
      (List.range n).flatMap f = List.range' s0 (n * len) := by
  intro n
  induction n with
  | zero => intro _; simp
  | succ n ih =>
    intro h
    rw [List.range_succ, List.flatMap_append, ih (fun j hj => h j (by omega)),
      List.flatMap_cons, List.flatMap_nil, List.append_nil, h n (by omega),
      List.range'_append_1]
    congr 1
    rw [Nat.succ_mul, Nat.add_comm]

theorem cells_map_cube_exact (L : LSTMDataGetter) :
    L.cells.map (fun c =>
        (((c.1 * L.ntypes + c.2.1) * L.subgrid_dim + c.2.2.1) * L.subgrid_dim + c.2.2.2.1)
          * L.subgrid_dim + c.2.2.2.2)
      = List.range (L.batch_size * L.ntypes * L.subgrid_dim ^ 3) := by
  unfold LSTMDataGetter.cells
  simp only [List.map_flatMap, List.map_map, Function.comp_def]
  rw [List.range_eq_range' (L.batch_size * L.ntypes * L.subgrid_dim ^ 3)]
  have e : L.batch_size * L.ntypes * L.subgrid_dim ^ 3
      = L.batch_size * (L.ntypes * (L.subgrid_dim * (L.subgrid_dim * L.subgrid_dim))) := by
    ring
  rw [e]
  apply flatMap_range_range'
  intro b _
  have hb : 0 + b * (L.ntypes * (L.subgrid_dim * (L.subgrid_dim * L.subgrid_dim)))
      = b * L.ntypes * (L.subgrid_dim * (L.subgrid_dim * L.subgrid_dim)) := by ring
  rw [hb]
  apply flatMap_range_range'
  intro g _
  have hg : b * L.ntypes * (L.subgrid_dim * (L.subgrid_dim * L.subgrid_dim))
        + g * (L.subgrid_dim * (L.subgrid_dim * L.subgrid_dim))
      = (b * L.ntypes + g) * L.subgrid_dim * (L.subgrid_dim * L.subgrid_dim) := by ring
  rw [hg]
  apply flatMap_range_range'
  intro i _
  have hi : (b * L.ntypes + g) * L.subgrid_dim * (L.subgrid_dim * L.subgrid_dim)
        + i * (L.subgrid_dim * L.subgrid_dim)
      = ((b * L.ntypes + g) * L.subgrid_dim + i) * L.subgrid_dim * L.subgrid_dim := by ring
  rw [hi]
  apply flatMap_range_range'
  intro j _
  have hj : ((b * L.ntypes + g) * L.subgrid_dim + i) * L.subgrid_dim * L.subgrid_dim
        + j * L.subgrid_dim
      = (((b * L.ntypes + g) * L.subgrid_dim + i) * L.subgrid_dim + j) * L.subgrid_dim := by
    ring
  rw [hj, List.range_eq_range', List.map_add_range', Nat.add_zero]

theorem cells_map_cube_index (L : LSTMDataGetter)
    (hM : L.batch_size * L.ntypes * L.subgrid_dim ^ 3 ≤ unsigned_mod) :
    L.cells.map L.cell_cube_index
      = List.range (L.batch_size * L.ntypes * L.subgrid_dim ^ 3) := by
  have h := cells_map_cube_exact L
  have e : L.cells.map L.cell_cube_index
      = (L.cells.map (fun c =>
          (((c.1 * L.ntypes + c.2.1) * L.subgrid_dim + c.2.2.1) * L.subgrid_dim + c.2.2.2.1)
            * L.subgrid_dim + c.2.2.2.2)).map (fun n => n % unsigned_mod) := by
    rw [List.map_map]
    rfl
  rw [e, h]
  conv => rhs; rw [← List.map_id (List.range (L.batch_size * L.ntypes * L.subgrid_dim ^ 3))]
  apply List.map_congr_left
  intro n hn
  rw [List.mem_range] at hn
  exact Nat.mod_eq_of_lt (by omega)

theorem cells_length (L : LSTMDataGetter) :
    L.cells.length = L.batch_size * L.ntypes * L.subgrid_dim ^ 3 := by
  have h := congrArg List.length (cells_map_cube_exact L)
  rw [List.length_map, List.length_range] at h
  exact h

/-! ## What the two loops compute -/

theorem GetData_fold {α : Type} [Zero α] (L : LSTMDataGetter) (x : List α)
    (hdiv : L.divisors_nonzero = true) :
    ∀ (rest : List (Nat × Nat × Nat × Nat × Nat)) (done tail : List α),
      rest.map L.cell_cube_index = List.range' done.length rest.length →
      tail.length = rest.length →
      (∀ c, c ∈ rest → L.cell_grid_index c < x.length) →
      rest.foldlM
          (fun d c => L.GetData_assign x c.1 c.2.1 c.2.2.1 c.2.2.2.1 c.2.2.2.2 d)
          (done ++ tail)
        = some (done ++ rest.map (fun c => x.getD (L.cell_grid_index c) 0)) := by
  intro rest
  induction rest with
  | nil =>
    intro done tail _ ht _
    rw [List.length_nil, List.length_eq_zero] at ht
    rw [ht]
    rfl
  | cons c rest ih =>
    intro done tail hmap ht hin
    cases tail with
    | nil => simp at ht
    | cons t tail =>
      simp only [List.map_cons, List.length_cons, List.range'_succ, List.cons.injEq] at hmap
      obtain ⟨hc, hrest⟩ := hmap
      have hg := hin c (List.mem_cons_self _ _)
      have hx : x[L.grid_index c.1 c.2.2.1 c.2.2.2.1 c.2.2.2.2]?
          = some (x.getD (L.cell_grid_index c) 0) := by
        unfold LSTMDataGetter.cell_grid_index at hg ⊢
        rw [List.getD_eq_getElem?_getD, List.getElem?_eq_getElem hg]
        rfl
      have hci : L.cube_index c.1 c.2.1 c.2.2.1 c.2.2.2.1 c.2.2.2.2 = done.length := hc
      have hset : (done ++ t :: tail).set done.length (x.getD (L.cell_grid_index c) 0)
          = (done ++ [x.getD (L.cell_grid_index c) 0]) ++ tail := by
        rw [List.set_append_right _ _ (Nat.le_refl _), Nat.sub_self, List.set_cons_zero,
          List.append_assoc]
        rfl
      have hstep : L.GetData_assign x c.1 c.2.1 c.2.2.1 c.2.2.2.1 c.2.2.2.2 (done ++ t :: tail)
          = some ((done ++ [x.getD (L.cell_grid_index c) 0]) ++ tail) := by
        simp only [LSTMDataGetter.GetData_assign, hdiv, if_true, hx, hci, List.length_append,
          List.length_cons]
        rw [if_pos (by omega), hset]
      have := ih (done ++ [x.getD (L.cell_grid_index c) 0]) tail
        (by rw [List.length_append]; exact hrest) (by simpa using ht)
        (fun c2 hc2 => hin c2 (List.mem_cons_of_mem _ hc2))
      rw [List.foldlM_cons]
      simp only [hstep, Option.bind_eq_bind, Option.some_bind]
      rw [this]
      simp only [List.map_cons, List.append_assoc, List.singleton_append]

theorem length_add_at {α : Type} [Add α] (d : List α) (tv : Nat × α) :
    (add_at d tv).length = d.length := by
  unfold add_at
  split
  · exact List.length_set _ _ _
  · rfl

theorem AccumulateDiff_fold {α : Type} [Add α] (L : LSTMDataGetter)
    (hdiv : L.divisors_nonzero = true) :
    ∀ (rest : List (Nat × Nat × Nat × Nat × Nat)) (pre ys d : List α),
      rest.map L.cell_cube_index = List.range' pre.length rest.length →
      ys.length = rest.length →
      (∀ c, c ∈ rest → L.cell_grid_index c < d.length) →
      rest.foldlM
          (fun d c => L.AccumulateDiff_assign (pre ++ ys) c.1 c.2.1 c.2.2.1 c.2.2.2.1
            c.2.2.2.2 d) d
        = some (((rest.map L.cell_grid_index).zip ys).foldl add_at d) := by
  intro rest
  induction rest with
  | nil => intro pre ys d _ _ _; rfl
  | cons c rest ih =>
    intro pre ys d hmap hy hin
    cases ys with
    | nil => simp at hy
    | cons v ys =>
      simp only [List.map_cons, List.length_cons, List.range'_succ, List.cons.injEq] at hmap
      obtain ⟨hc, hrest⟩ := hmap
      have hg := hin c (List.mem_cons_self _ _)
      have hci : L.cube_index c.1 c.2.1 c.2.2.1 c.2.2.2.1 c.2.2.2.2 = pre.length := hc
      have hsrc : (pre ++ v :: ys)[pre.length]? = some v := by
        rw [List.getElem?_append_right (Nat.le_refl _), Nat.sub_self,
          List.getElem?_cons_zero]
      have hd : d[L.grid_index c.1 c.2.2.1 c.2.2.2.1 c.2.2.2.2]?
          = some (d[L.cell_grid_index c]) := List.getElem?_eq_getElem hg
      have hstep : L.AccumulateDiff_assign (pre ++ v :: ys) c.1 c.2.1 c.2.2.1 c.2.2.2.1
            c.2.2.2.2 d
          = some (add_at d (L.cell_grid_index c, v)) := by
        simp only [LSTMDataGetter.AccumulateDiff_assign, hdiv, if_true, hci, hsrc, hd]
        unfold add_at
        simp only [List.getElem?_eq_getElem hg]
        rfl
      have e : pre ++ v :: ys = (pre ++ [v]) ++ ys := by simp
      have := ih (pre ++ [v]) ys (add_at d (L.cell_grid_index c, v))
        (by rw [List.length_append]; exact hrest) (by simpa using hy)
        (fun c2 hc2 => by rw [length_add_at]; exact hin c2 (List.mem_cons_of_mem _ hc2))
      rw [← e] at this
      rw [List.foldlM_cons]
      simp only [hstep, Option.bind_eq_bind, Option.some_bind]
      rw [this]
      simp only [List.map_cons, List.zip_cons_cons, List.foldl_cons]

/-! ## Sums against an accumulated array -/

theorem add_at_cons_zero {α : Type} [Add α] (a v : α) (d : List α) :
    add_at (a :: d) (0, v) = (a + v) :: d := by
  simp [add_at]

theorem add_at_cons_succ {α : Type} [Add α] (a v : α) (d : List α) (t : Nat) :
    add_at (a :: d) (t + 1, v) = a :: add_at d (t, v) := by
  unfold add_at
  simp only [List.getElem?_cons_succ]
  cases d[t]? <;> simp

theorem dot_nil_left {α : Type} [Zero α] [Add α] [Mul α] (v : List α) : dot [] v = 0 := by
  simp [dot]

theorem dot_cons_cons {α : Type} [CommSemiring α] (a b : α) (u v : List α) :
    dot (a :: u) (b :: v) = a * b + dot u v := by
  simp [dot]

theorem dot_add_at {α : Type} [CommSemiring α] (x : List α) :
    ∀ (d : List α) (t : Nat) (v : α), t < d.length →
      dot x (add_at d (t, v)) = dot x d + x.getD t 0 * v := by
  induction x with
  | nil => intro d t v _; simp [dot_nil_left]
  | cons xh xt ih =>
    intro d t v ht
    cases d with
    | nil => simp at ht
    | cons dh dt =>
      cases t with
      | zero =>
        rw [add_at_cons_zero, dot_cons_cons, dot_cons_cons]
        simp only [List.getD_cons_zero]
        ring
      | succ t =>
        rw [add_at_cons_succ, dot_cons_cons, dot_cons_cons,
          ih dt t v (by simpa using ht)]
        simp only [List.getD_cons_succ]
        ring

theorem dot_foldl_add_at {α : Type} [CommSemiring α] (x : List α) :
    ∀ (pairs : List (Nat × α)) (d : List α), (∀ tv, tv ∈ pairs → tv.1 < d.length) →
      dot x (pairs.foldl add_at d)
        = dot x d + (pairs.map (fun tv => x.getD tv.1 0 * tv.2)).sum := by
  intro pairs
  induction pairs with
  | nil => intro d _; simp
  | cons tv rest ih =>
    intro d h
    rw [List.foldl_cons, ih (add_at d tv)
      (fun p hp => by rw [length_add_at]; exact h p (List.mem_cons_of_mem _ hp)),
      dot_add_at x d tv.1 tv.2 (h tv (List.mem_cons_self _ _))]
    simp only [List.map_cons, List.sum_cons]
    ring

theorem dot_map_getD {α : Type} [CommSemiring α] (x : List α) :
    ∀ (idxs : List Nat) (ys : List α),
      dot (idxs.map (fun q => x.getD q 0)) ys
        = ((idxs.zip ys).map (fun tv => x.getD tv.1 0 * tv.2)).sum := by
  intro idxs
  induction idxs with
  | nil => intro ys; simp [dot_nil_left]
  | cons q rest ih =>
    intro ys
    cases ys with
    | nil => simp [dot]
    | cons v ys =>
      rw [List.map_cons, dot_cons_cons, ih ys]
      simp only [List.zip_cons_cons, List.map_cons, List.sum_cons]

theorem dot_replicate_zero {α : Type} [CommSemiring α] (x : List α) :
    ∀ (n : Nat), dot x (List.replicate n (0 : α)) = 0 := by
  induction x with
  | nil => intro n; exact dot_nil_left _
  | cons xh xt ih =>
    intro n
    cases n with
    | zero => simp [dot]
    | succ n => rw [List.replicate_succ, dot_cons_cons, ih n]; simp

theorem getElem?_add_at {α : Type} [Add α] (d : List α) (tv : Nat × α) (q : Nat)
    (h : tv.1 < d.length) :
    (add_at d tv)[q]? = if tv.1 = q then (d[q]?).map (fun a => a + tv.2) else d[q]? := by
  unfold add_at
  rw [List.getElem?_eq_getElem h]
  simp only
  rw [List.getElem?_set]
  by_cases hq : tv.1 = q
  · subst hq
    rw [if_pos rfl, if_pos rfl, if_pos h, List.getElem?_eq_getElem h]
    rfl
  · rw [if_neg hq, if_neg hq]

theorem getElem?_foldl_add_at {α : Type} [CommSemiring α] (q : Nat) :
    ∀ (pairs : List (Nat × α)) (d : List α), (∀ tv, tv ∈ pairs → tv.1 < d.length) →
      (pairs.foldl add_at d)[q]?
        = (d[q]?).map (fun a =>
            a + ((pairs.filter (fun tv => decide (tv.1 = q))).map (fun tv => tv.2)).sum) := by
  intro pairs
  induction pairs with
  | nil => intro d _; simp
  | cons tv rest ih =>
    intro d h
    rw [List.foldl_cons, ih (add_at d tv)
      (fun p hp => by rw [length_add_at]; exact h p (List.mem_cons_of_mem _ hp)),
      getElem?_add_at d tv q (h tv (List.mem_cons_self _ _))]
    by_cases hq : tv.1 = q
    · rw [if_pos hq, List.filter_cons_of_pos (by simpa using hq)]
      cases d[q]? with
      | none => rfl
      | some a => simp only [Option.map_some', List.map_cons, List.sum_cons, add_assoc]
    · rw [if_neg hq, List.filter_cons_of_neg (by simpa using hq)]

/-! ## The claims on the strided-cube access -/

theorem mem_cells (L : LSTMDataGetter) (c : Nat × Nat × Nat × Nat × Nat) (h : c ∈ L.cells) :
    c.1 < L.batch_size ∧ c.2.1 < L.ntypes ∧ c.2.2.1 < L.subgrid_dim
      ∧ c.2.2.2.1 < L.subgrid_dim ∧ c.2.2.2.2 < L.subgrid_dim := by
  simp only [LSTMDataGetter.cells, List.mem_flatMap, List.mem_map, List.mem_range] at h
  obtain ⟨b, hb, g, hg, i, hi, j, hj, k, hk, rfl⟩ := h
  exact ⟨hb, hg, hi, hj, hk⟩

/-- C21 (the code at the failing input).  In `sample_getter` (`dim = subgrid_dim = 2`,
`cube_stride = 1`, `ntypes = 1`, so `factor = 1`, `example_size = 8`, timestep 0) the
source offset for batch element 0 and sub-cube position `(1, 0, 0)` is
`((1 * 2 + 0) * 2 + 0) * 2 = 8`, which is not below `(0 + 1) * example_size = 8`.  In
`sample_getter_late` (`dim = 3`, `subgrid_dim = 1`, `factor = 3`, timestep 9 of 27)
`y_offset` is `9 / 3 = 3`, beyond the grid, and the source offset for position
`(0, 0, 0)` is 54, not below `example_size = 27`. -/
theorem GetData_source_offset_leaves_block :
    (sample_getter.subgrid_dim ≤ sample_getter.dim ∧ 0 < sample_getter.cube_stride
        ∧ 1 ≤ sample_getter.ntypes
        ∧ sample_getter.example_size = sample_getter.ntypes * sample_getter.dim ^ 3
        ∧ sample_getter.current_timestep < sample_getter.factor ^ 3
        ∧ sample_getter.grid_index 0 1 0 0 = 8
        ∧ ¬ sample_getter.grid_index 0 1 0 0 < (0 + 1) * sample_getter.example_size)
      ∧ (sample_getter_late.subgrid_dim ≤ sample_getter_late.dim
        ∧ 0 < sample_getter_late.cube_stride ∧ 1 ≤ sample_getter_late.ntypes
        ∧ sample_getter_late.example_size
            = sample_getter_late.ntypes * sample_getter_late.dim ^ 3
        ∧ sample_getter_late.current_timestep < sample_getter_late.factor ^ 3
        ∧ sample_getter_late.y_offset = 3
        ∧ sample_getter_late.grid_index 0 0 0 0 = 54
        ∧ ¬ sample_getter_late.grid_index 0 0 0 0
            < (0 + 1) * sample_getter_late.example_size) := by
  decide

/-- C22 (the code at the failing input).  In `sample_getter` no divisor is 0, the full
grid has `num_timesteps * batch_size * example_size = 8` cells and the sub-cube array
8.  `GetData` on the full grid `[1, .., 8]` reads offset 8 for position `(1, 0, 0)`,
outside the array (the offset that leaves the block of the batch element in C21), and
yields no sub-cube array for the sum to be taken over; `AccumulateDiff` into the
zero-initialised full grid adds to the same offset and yields no `d` either. -/
theorem GetData_reads_outside_full_grid :
    sample_getter.divisors_nonzero = true
      ∧ ([1, 2, 3, 4, 5, 6, 7, 8] : List Int).length
        = sample_getter.num_timesteps * sample_getter.batch_size
            * sample_getter.example_size
      ∧ (List.replicate 8 (0 : Int)).length
        = sample_getter.batch_size * sample_getter.ntypes * sample_getter.subgrid_dim ^ 3
      ∧ sample_getter.grid_index 0 1 0 0 = 8
      ∧ sample_getter.GetData ([1, 2, 3, 4, 5, 6, 7, 8] : List Int) (List.replicate 8 0)
        = none
      ∧ sample_getter.AccumulateDiff ([1, 2, 3, 4, 5, 6, 7, 8] : List Int)
          (List.replicate 8 0) = none := by
  decide

/-- Where no divisor is 0 and every offset the loops use lies inside its array (the
sub-cube arrays have `batch_size * ntypes * subgrid_dim ^ 3` elements, a number within
`unsigned`, and every full-grid offset is below the length of the full-grid array),
both loops return and the strided-cube `AccumulateDiff` is the exact adjoint of the
strided-cube `GetData`: for every full-grid array `x` and every sub-cube array `y`,
the sum over sub-cube positions `p` of `GetData(x)[p] * y[p]` equals the sum over
full-grid positions `q` of `x[q] * d[q]`, where `d` is the result of
`AccumulateDiff(y)` into a zero-initialised destination, and each cell `q` of `d`
holds the sum of the `y` entries whose `GetData` read came from that cell. -/
theorem GetData_AccumulateDiff_adjoint_in_range {α : Type} [CommSemiring α]
    (L : LSTMDataGetter) (x y dest : List α)
    (hdiv : L.divisors_nonzero = true)
    (hM : L.batch_size * L.ntypes * L.subgrid_dim ^ 3 ≤ unsigned_mod)
    (hy : y.length = L.batch_size * L.ntypes * L.subgrid_dim ^ 3)
    (hdest : dest.length = L.batch_size * L.ntypes * L.subgrid_dim ^ 3)
    (hin : ∀ b, b < L.batch_size → ∀ i, i < L.subgrid_dim → ∀ j, j < L.subgrid_dim →
      ∀ k, k < L.subgrid_dim → L.grid_index b i j k < x.length) :
    ∃ gx d, L.GetData x dest = some gx
      ∧ L.AccumulateDiff y (List.replicate x.length 0) = some d
      ∧ gx.length = y.length ∧ d.length = x.length
      ∧ dot gx y = dot x d
      ∧ ∀ q, q < x.length → d[q]? = some (L.received y q) := by
  have hlen := cells_length L
  have hmap : L.cells.map L.cell_cube_index = List.range' 0 L.cells.length := by
    rw [cells_map_cube_index L hM, hlen, List.range_eq_range']
  have hin2 : ∀ c, c ∈ L.cells → L.cell_grid_index c < x.length := by
    intro c hc
    obtain ⟨hb, -, hi, hj, hk⟩ := mem_cells L c hc
    exact hin c.1 hb c.2.2.1 hi c.2.2.2.1 hj c.2.2.2.2 hk
  have hG := GetData_fold L x hdiv L.cells [] dest hmap (by rw [hdest, hlen]) hin2
  have hA := AccumulateDiff_fold L hdiv L.cells [] y (List.replicate x.length 0) hmap
    (by rw [hy, hlen]) (by rw [List.length_replicate]; exact hin2)
  simp only [List.nil_append] at hG hA
  have hpairs : ∀ tv, tv ∈ (L.cells.map L.cell_grid_index).zip y →
      tv.1 < (List.replicate x.length (0 : α)).length := by
    intro tv htv
    have h1 := (List.of_mem_zip htv).1
    rw [List.mem_map] at h1
    obtain ⟨c, hc, he⟩ := h1
    rw [List.length_replicate, ← he]
    exact hin2 c hc
  refine ⟨_, _, (GetData_eq_foldlM_cells L x dest).trans hG,
    (AccumulateDiff_eq_foldlM_cells L y _).trans hA, ?_, ?_, ?_, ?_⟩
  · rw [List.length_map, hlen, hy]
  · have hl : ∀ (pairs : List (Nat × α)) (d : List α),
        (pairs.foldl add_at d).length = d.length := by
      intro pairs
      induction pairs with
      | nil => intro d; rfl
      | cons p rest ih => intro d; rw [List.foldl_cons, ih, length_add_at]
    rw [hl, List.length_replicate]
  · rw [dot_foldl_add_at x _ _ hpairs, dot_replicate_zero, zero_add, ← dot_map_getD,
      List.map_map]
    rfl
  · intro q hq
    rw [getElem?_foldl_add_at q _ _ hpairs, List.getElem?_replicate, if_pos hq]
    simp only [Option.map_some', zero_add, LSTMDataGetter.received, List.zip_map_left,
      List.filter_map, List.map_map]
    rfl

/-- The layer `sample_getter_long` on the array of its two timesteps, 16 cells, into
which all eight source offsets `0, 2, .., 14` fall. -/
theorem GetData_AccumulateDiff_adjoint_in_range_sample :
    ([1, 2, 3, 4, 5, 6, 7, 8, 9, 10, 11, 12, 13, 14, 15, 16] : List Int).length
        = sample_getter_long.num_timesteps * sample_getter_long.batch_size
            * sample_getter_long.example_size
      ∧ ∃ gx d,
        sample_getter_long.GetData
            ([1, 2, 3, 4, 5, 6, 7, 8, 9, 10, 11, 12, 13, 14, 15, 16] : List Int)
            (List.replicate 8 0) = some gx
        ∧ sample_getter_long.AccumulateDiff ([1, 2, 3, 4, 5, 6, 7, 8] : List Int)
            (List.replicate
              ([1, 2, 3, 4, 5, 6, 7, 8, 9, 10, 11, 12, 13, 14, 15, 16] : List Int).length 0)
            = some d
        ∧ gx.length = ([1, 2, 3, 4, 5, 6, 7, 8] : List Int).length
        ∧ d.length
            = ([1, 2, 3, 4, 5, 6, 7, 8, 9, 10, 11, 12, 13, 14, 15, 16] : List Int).length
        ∧ dot gx [1, 2, 3, 4, 5, 6, 7, 8]
            = dot [1, 2, 3, 4, 5, 6, 7, 8, 9, 10, 11, 12, 13, 14, 15, 16] d
        ∧ ∀ q,
            q < ([1, 2, 3, 4, 5, 6, 7, 8, 9, 10, 11, 12, 13, 14, 15, 16] : List Int).length →
            d[q]? = some (sample_getter_long.received [1, 2, 3, 4, 5, 6, 7, 8] q) :=
  ⟨by decide, GetData_AccumulateDiff_adjoint_in_range sample_getter_long
    [1, 2, 3, 4, 5, 6, 7, 8, 9, 10, 11, 12, 13, 14, 15, 16] [1, 2, 3, 4, 5, 6, 7, 8]
    (List.replicate 8 0) (by decide) (by decide) (by decide) (by decide) (by decide)⟩

end Gnina
